import Mathlib

/-!
Precision evaluator of the dynamic occupancy grid map demo

A shallow embedding of `dogm/demo/utils/precision_evaluator.cpp`.

Conventions of the embedding:

* `float` values are elements of an arbitrary linearly ordered field `α`
  (exact arithmetic).  Rounding, infinities and NaN do not exist in `α`;
  the two places where the source divides by a quantity that can be zero are
  modelled explicitly (`computeClusterMean` returns `none` for an empty
  cluster, `printSummary` reports a `FloatQuotient`).
* What the rounding of binary32 does to the sums is examined on a second
  copy of the pipeline over the rationals, the definitions with the suffix
  `R`: every `float` operation of the source is followed by a rounding
  function there, and `roundF32` rounds to the nearest binary32 value.  With
  the identity as rounding function the copy is the exact pipeline.
* `powf (d, 2.0f)` is `d ^ 2`.
* The library routines the source calls but does not define are the fields
  of `Extern`: `sqrtf`, `std::sort` and `DBSCAN::cluster`.  What the C++
  standard promises about `std::sort` is `StdSortContract`; the routine that
  the GNU C++ library provides is `gnu_sort`.
* `std::vector` is `List`; indexing outside the vector is undefined
  behaviour and is modelled by `none`.
* The counters are `int` in C++ and are only ever incremented.  A counter
  of the model is the natural number of increments performed since the
  constructor; the value that the `int` member of 32 bits holds is
  `intValue` of it, and the two agree up to `INT_MAX`.
* The header that declares `PointWithVelocity` is not among the sources; its
  members start at zero, which the accumulation loops of the source rely on.
* `std::cout` is modelled by the list of records written to it.
* A result `none` of the cluster loop means that the call left the model: an
  index outside a vector, or a centroid of an empty cluster.
-/

namespace Dogm

/-! ## Data model -/

/-- A point with velocity: `x`, `y`, `v_x`, `v_y`. -/
structure PointWithVelocity (α : Type) where
  x : α
  y : α
  v_x : α
  v_y : α

/-- A ground-truth vehicle: `pos[0]`, `pos[1]` are `pos.1`, `pos.2` and
`vel[0]`, `vel[1]` are `vel.1`, `vel.2`. -/
structure Vehicle (α : Type) where
  pos : α × α
  vel : α × α

/-- The payload of a grid cell that the evaluator reads. -/
structure GridCell (α : Type) where
  mean_x_vel : α
  mean_y_vel : α

/-- A clustered point `Point<dogm::GridCell>`: grid position and payload. -/
structure Point (α : Type) where
  x : α
  y : α
  data : GridCell α

/-- A cluster `Cluster<dogm::GridCell>` is a vector of points. -/
abbrev Cluster (α : Type) := List (Point α)

/-- One simulation step of the ground-truth data. -/
structure SimulationStep (α : Type) where
  vehicles : List (Vehicle α)

/-- The ground-truth data `SimulationData`: one entry per step. -/
abbrev SimulationData (α : Type) := List (SimulationStep α)

/-- The members of the class `PrecisionEvaluator`. -/
structure PrecisionEvaluator (α : Type) where
  sim_data : SimulationData α
  resolution : α
  grid_size : α
  cumulative_error : PointWithVelocity α
  number_of_detections : Nat
  number_of_unassigned_detections : Nat

/-- The library routines used by the evaluator: `sqrtf`, `std::sort` with a
comparator, and `DBSCAN::cluster` with its two constructor arguments. -/
structure Extern (α : Type) where
  sqrtf : α → α
  sort : (Vehicle α → Vehicle α → Bool) → List (Vehicle α) → List (Vehicle α)
  cluster : α → Int → List (Point α) → List (Cluster α)

/-- One diagnostic record written to `std::cout` by `evaluateAndStoreStep`:
the cluster id and the error whose four components are printed. -/
structure DiagRecord (α : Type) where
  cluster_id : Int
  error : PointWithVelocity α

/-- The state of the loop over the clusters in `evaluateAndStoreStep`: the
evaluator, the local `cluster_id` and what has been written to `std::cout`. -/
structure LoopState (α : Type) where
  self : PrecisionEvaluator α
  cluster_id : Int
  cout : List (DiagRecord α)

/-- The value of a `float` division whose divisor may be zero, following
IEEE 754: a finite quotient, an infinity, or not-a-number. -/
inductive FloatQuotient (α : Type) where
  | finite (q : α)
  | inf
  | negInf
  | nan

/-- What `printSummary` writes to `std::cout`. -/
structure Summary (α : Type) where
  position_x : FloatQuotient α
  position_y : FloatQuotient α
  velocity_x : FloatQuotient α
  velocity_y : FloatQuotient α
  detections_unassigned : Nat
  maximum_possible_detections : Nat

section Code

variable {α : Type} [LinearOrderedField α]

/-! ## The code -/

/-- Constant `kMaximumAssignmentDistance = 5.0f`. -/
def kMaximumAssignmentDistance : α := 5

/-- Constant `kMaximumDbscanNeighborDistance = 3.0f`. -/
def kMaximumDbscanNeighborDistance : α := 3

/-- Constant `kMinimumNumberOfNeighbors = 5`. -/
def kMinimumNumberOfNeighbors : Int := 5

/-- Function `computeError`: the value-initialised `error` plus the
component-wise difference. -/
def computeError (cluster_mean : PointWithVelocity α) (vehicle : Vehicle α) :
    PointWithVelocity α :=
  let error : PointWithVelocity α := ⟨0, 0, 0, 0⟩
  { x := error.x + (cluster_mean.x - vehicle.pos.1)
    y := error.y + (cluster_mean.y - vehicle.pos.2)
    v_x := error.v_x + (cluster_mean.v_x - vehicle.vel.1)
    v_y := error.v_y + (cluster_mean.v_y - vehicle.vel.2) }

/-- Function `computeDbscanClusters`. -/
def computeDbscanClusters (E : Extern α) (cells_with_velocity : List (Point α)) :
    List (Cluster α) :=
  E.cluster kMaximumDbscanNeighborDistance kMinimumNumberOfNeighbors cells_with_velocity

/-- The constructor of `PrecisionEvaluator`; `cumulative_error` starts at
zero. -/
def PrecisionEvaluator.create (sim_data : SimulationData α) (resolution grid_size : α) :
    PrecisionEvaluator α :=
  { sim_data := sim_data
    resolution := resolution
    grid_size := grid_size
    cumulative_error := ⟨0, 0, 0, 0⟩
    number_of_detections := 0
    number_of_unassigned_detections := 0 }

/-- The summation loop of `computeClusterMean`. -/
def clusterSum (cluster : Cluster α) : PointWithVelocity α :=
  cluster.foldl
    (fun cluster_mean point =>
      { x := cluster_mean.x + point.x
        y := cluster_mean.y + point.y
        v_x := cluster_mean.v_x + point.data.mean_x_vel
        v_y := cluster_mean.v_y + point.data.mean_y_vel })
    ⟨0, 0, 0, 0⟩

/-- Method `computeClusterMean`.  For an empty cluster the source divides
zero by zero; the result has no counterpart in exact arithmetic and is
`none`. -/
def computeClusterMean (self : PrecisionEvaluator α) (cluster : Cluster α) :
    Option (PointWithVelocity α) :=
  let cluster_mean := clusterSum cluster
  if cluster.length = 0 then none
  else
    let size : α := (cluster.length : α)
    let scaled : PointWithVelocity α :=
      { x := (cluster_mean.x / size) * self.resolution
        y := (cluster_mean.y / size) * self.resolution
        v_x := (cluster_mean.v_x / size) * self.resolution
        v_y := (cluster_mean.v_y / size) * self.resolution }
    some { x := scaled.x
           y := self.grid_size - scaled.y
           v_x := scaled.v_x
           v_y := -scaled.v_y }

/-- Method `accumulateErrors`.  The four sums are exact here; the same method
with binary32 sums is `accumulateErrorsR`.  The counter is the number of
increments; the `int` member holds `intValue` of it. -/
def accumulateErrors (self : PrecisionEvaluator α) (error : PointWithVelocity α) :
    PrecisionEvaluator α :=
  { self with
    cumulative_error :=
      { x := self.cumulative_error.x + |error.x|
        y := self.cumulative_error.y + |error.y|
        v_x := self.cumulative_error.v_x + |error.v_x|
        v_y := self.cumulative_error.v_y + |error.v_y| }
    number_of_detections := self.number_of_detections + 1 }

/-- The expression `sqrtf(powf(cluster_mean.x - vehicle.pos[0], 2.0f) +
powf(cluster_mean.y - vehicle.pos[1], 2.0f))`, which the source writes out
three times. -/
def distance (E : Extern α) (cluster_mean : PointWithVelocity α) (vehicle : Vehicle α) : α :=
  E.sqrtf ((cluster_mean.x - vehicle.pos.1) ^ 2 + (cluster_mean.y - vehicle.pos.2) ^ 2)

/-- The vector `matching_groundtruth_vehicles` after the inner loop: the
vehicles of the step whose distance is below the maximum, in order. -/
def matchingGroundtruthVehicles (E : Extern α) (cluster_mean : PointWithVelocity α)
    (groundtruth_vehicles : List (Vehicle α)) : List (Vehicle α) :=
  groundtruth_vehicles.filter
    (fun vehicle => decide (distance E cluster_mean vehicle < kMaximumAssignmentDistance))

/-- The comparator given to `std::sort`. -/
def closerThan (E : Extern α) (cluster_mean : PointWithVelocity α) (a b : Vehicle α) : Bool :=
  decide (distance E cluster_mean a < distance E cluster_mean b)

/-- The local `closest_vehicle`: element `0` of the matching vehicles after
`std::sort`. -/
def closestVehicle (E : Extern α) (cluster_mean : PointWithVelocity α)
    (matching_groundtruth_vehicles : List (Vehicle α)) : Option (Vehicle α) :=
  (E.sort (closerThan E cluster_mean) matching_groundtruth_vehicles).head?

/-- The statement `++number_of_unassigned_detections`.  The counter is the
number of increments; the `int` member holds `intValue` of it. -/
def recordUnassigned (self : PrecisionEvaluator α) : PrecisionEvaluator α :=
  { self with number_of_unassigned_detections := self.number_of_unassigned_detections + 1 }

/-- The body of the cluster loop of `evaluateAndStoreStep` after the
centroid has been computed. -/
def evaluateCentroid (E : Extern α) (groundtruth_vehicles : List (Vehicle α))
    (print_current_precision : Bool) (s : LoopState α) (cluster_mean : PointWithVelocity α) :
    Option (LoopState α) :=
  let matching_groundtruth_vehicles :=
    matchingGroundtruthVehicles E cluster_mean groundtruth_vehicles
  if matching_groundtruth_vehicles.length = 0 then
    some { s with self := recordUnassigned s.self }
  else
    match closestVehicle E cluster_mean matching_groundtruth_vehicles with
    | none => none
    | some closest_vehicle =>
      let error := computeError cluster_mean closest_vehicle
      some { self := accumulateErrors s.self error
             cluster_id := s.cluster_id + 1
             cout := if print_current_precision then s.cout ++ [⟨s.cluster_id, error⟩]
                     else s.cout }

/-- The body of the cluster loop of `evaluateAndStoreStep`. -/
def evaluateCluster (E : Extern α) (groundtruth_vehicles : List (Vehicle α))
    (print_current_precision : Bool) (s : LoopState α) (cluster : Cluster α) :
    Option (LoopState α) :=
  match computeClusterMean s.self cluster with
  | none => none
  | some cluster_mean =>
    evaluateCentroid E groundtruth_vehicles print_current_precision s cluster_mean

/-- The cluster loop of `evaluateAndStoreStep`. -/
def evaluateClusters (E : Extern α) (groundtruth_vehicles : List (Vehicle α))
    (print_current_precision : Bool) : LoopState α → List (Cluster α) → Option (LoopState α)
  | s, [] => some s
  | s, cluster :: rest =>
    match evaluateCluster E groundtruth_vehicles print_current_precision s cluster with
    | none => none
    | some s1 => evaluateClusters E groundtruth_vehicles print_current_precision s1 rest

/-- The element `sim_data[simulation_step_index]`, when it exists. -/
def stepAt (sim_data : SimulationData α) (simulation_step_index : Int) :
    Option (SimulationStep α) :=
  if 0 ≤ simulation_step_index then sim_data.get? simulation_step_index.toNat else none

/-- Method `evaluateAndStoreStep`: the evaluator after the call and the
records written to `std::cout`. -/
def evaluateAndStoreStep (E : Extern α) (self : PrecisionEvaluator α)
    (simulation_step_index : Int) (cells_with_velocity : List (Point α))
    (print_current_precision : Bool) : Option (PrecisionEvaluator α × List (DiagRecord α)) :=
  match stepAt self.sim_data simulation_step_index with
  | none => none
  | some step =>
    let groundtruth_vehicles := step.vehicles
    if cells_with_velocity.length > 0 ∧ groundtruth_vehicles.length > 0 then
      let clusters := computeDbscanClusters E cells_with_velocity
      match evaluateClusters E groundtruth_vehicles print_current_precision
          ⟨self, 0, []⟩ clusters with
      | none => none
      | some s => some (s.self, s.cout)
    else some (self, [])

/-- The division `sum / number_of_detections` of `printSummary`, with the
IEEE 754 value when the count is zero. -/
def floatDiv (sum : α) (count : Nat) : FloatQuotient α :=
  if count = 0 then
    if sum = 0 then FloatQuotient.nan
    else if 0 < sum then FloatQuotient.inf
    else FloatQuotient.negInf
  else FloatQuotient.finite (sum / (count : α))

/-- Method `printSummary`.  The last line reads `sim_data[0]`, which does not
exist for an empty data set; the product is computed in `size_t`. -/
def printSummary (self : PrecisionEvaluator α) : Option (Summary α) :=
  match self.sim_data.head? with
  | none => none
  | some first =>
    some { position_x := floatDiv self.cumulative_error.x self.number_of_detections
           position_y := floatDiv self.cumulative_error.y self.number_of_detections
           velocity_x := floatDiv self.cumulative_error.v_x self.number_of_detections
           velocity_y := floatDiv self.cumulative_error.v_y self.number_of_detections
           detections_unassigned := self.number_of_unassigned_detections
           maximum_possible_detections :=
             (first.vehicles.length * self.sim_data.length) % 2 ^ 64 }

end Code

/-! ## Specification vocabulary -/

section Vocabulary

variable {α : Type} [LinearOrderedField α]

/-- The arithmetic mean of the quantity `f` over the samples of a cluster. -/
def mean (f : Point α → α) (cluster : Cluster α) : α :=
  (cluster.map f).sum / (cluster.length : α)

/-- A comparator is a strict weak ordering, the requirement `std::sort` puts
on it: irreflexive, transitive, and with a transitive incomparability. -/
def IsStrictWeakOrder {β : Type} (comp : β → β → Bool) : Prop :=
  (∀ a, comp a a = false) ∧
  (∀ a b c, comp a b = true → comp b c = true → comp a c = true) ∧
  (∀ a b c, comp a b = false → comp b a = false → comp b c = false → comp c b = false →
    comp a c = false ∧ comp c a = false)

/-- What the C++ standard promises of `std::sort` for a strict weak
ordering: the result is a rearrangement of the input in which no element is
ordered before an earlier one.  The order of equivalent elements is left
open. -/
def StdSortContract {β : Type} (sort : (β → β → Bool) → List β → List β) : Prop :=
  ∀ comp l, IsStrictWeakOrder comp →
    (sort comp l).Perm l ∧ (sort comp l).Pairwise (fun a b => comp b a = false)

/-- A sort is stable when it keeps the elements equivalent to any given
`x` in their input order (what `std::stable_sort` promises in addition). -/
def StableSort {β : Type} (sort : (β → β → Bool) → List β → List β) : Prop :=
  ∀ comp l x, IsStrictWeakOrder comp →
    (sort comp l).filter (fun y => !comp x y && !comp y x) =
      l.filter (fun y => !comp x y && !comp y x)

/-- The tie-break law for the routines `E`: whenever a vehicle is selected,
every vehicle that stands before it in the list of the step is strictly
farther from the centroid. -/
def SelectsEarliest (E : Extern α) : Prop :=
  ∀ (cluster_mean : PointWithVelocity α) (vs : List (Vehicle α)) (cv : Vehicle α),
    closestVehicle E cluster_mean (matchingGroundtruthVehicles E cluster_mean vs) = some cv →
    ∃ pre post, vs = pre ++ cv :: post ∧
      ∀ w ∈ pre, distance E cluster_mean cv < distance E cluster_mean w

/-- The evaluator `t` holds the same configuration as `s`, and its sums and
counters are those of `s` increased by `d`, `n` and `u`. -/
def OffsetBy (d : PointWithVelocity α) (n u : Nat) (s t : PrecisionEvaluator α) : Prop :=
  t.sim_data = s.sim_data ∧ t.resolution = s.resolution ∧ t.grid_size = s.grid_size ∧
  t.cumulative_error.x = s.cumulative_error.x + d.x ∧
  t.cumulative_error.y = s.cumulative_error.y + d.y ∧
  t.cumulative_error.v_x = s.cumulative_error.v_x + d.v_x ∧
  t.cumulative_error.v_y = s.cumulative_error.v_y + d.v_y ∧
  t.number_of_detections = s.number_of_detections + n ∧
  t.number_of_unassigned_detections = s.number_of_unassigned_detections + u

/-- The evaluators `s` and `t` hold the same data set, resolution and grid
size. -/
def SameConfig (s t : PrecisionEvaluator α) : Prop :=
  t.sim_data = s.sim_data ∧ t.resolution = s.resolution ∧ t.grid_size = s.grid_size

/-- The error that the cluster loop accumulates for a cluster: `none` when
the loop does not reach `computeError` for it. -/
def clusterError (E : Extern α) (self : PrecisionEvaluator α) (vs : List (Vehicle α))
    (cluster : Cluster α) : Option (PointWithVelocity α) :=
  match computeClusterMean self cluster with
  | none => none
  | some m =>
    if (matchingGroundtruthVehicles E m vs).length = 0 then none
    else (closestVehicle E m (matchingGroundtruthVehicles E m vs)).map (computeError m)

/-- The errors accumulated over a sequence of clusters, in order. -/
def matchedErrors (E : Extern α) (self : PrecisionEvaluator α) (vs : List (Vehicle α))
    (clusters : List (Cluster α)) : List (PointWithVelocity α) :=
  clusters.filterMap (clusterError E self vs)

/-- Diagnostic records for a list of errors, numbered consecutively from
`start`. -/
def diagRecords (start : Int) : List (PointWithVelocity α) → List (DiagRecord α)
  | [] => []
  | e :: es => ⟨start, e⟩ :: diagRecords (start + 1) es

/-- The loop state `s1` is the loop state `s` after `k` clusters of which those
with the errors `errs` were matched. -/
def AdvancedBy (p : Bool) (errs : List (PointWithVelocity α)) (k : Nat)
    (s s1 : LoopState α) : Prop :=
  SameConfig s.self s1.self ∧
  s1.self.cumulative_error.x = s.self.cumulative_error.x + (errs.map (fun e => |e.x|)).sum ∧
  s1.self.cumulative_error.y = s.self.cumulative_error.y + (errs.map (fun e => |e.y|)).sum ∧
  s1.self.cumulative_error.v_x =
    s.self.cumulative_error.v_x + (errs.map (fun e => |e.v_x|)).sum ∧
  s1.self.cumulative_error.v_y =
    s.self.cumulative_error.v_y + (errs.map (fun e => |e.v_y|)).sum ∧
  s1.self.number_of_detections = s.self.number_of_detections + errs.length ∧
  s1.self.number_of_unassigned_detections + errs.length =
    s.self.number_of_unassigned_detections + k ∧
  s1.cluster_id = s.cluster_id + (errs.length : Int) ∧
  s1.cout = s.cout ++ (if p = true then diagRecords s.cluster_id errs else [])

/-- The arguments of one call of `evaluateAndStoreStep`. -/
structure Call (α : Type) where
  index : Int
  cells : List (Point α)
  print_current_precision : Bool

/-- A session: the calls of `evaluateAndStoreStep` made one after the other
on the same evaluator; `none` when one of them leaves the model. -/
def runCalls (E : Extern α) : PrecisionEvaluator α → List (Call α) → Option (PrecisionEvaluator α)
  | s, [] => some s
  | s, c :: rest =>
    match evaluateAndStoreStep E s c.index c.cells c.print_current_precision with
    | none => none
    | some r => runCalls E r.1 rest

/-- The routine `sqrtf` is not below either coordinate on a sum of two
squares, as the exact square root is. -/
def SqrtDominates (E : Extern α) : Prop :=
  ∀ a b : α, |a| ≤ E.sqrtf (a ^ 2 + b ^ 2)

/-- The clusters that `evaluateAndStoreStep` loops over: those of the
clustering when there are samples and vehicles, none otherwise. -/
def clustersOf (E : Extern α) (step : SimulationStep α) (cells : List (Point α)) :
    List (Cluster α) :=
  if cells.length > 0 ∧ step.vehicles.length > 0 then computeDbscanClusters E cells else []

/-- The bounds on the position sums of an evaluator: each sum lies between
zero and five times the matched count, strictly below it when the count is
positive, and a positive count goes with a non-empty data set. -/
def PositionSumsBounded (s : PrecisionEvaluator α) : Prop :=
  0 ≤ s.cumulative_error.x ∧ s.cumulative_error.x ≤ 5 * (s.number_of_detections : α) ∧
  0 ≤ s.cumulative_error.y ∧ s.cumulative_error.y ≤ 5 * (s.number_of_detections : α) ∧
  (0 < s.number_of_detections →
    s.cumulative_error.x < 5 * (s.number_of_detections : α) ∧
    s.cumulative_error.y < 5 * (s.number_of_detections : α) ∧
    s.sim_data ≠ [])

end Vocabulary

/-! ## Concrete instances used to exercise the model -/

/-- Insertion sort with a C++ style comparator `comp a b` ("a before b"). -/
def insertionSortBy {β : Type} (comp : β → β → Bool) (l : List β) : List β :=
  l.insertionSort (fun a b => comp b a = false)

/-- A computable square root on the rationals, exact on squares. -/
def sqrtQ (q : ℚ) : ℚ := (Nat.sqrt (q.num.toNat * q.den) : ℚ) / q.den

/-- A clustering that puts all cells of a step into one cluster. -/
def oneCluster (_eps : ℚ) (_min_pts : Int) (cells : List (Point ℚ)) : List (Cluster ℚ) :=
  [cells]

/-- Library routines over the rationals with a stable sort. -/
def externQ : Extern ℚ := ⟨sqrtQ, insertionSortBy, oneCluster⟩

/-- The sample of the centroid example: grid (10, 10), velocity (1, 0). -/
def sample10 : Point ℚ := ⟨10, 10, ⟨1, 0⟩⟩

/-- An evaluator with resolution 1, grid size 100 and a single step that
holds one vehicle at (12, 90) with velocity (1, 0). -/
def evaluator100 : PrecisionEvaluator ℚ :=
  PrecisionEvaluator.create [⟨[⟨(12, 90), (1, 0)⟩]⟩] 1 100

/-- The centroid of the matching example: position (10, 90), velocity
(1, 0). -/
def centroid10 : PointWithVelocity ℚ := ⟨10, 90, 1, 0⟩

/-- The vehicle of the matching example: position (12, 90), velocity (1, 0). -/
def vehicle12 : Vehicle ℚ := ⟨(12, 90), (1, 0)⟩

/-- A vehicle at (10, 95): at distance exactly 5 from `centroid10`. -/
def vehicle95 : Vehicle ℚ := ⟨(10, 95), (0, 0)⟩

/-- A vehicle at (8, 90): at distance 2 from `centroid10`, like `vehicle12`. -/
def vehicle8 : Vehicle ℚ := ⟨(8, 90), (0, 0)⟩

/-- An evaluator whose single step holds no vehicle. -/
def evaluatorNoVehicle : PrecisionEvaluator ℚ :=
  PrecisionEvaluator.create [⟨[]⟩] 1 100

/-- The loop state at the start of the cluster loop for `evaluator100`. -/
def loopStart : LoopState ℚ := ⟨evaluator100, 0, []⟩

/-- A clustering that makes every cell a cluster of its own. -/
def splitCluster (_eps : ℚ) (_min_pts : Int) (cells : List (Point ℚ)) : List (Cluster ℚ) :=
  cells.map (fun cell => [cell])

/-- Library routines over the rationals with one cluster per cell. -/
def externSplitQ : Extern ℚ := ⟨sqrtQ, insertionSortBy, splitCluster⟩

/-- A sample at grid (14, 10) with velocity (1, 0): its centroid (14, 90) is
at distance 2 from `vehicle12`. -/
def sample14 : Point ℚ := ⟨14, 10, ⟨1, 0⟩⟩

/-- A sample at grid (18, 2) with velocity (0, 0): its centroid (18, 98) is
at distance 10 from `vehicle12`. -/
def sampleFar : Point ℚ := ⟨18, 2, ⟨0, 0⟩⟩

/-- Library routines over any field, for a given `sqrtf`, with the stable
insertion sort and all cells in one cluster. -/
def externOf {α : Type} (sqrtf : α → α) : Extern α :=
  ⟨sqrtf, insertionSortBy, fun _ _ cells => [cells]⟩

/-- The data set with one step and one vehicle at (12, 90), velocity (1, 0),
over any field. -/
def simDataOf (α : Type) [LinearOrderedField α] : SimulationData α :=
  [⟨[⟨(12, 90), (1, 0)⟩]⟩]

/-- The sample at grid (10, 10) with velocity (1, 0), over any field. -/
def sampleOf (α : Type) [LinearOrderedField α] : Point α := ⟨10, 10, ⟨1, 0⟩⟩

/-- The centroid of `sample14`: position (14, 90), velocity (1, 0). -/
def centroid14 : PointWithVelocity ℚ := ⟨14, 90, 1, 0⟩

/-- The centroid of `sampleFar`: position (18, 98), velocity (0, 0). -/
def centroidFar : PointWithVelocity ℚ := ⟨18, 98, 0, 0⟩

/-! ## The sort routine of the GNU C++ library

The routine `std::__sort` of `bits/stl_algo.h`, to which `std::sort` with a
comparator forwards: an introsort loop that partitions ranges of more than 16
elements around the median of three, followed by an insertion sort.  The
vector is a list, iterators are positions in it, and the loops carry fuel; a
result `none` means that the model was left: a position outside the vector
(which a comparator that is no strict weak order can cause), or the heap sort
that the introsort loop falls back to at depth limit zero. -/

/-- The call `std::iter_swap (i, j)`. -/
def iter_swap {β : Type} (arr : List β) (i j : Nat) : Option (List β) :=
  match arr[i]?, arr[j]? with
  | some x, some y => some ((arr.set i y).set j x)
  | _, _ => none

/-- Routine `__move_median_to_first (result, a, b, c)`. -/
def move_median_to_first {β : Type} (comp : β → β → Bool) (arr : List β) (result a b c : Nat) :
    Option (List β) :=
  match arr[a]?, arr[b]?, arr[c]? with
  | some xa, some xb, some xc =>
    if comp xa xb then
      if comp xb xc then iter_swap arr result b
      else if comp xa xc then iter_swap arr result c
      else iter_swap arr result a
    else if comp xa xc then iter_swap arr result a
    else if comp xb xc then iter_swap arr result c
    else iter_swap arr result b
  | _, _, _ => none

/-- The loop `while (comp (first, pivot)) ++first` of `__unguarded_partition`. -/
def advance_first {β : Type} (comp : β → β → Bool) (arr : List β) (pivot : Nat) :
    Nat → Nat → Option Nat
  | 0, _ => none
  | fuel + 1, first =>
    match arr[first]?, arr[pivot]? with
    | some x, some p => if comp x p then advance_first comp arr pivot fuel (first + 1) else some first
    | _, _ => none

/-- The loop `while (comp (pivot, last)) --last` of `__unguarded_partition`. -/
def retreat_last {β : Type} (comp : β → β → Bool) (arr : List β) (pivot : Nat) :
    Nat → Nat → Option Nat
  | 0, _ => none
  | fuel + 1, last =>
    match arr[last]?, arr[pivot]? with
    | some x, some p =>
      if comp p x then
        if last = 0 then none else retreat_last comp arr pivot fuel (last - 1)
      else some last
    | _, _ => none

/-- Routine `__unguarded_partition (first, last, pivot)`: the array and the
cut. -/
def unguarded_partition {β : Type} (comp : β → β → Bool) (pivot : Nat) :
    Nat → List β → Nat → Nat → Option (List β × Nat)
  | 0, _, _, _ => none
  | fuel + 1, arr, first, last =>
    match advance_first comp arr pivot (arr.length + 1) first with
    | none => none
    | some first1 =>
      if last = 0 then none
      else
        match retreat_last comp arr pivot (arr.length + 1) (last - 1) with
        | none => none
        | some last1 =>
          if first1 < last1 then
            match iter_swap arr first1 last1 with
            | none => none
            | some arr1 => unguarded_partition comp pivot fuel arr1 (first1 + 1) last1
          else some (arr, first1)

/-- Routine `__unguarded_partition_pivot (first, last)`. -/
def unguarded_partition_pivot {β : Type} (comp : β → β → Bool) (arr : List β) (first last : Nat) :
    Option (List β × Nat) :=
  let mid := first + (last - first) / 2
  match move_median_to_first comp arr first (first + 1) mid (last - 1) with
  | none => none
  | some arr1 => unguarded_partition comp first (arr.length + 1) arr1 (first + 1) last

/-- Routine `__introsort_loop (first, last, depth_limit)`.  The heap sort
taken at depth limit zero is not modelled: `none`. -/
def introsort_loop {β : Type} (comp : β → β → Bool) :
    Nat → List β → Nat → Nat → Nat → Option (List β)
  | 0, _, _, _, _ => none
  | fuel + 1, arr, first, last, depth_limit =>
    if last - first > 16 then
      if depth_limit = 0 then none
      else
        match unguarded_partition_pivot comp arr first last with
        | none => none
        | some (arr1, cut) =>
          match introsort_loop comp fuel arr1 cut last (depth_limit - 1) with
          | none => none
          | some arr2 => introsort_loop comp fuel arr2 first cut (depth_limit - 1)
    else some arr

/-- Routine `__unguarded_linear_insert (last)` with the value `val` taken
from position `last`. -/
def unguarded_linear_insert {β : Type} (comp : β → β → Bool) (val : β) :
    Nat → List β → Nat → Option (List β)
  | 0, _, _ => none
  | fuel + 1, arr, last =>
    if last = 0 then none
    else
      match arr[last - 1]? with
      | none => none
      | some next =>
        if comp val next then unguarded_linear_insert comp val fuel (arr.set last next) (last - 1)
        else some (arr.set last val)

/-- The loop of `__insertion_sort (first, last)` from position `i`, with
`count` positions left. -/
def insertion_sort_loop {β : Type} (comp : β → β → Bool) (first : Nat) :
    Nat → List β → Nat → Option (List β)
  | 0, arr, _ => some arr
  | count + 1, arr, i =>
    match arr[i]?, arr[first]? with
    | some xi, some xf =>
      if comp xi xf then
        insertion_sort_loop comp first count
          (arr.take first ++ xi :: (arr.drop first).take (i - first) ++ arr.drop (i + 1)) (i + 1)
      else
        match unguarded_linear_insert comp xi (arr.length + 1) arr i with
        | none => none
        | some arr1 => insertion_sort_loop comp first count arr1 (i + 1)
    | _, _ => none

/-- Routine `__insertion_sort (first, last)`. -/
def insertion_sort {β : Type} (comp : β → β → Bool) (arr : List β) (first last : Nat) :
    Option (List β) :=
  if first = last then some arr
  else insertion_sort_loop comp first (last - (first + 1)) arr (first + 1)

/-- Routine `__unguarded_insertion_sort (first, last)` from position `i`,
with `count` positions left. -/
def unguarded_insertion_sort {β : Type} (comp : β → β → Bool) :
    Nat → List β → Nat → Option (List β)
  | 0, arr, _ => some arr
  | count + 1, arr, i =>
    match arr[i]? with
    | none => none
    | some xi =>
      match unguarded_linear_insert comp xi (arr.length + 1) arr i with
      | none => none
      | some arr1 => unguarded_insertion_sort comp count arr1 (i + 1)

/-- Routine `__final_insertion_sort (first, last)`. -/
def final_insertion_sort {β : Type} (comp : β → β → Bool) (arr : List β) (first last : Nat) :
    Option (List β) :=
  if last - first > 16 then
    match insertion_sort comp arr first (first + 16) with
    | none => none
    | some arr1 => unguarded_insertion_sort comp (last - (first + 16)) arr1 (first + 16)
  else insertion_sort comp arr first last

/-- Routine `std::__sort (first, last, comp)` of the GNU C++ library
(`bits/stl_algo.h`), which `std::sort` calls, on the whole vector. -/
def gnu_sort {β : Type} (comp : β → β → Bool) (arr : List β) : Option (List β) :=
  if arr.length = 0 then some arr
  else
    match introsort_loop comp (arr.length + 1) arr 0 arr.length (Nat.log2 arr.length * 2) with
    | none => none
    | some arr1 => final_insertion_sort comp arr1 0 arr.length

/-- The call `std::sort (begin, end, comp)` with the GNU C++ library, as a
function on the vector.  Where `gnu_sort` leaves the model the vector is
returned as it was. -/
def gnu_sort_total {β : Type} (comp : β → β → Bool) (arr : List β) : List β :=
  (gnu_sort comp arr).getD arr

/-- Library routines over the rationals with the `std::sort` of the GNU C++
library. -/
def externGnuQ : Extern ℚ := ⟨sqrtQ, gnu_sort_total, oneCluster⟩

/-- A vehicle at (12, 90), at distance 2 from `centroid10`, with velocity
(k, 0). -/
def tiedVehicle (k : ℕ) : Vehicle ℚ := ⟨(12, 90), ((k : ℚ), 0)⟩

/-- Seventeen vehicles at (12, 90), told apart by their velocities 0 to
16. -/
def tiedVehicles : List (Vehicle ℚ) :=
  [0, 1, 2, 3, 4, 5, 6, 7, 8, 9, 10, 11, 12, 13, 14, 15, 16].map tiedVehicle

/-! ## The counters as `int` members -/

/-- The statement `++i` on an `int` member `i` of 32 bits.  At `INT_MAX` =
2147483647 the increment overflows: the C++ standard leaves the behaviour
undefined, and on two's-complement hardware the member wraps to `INT_MIN` =
-2147483648. -/
def intIncrement (z : Int) : Int :=
  if z = 2147483647 then -2147483648 else z + 1

/-- The value that an `int` counter of the evaluator holds when the model
counter, the number of increments since the constructor, is `n`: the
two's-complement value of `n` in 32 bits. -/
def intValue (n : Nat) : Int :=
  (((n + 2147483648) % 4294967296 : Nat) : Int) - 2147483648

/-! ## The pipeline with rounded `float` operations

A copy of the code over the rationals in which the result of every `float`
operation of the source (`+`, `-`, `*`, `/`, `powf`, `sqrtf`, and the
conversion of `cluster.size()` to `float`) goes through a rounding function
`rnd`.  The comparisons, `std::abs` and the unary minus are exact in binary32
and are not rounded.  `roundF32` is the rounding of IEEE 754 binary32, round
to nearest with ties to even, without the bounds on the exponent: overflow to
infinity and subnormal numbers are not modelled. -/

/-- Rounding of a rational to the nearest integer, ties to the even one. -/
def roundHalfEven (q : ℚ) : ℤ :=
  if q - ⌊q⌋ < 1 / 2 then ⌊q⌋
  else if 1 / 2 < q - ⌊q⌋ then ⌊q⌋ + 1
  else if ⌊q⌋ % 2 = 0 then ⌊q⌋ else ⌊q⌋ + 1

/-- The binary32 value nearest to a rational (round to nearest, ties to
even; 24 significant bits), for the normal range of binary32. -/
def roundF32 (x : ℚ) : ℚ :=
  (roundHalfEven (x / 2 ^ (Int.log 2 |x| - 23)) : ℚ) * 2 ^ (Int.log 2 |x| - 23)

/-- Function `computeError`, every `float` operation rounded by `rnd`. -/
def computeErrorR (rnd : ℚ → ℚ) (cluster_mean : PointWithVelocity ℚ) (vehicle : Vehicle ℚ) :
    PointWithVelocity ℚ :=
  let error : PointWithVelocity ℚ := ⟨0, 0, 0, 0⟩
  { x := rnd (error.x + rnd (cluster_mean.x - vehicle.pos.1))
    y := rnd (error.y + rnd (cluster_mean.y - vehicle.pos.2))
    v_x := rnd (error.v_x + rnd (cluster_mean.v_x - vehicle.vel.1))
    v_y := rnd (error.v_y + rnd (cluster_mean.v_y - vehicle.vel.2)) }

/-- The summation loop of `computeClusterMean`, every addition rounded by
`rnd`. -/
def clusterSumR (rnd : ℚ → ℚ) (cluster : Cluster ℚ) : PointWithVelocity ℚ :=
  cluster.foldl
    (fun cluster_mean point =>
      { x := rnd (cluster_mean.x + point.x)
        y := rnd (cluster_mean.y + point.y)
        v_x := rnd (cluster_mean.v_x + point.data.mean_x_vel)
        v_y := rnd (cluster_mean.v_y + point.data.mean_y_vel) })
    ⟨0, 0, 0, 0⟩

/-- Method `computeClusterMean`, every `float` operation rounded by `rnd`,
the conversion of `cluster.size()` to `float` included. -/
def computeClusterMeanR (rnd : ℚ → ℚ) (self : PrecisionEvaluator ℚ) (cluster : Cluster ℚ) :
    Option (PointWithVelocity ℚ) :=
  let cluster_mean := clusterSumR rnd cluster
  if cluster.length = 0 then none
  else
    let size : ℚ := rnd (cluster.length : ℚ)
    let scaled : PointWithVelocity ℚ :=
      { x := rnd (rnd (cluster_mean.x / size) * self.resolution)
        y := rnd (rnd (cluster_mean.y / size) * self.resolution)
        v_x := rnd (rnd (cluster_mean.v_x / size) * self.resolution)
        v_y := rnd (rnd (cluster_mean.v_y / size) * self.resolution) }
    some { x := scaled.x
           y := rnd (self.grid_size - scaled.y)
           v_x := scaled.v_x
           v_y := -scaled.v_y }

/-- Method `accumulateErrors`, every `+=` on a `float` member rounded by
`rnd`. -/
def accumulateErrorsR (rnd : ℚ → ℚ) (self : PrecisionEvaluator ℚ) (error : PointWithVelocity ℚ) :
    PrecisionEvaluator ℚ :=
  { self with
    cumulative_error :=
      { x := rnd (self.cumulative_error.x + |error.x|)
        y := rnd (self.cumulative_error.y + |error.y|)
        v_x := rnd (self.cumulative_error.v_x + |error.v_x|)
        v_y := rnd (self.cumulative_error.v_y + |error.v_y|) }
    number_of_detections := self.number_of_detections + 1 }

/-- The distance expression of `evaluateAndStoreStep`, every `float`
operation rounded by `rnd`. -/
def distanceR (rnd : ℚ → ℚ) (E : Extern ℚ) (cluster_mean : PointWithVelocity ℚ)
    (vehicle : Vehicle ℚ) : ℚ :=
  rnd (E.sqrtf (rnd (rnd (rnd (cluster_mean.x - vehicle.pos.1) ^ 2) +
    rnd (rnd (cluster_mean.y - vehicle.pos.2) ^ 2))))

/-- The vector `matching_groundtruth_vehicles`, with rounded distances. -/
def matchingGroundtruthVehiclesR (rnd : ℚ → ℚ) (E : Extern ℚ)
    (cluster_mean : PointWithVelocity ℚ) (groundtruth_vehicles : List (Vehicle ℚ)) :
    List (Vehicle ℚ) :=
  groundtruth_vehicles.filter
    (fun vehicle => decide (distanceR rnd E cluster_mean vehicle < kMaximumAssignmentDistance))

/-- The local `closest_vehicle`, with rounded distances in the comparator. -/
def closestVehicleR (rnd : ℚ → ℚ) (E : Extern ℚ) (cluster_mean : PointWithVelocity ℚ)
    (matching_groundtruth_vehicles : List (Vehicle ℚ)) : Option (Vehicle ℚ) :=
  (E.sort (fun a b => decide (distanceR rnd E cluster_mean a < distanceR rnd E cluster_mean b))
    matching_groundtruth_vehicles).head?

/-- The body of the cluster loop after the centroid, with rounded `float`
operations. -/
def evaluateCentroidR (rnd : ℚ → ℚ) (E : Extern ℚ) (groundtruth_vehicles : List (Vehicle ℚ))
    (print_current_precision : Bool) (s : LoopState ℚ) (cluster_mean : PointWithVelocity ℚ) :
    Option (LoopState ℚ) :=
  let matching_groundtruth_vehicles :=
    matchingGroundtruthVehiclesR rnd E cluster_mean groundtruth_vehicles
  if matching_groundtruth_vehicles.length = 0 then
    some { s with self := recordUnassigned s.self }
  else
    match closestVehicleR rnd E cluster_mean matching_groundtruth_vehicles with
    | none => none
    | some closest_vehicle =>
      let error := computeErrorR rnd cluster_mean closest_vehicle
      some { self := accumulateErrorsR rnd s.self error
             cluster_id := s.cluster_id + 1
             cout := if print_current_precision then s.cout ++ [⟨s.cluster_id, error⟩]
                     else s.cout }

/-- The body of the cluster loop, with rounded `float` operations. -/
def evaluateClusterR (rnd : ℚ → ℚ) (E : Extern ℚ) (groundtruth_vehicles : List (Vehicle ℚ))
    (print_current_precision : Bool) (s : LoopState ℚ) (cluster : Cluster ℚ) :
    Option (LoopState ℚ) :=
  match computeClusterMeanR rnd s.self cluster with
  | none => none
  | some cluster_mean =>
    evaluateCentroidR rnd E groundtruth_vehicles print_current_precision s cluster_mean

/-- The cluster loop, with rounded `float` operations. -/
def evaluateClustersR (rnd : ℚ → ℚ) (E : Extern ℚ) (groundtruth_vehicles : List (Vehicle ℚ))
    (print_current_precision : Bool) : LoopState ℚ → List (Cluster ℚ) → Option (LoopState ℚ)
  | s, [] => some s
  | s, cluster :: rest =>
    match evaluateClusterR rnd E groundtruth_vehicles print_current_precision s cluster with
    | none => none
    | some s1 => evaluateClustersR rnd E groundtruth_vehicles print_current_precision s1 rest

/-- Method `evaluateAndStoreStep`, with rounded `float` operations. -/
def evaluateAndStoreStepR (rnd : ℚ → ℚ) (E : Extern ℚ) (self : PrecisionEvaluator ℚ)
    (simulation_step_index : Int) (cells_with_velocity : List (Point ℚ))
    (print_current_precision : Bool) : Option (PrecisionEvaluator ℚ × List (DiagRecord ℚ)) :=
  match stepAt self.sim_data simulation_step_index with
  | none => none
  | some step =>
    let groundtruth_vehicles := step.vehicles
    if cells_with_velocity.length > 0 ∧ groundtruth_vehicles.length > 0 then
      let clusters := computeDbscanClusters E cells_with_velocity
      match evaluateClustersR rnd E groundtruth_vehicles print_current_precision
          ⟨self, 0, []⟩ clusters with
      | none => none
      | some s => some (s.self, s.cout)
    else some (self, [])

/-- A session with rounded `float` operations. -/
def runCallsR (rnd : ℚ → ℚ) (E : Extern ℚ) :
    PrecisionEvaluator ℚ → List (Call ℚ) → Option (PrecisionEvaluator ℚ)
  | s, [] => some s
  | s, c :: rest =>
    match evaluateAndStoreStepR rnd E s c.index c.cells c.print_current_precision with
    | none => none
    | some r => runCallsR rnd E r.1 rest

/-- A sample at grid (16, 10) with velocity (1, 0): its centroid (16, 90) is
at distance 4 from `vehicle12`. -/
def sample16 : Point ℚ := ⟨16, 10, ⟨1, 0⟩⟩

/-- A sample at grid (16.5, 10) with velocity (1, 0): its centroid
(16.5, 90) is at distance 4.5 from `vehicle12`. -/
def sample16h : Point ℚ := ⟨33 / 2, 10, ⟨1, 0⟩⟩

/-- The evaluator over the data set with the single vehicle at (12, 90),
resolution 1 and grid size 100, with the x sum `sum` and the matched count
`n`. -/
def evaluatorAt (sum : ℚ) (n : Nat) : PrecisionEvaluator ℚ :=
  { sim_data := [⟨[vehicle12]⟩]
    resolution := 1
    grid_size := 100
    cumulative_error := ⟨sum, 0, 0, 0⟩
    number_of_detections := n
    number_of_unassigned_detections := 0 }

/-- The evaluator over the data set with the single vehicle at (12, 90) that
has counted `u` unassigned detections and no matched one. -/
def evaluatorUnassigned (u : Nat) : PrecisionEvaluator ℚ :=
  { sim_data := [⟨[vehicle12]⟩]
    resolution := 1
    grid_size := 100
    cumulative_error := ⟨0, 0, 0, 0⟩
    number_of_detections := 0
    number_of_unassigned_detections := u }

/-! ## Theorems -/

section Theorems

variable {α : Type} [LinearOrderedField α]

theorem clusterSum_foldl (cluster : Cluster α) (acc : PointWithVelocity α) :
    cluster.foldl
      (fun (cluster_mean : PointWithVelocity α) (point : Point α) =>
        ({ x := cluster_mean.x + point.x
           y := cluster_mean.y + point.y
           v_x := cluster_mean.v_x + point.data.mean_x_vel
           v_y := cluster_mean.v_y + point.data.mean_y_vel } : PointWithVelocity α))
      acc =
    { x := acc.x + (cluster.map (fun p => p.x)).sum
      y := acc.y + (cluster.map (fun p => p.y)).sum
      v_x := acc.v_x + (cluster.map (fun p => p.data.mean_x_vel)).sum
      v_y := acc.v_y + (cluster.map (fun p => p.data.mean_y_vel)).sum } := by
  induction cluster generalizing acc with
  | nil => simp
  | cons p rest ih =>
    simp only [List.foldl_cons, List.map_cons, List.sum_cons, ih]
    simp [add_assoc]

theorem clusterSum_eq (cluster : Cluster α) :
    clusterSum cluster =
      { x := (cluster.map (fun p => p.x)).sum
        y := (cluster.map (fun p => p.y)).sum
        v_x := (cluster.map (fun p => p.data.mean_x_vel)).sum
        v_y := (cluster.map (fun p => p.data.mean_y_vel)).sum } := by
  unfold clusterSum
  rw [clusterSum_foldl]
  simp

/-! ### Sorting -/

theorem strictWeak_total {β : Type} {comp : β → β → Bool} (h : IsStrictWeakOrder comp)
    (a b : β) : comp b a = false ∨ comp a b = false := by
  cases hba : comp b a with
  | false => exact Or.inl rfl
  | true =>
    cases hab : comp a b with
    | false => exact Or.inr rfl
    | true =>
      have haa := h.2.1 a b a hab hba
      rw [h.1 a] at haa
      cases haa

theorem strictWeak_le_trans {β : Type} {comp : β → β → Bool} (h : IsStrictWeakOrder comp)
    (a b c : β) (hab : comp b a = false) (hbc : comp c b = false) : comp c a = false := by
  cases hca : comp c a with
  | false => rfl
  | true =>
    cases hbc1 : comp b c with
    | true =>
      have hba := h.2.1 b c a hbc1 hca
      rw [hab] at hba
      cases hba
    | false =>
      cases hab1 : comp a b with
      | true =>
        have hcb := h.2.1 c a b hca hab1
        rw [hbc] at hcb
        cases hcb
      | false =>
        have hac := (h.2.2 a b c hab1 hab hbc1 hbc).2
        rw [hca] at hac
        cases hac

theorem insertionSortBy_contract {β : Type} :
    StdSortContract (insertionSortBy : (β → β → Bool) → List β → List β) := by
  intro comp l h
  refine ⟨List.perm_insertionSort _ l, ?_⟩
  haveI : IsTotal β (fun a b => comp b a = false) := ⟨fun a b => strictWeak_total h a b⟩
  haveI : IsTrans β (fun a b => comp b a = false) :=
    ⟨fun a b c hab hbc => strictWeak_le_trans h a b c hab hbc⟩
  exact List.sorted_insertionSort _ l

theorem filter_orderedInsert {β : Type} (r : β → β → Prop) [DecidableRel r] (p : β → Bool)
    (a : β) (l : List β) (hp : p a = true → ∀ b ∈ l, p b = true → r a b) :
    (l.orderedInsert r a).filter p = if p a = true then a :: l.filter p else l.filter p := by
  induction l with
  | nil => simp [List.filter_cons]
  | cons b l ih =>
    have ih1 := ih (fun ha c hc hpc => hp ha c (List.mem_cons_of_mem _ hc) hpc)
    by_cases hr : r a b
    · simp [List.orderedInsert, hr, List.filter_cons]
    · by_cases hb : p b = true
      · have ha : ¬ p a = true := fun ha => hr (hp ha b (List.mem_cons_self _ _) hb)
        simp [List.orderedInsert, hr, List.filter_cons, hb, ha, ih1]
      · simp [List.orderedInsert, hr, List.filter_cons, hb, ih1]

theorem insertionSortBy_stable {β : Type} :
    StableSort (insertionSortBy : (β → β → Bool) → List β → List β) := by
  intro comp l x h
  induction l with
  | nil => simp [insertionSortBy]
  | cons a l ih =>
    unfold insertionSortBy at ih ⊢
    rw [List.insertionSort, filter_orderedInsert, ih]
    · simp [List.filter_cons]
    · intro ha b _ hb
      simp only [Bool.and_eq_true, Bool.not_eq_true'] at ha hb
      exact (h.2.2 a x b ha.2 ha.1 hb.1 hb.2).2

theorem closerThan_strictWeak (E : Extern α) (cluster_mean : PointWithVelocity α) :
    IsStrictWeakOrder (closerThan E cluster_mean) := by
  refine ⟨?_, ?_, ?_⟩
  · intro a
    simp [closerThan]
  · intro a b c hab hbc
    simp only [closerThan, decide_eq_true_eq] at hab hbc ⊢
    exact lt_trans hab hbc
  · intro a b c hab hba hbc hcb
    simp only [closerThan, decide_eq_false_iff_not, not_lt] at hab hba hbc hcb ⊢
    exact ⟨le_trans hbc hab, le_trans hba hcb⟩

/-- The first element after a conforming sort exists, belongs to the input
and is not farther than any element of the input. -/
theorem closestVehicle_spec (E : Extern α) (hsort : StdSortContract E.sort)
    (cluster_mean : PointWithVelocity α) (matching : List (Vehicle α)) (hne : matching ≠ []) :
    ∃ cv, closestVehicle E cluster_mean matching = some cv ∧ cv ∈ matching ∧
      ∀ w ∈ matching, distance E cluster_mean cv ≤ distance E cluster_mean w := by
  obtain ⟨hperm, hsorted⟩ :=
    hsort (closerThan E cluster_mean) matching (closerThan_strictWeak E cluster_mean)
  unfold closestVehicle
  cases hs : E.sort (closerThan E cluster_mean) matching with
  | nil =>
    rw [hs] at hperm
    exact absurd hperm.symm.eq_nil hne
  | cons cv rest =>
    rw [hs] at hperm hsorted
    refine ⟨cv, rfl, hperm.subset (List.mem_cons_self _ _), ?_⟩
    intro w hw
    have hw1 : w ∈ cv :: rest := hperm.symm.subset hw
    have hcomp : closerThan E cluster_mean w cv = false := by
      rcases List.mem_cons.mp hw1 with rfl | hin
      · exact (closerThan_strictWeak E cluster_mean).1 w
      · exact List.rel_of_pairwise_cons hsorted hin
    simpa [closerThan] using hcomp

theorem computeClusterMean_of_ne_nil (self : PrecisionEvaluator α) (cluster : Cluster α)
    (hne : cluster ≠ []) :
    computeClusterMean self cluster =
      some { x := mean (fun p => p.x) cluster * self.resolution
             y := self.grid_size - mean (fun p => p.y) cluster * self.resolution
             v_x := mean (fun p => p.data.mean_x_vel) cluster * self.resolution
             v_y := -(mean (fun p => p.data.mean_y_vel) cluster * self.resolution) } := by
  have hlen : cluster.length ≠ 0 := by
    intro h
    exact hne (List.length_eq_zero.mp h)
  unfold computeClusterMean
  rw [if_neg hlen, clusterSum_eq]
  rfl

theorem computeClusterMean_sample10 :
    computeClusterMean evaluator100 [sample10] = some centroid10 := by
  rw [computeClusterMean_of_ne_nil evaluator100 [sample10] (by simp)]
  norm_num [mean, sample10, evaluator100, PrecisionEvaluator.create, centroid10]

/-- C1: for a non-empty cluster `computeClusterMean` returns the centroid
whose `x` is the mean grid x times the resolution, whose `y` is the grid
size minus the mean grid y times the resolution, whose `v_x` is the mean x
velocity times the resolution and whose `v_y` is the negated mean y velocity
times the resolution. -/
theorem computeClusterMean_centroid (self : PrecisionEvaluator α) (cluster : Cluster α)
    (hne : cluster ≠ []) :
    computeClusterMean self cluster =
      some { x := mean (fun p => p.x) cluster * self.resolution
             y := self.grid_size - mean (fun p => p.y) cluster * self.resolution
             v_x := mean (fun p => p.data.mean_x_vel) cluster * self.resolution
             v_y := -(mean (fun p => p.data.mean_y_vel) cluster * self.resolution) } :=
  computeClusterMean_of_ne_nil self cluster hne

/-- Witness of C1: one sample at grid (10, 10) with velocity (1, 0),
resolution 1 and grid size 100 give position (10, 90) and velocity (1, 0). -/
theorem computeClusterMean_centroid_witness :
    [sample10] ≠ [] ∧
      computeClusterMean evaluator100 [sample10] = some ⟨10, 90, 1, 0⟩ :=
  ⟨by simp,
   (computeClusterMean_centroid evaluator100 [sample10] (by simp)).trans
     (by norm_num [mean, sample10, evaluator100, PrecisionEvaluator.create])⟩

/-! ### Matching -/

theorem sqrtQ_four : sqrtQ 4 = 2 := by
  simp [sqrtQ]
  norm_num

theorem sqrtQ_twentyfive : sqrtQ 25 = 5 := by
  simp [sqrtQ]
  norm_num

theorem distance_centroid10_vehicle12 : distance externQ centroid10 vehicle12 = 2 := by
  have h : ((10 : ℚ) - 12) ^ 2 + ((90 : ℚ) - 90) ^ 2 = 4 := by norm_num
  simp only [distance, externQ, centroid10, vehicle12, h, sqrtQ_four]

theorem distance_centroid10_vehicle95 : distance externQ centroid10 vehicle95 = 5 := by
  have h : ((10 : ℚ) - 10) ^ 2 + ((90 : ℚ) - 95) ^ 2 = 25 := by norm_num
  simp only [distance, externQ, centroid10, vehicle95, h, sqrtQ_twentyfive]

theorem mem_matchingGroundtruthVehicles (E : Extern α) (cluster_mean : PointWithVelocity α)
    (vs : List (Vehicle α)) (v : Vehicle α) :
    v ∈ matchingGroundtruthVehicles E cluster_mean vs ↔
      v ∈ vs ∧ distance E cluster_mean v < 5 := by
  simp [matchingGroundtruthVehicles, kMaximumAssignmentDistance]

theorem matchingGroundtruthVehicles_eq_nil (E : Extern α) (cluster_mean : PointWithVelocity α)
    (vs : List (Vehicle α)) :
    matchingGroundtruthVehicles E cluster_mean vs = [] ↔
      ∀ v ∈ vs, ¬ distance E cluster_mean v < 5 := by
  simp [matchingGroundtruthVehicles, kMaximumAssignmentDistance]

theorem evaluateCentroid_of_none_in_range (E : Extern α) (vs : List (Vehicle α)) (p : Bool)
    (s : LoopState α) (cluster_mean : PointWithVelocity α)
    (h : ∀ v ∈ vs, ¬ distance E cluster_mean v < 5) :
    evaluateCentroid E vs p s cluster_mean = some { s with self := recordUnassigned s.self } := by
  have hnil := (matchingGroundtruthVehicles_eq_nil E cluster_mean vs).mpr h
  simp [evaluateCentroid, hnil]

theorem evaluateCentroid_of_some_in_range (E : Extern α) (hsort : StdSortContract E.sort)
    (vs : List (Vehicle α)) (p : Bool) (s : LoopState α) (cluster_mean : PointWithVelocity α)
    (h : ∃ v ∈ vs, distance E cluster_mean v < 5) :
    ∃ cv, closestVehicle E cluster_mean (matchingGroundtruthVehicles E cluster_mean vs) = some cv ∧
      cv ∈ vs ∧ distance E cluster_mean cv < 5 ∧
      (∀ w ∈ vs, distance E cluster_mean cv ≤ distance E cluster_mean w) ∧
      evaluateCentroid E vs p s cluster_mean =
        some { self := accumulateErrors s.self (computeError cluster_mean cv)
               cluster_id := s.cluster_id + 1
               cout := if p = true then s.cout ++ [⟨s.cluster_id, computeError cluster_mean cv⟩]
                       else s.cout } := by
  have hne : matchingGroundtruthVehicles E cluster_mean vs ≠ [] := by
    intro hnil
    obtain ⟨v, hv, hd⟩ := h
    exact (matchingGroundtruthVehicles_eq_nil E cluster_mean vs).mp hnil v hv hd
  obtain ⟨cv, hcv, hmem, hmin⟩ := closestVehicle_spec E hsort cluster_mean _ hne
  have hcv2 := (mem_matchingGroundtruthVehicles E cluster_mean vs cv).mp hmem
  refine ⟨cv, hcv, hcv2.1, hcv2.2, ?_, ?_⟩
  · intro w hw
    by_cases hd : distance E cluster_mean w < 5
    · exact hmin w ((mem_matchingGroundtruthVehicles E cluster_mean vs w).mpr ⟨hw, hd⟩)
    · exact le_trans (le_of_lt hcv2.2) (not_lt.mp hd)
  · have hlen : (matchingGroundtruthVehicles E cluster_mean vs).length ≠ 0 := by
      intro h0
      exact hne (List.length_eq_zero.mp h0)
    simp only [evaluateCentroid, hlen, if_false, hcv]

/-- C2: the matching step records the cluster as unassigned exactly when no
vehicle of the step is at a distance below 5 from the centroid; a vehicle at
distance exactly 5 is not a candidate, and a vehicle at a distance below 5
makes the cluster a matched detection. -/
theorem unassigned_iff_no_vehicle_in_range (E : Extern α) (hsort : StdSortContract E.sort)
    (vs : List (Vehicle α)) (p : Bool) (s : LoopState α) (cluster_mean : PointWithVelocity α) :
    (evaluateCentroid E vs p s cluster_mean = some { s with self := recordUnassigned s.self } ↔
      ∀ v ∈ vs, ¬ distance E cluster_mean v < 5) ∧
    (∀ v ∈ vs, distance E cluster_mean v = 5 →
      v ∉ matchingGroundtruthVehicles E cluster_mean vs) ∧
    ((∃ v ∈ vs, distance E cluster_mean v < 5) →
      ∃ s1, evaluateCentroid E vs p s cluster_mean = some s1 ∧
        s1.self.number_of_detections = s.self.number_of_detections + 1 ∧
        s1.self.number_of_unassigned_detections = s.self.number_of_unassigned_detections) := by
  refine ⟨⟨?_, evaluateCentroid_of_none_in_range E vs p s cluster_mean⟩, ?_, ?_⟩
  · intro hres
    by_contra hex
    push_neg at hex
    obtain ⟨cv, _, _, _, _, heval⟩ :=
      evaluateCentroid_of_some_in_range E hsort vs p s cluster_mean hex
    rw [heval] at hres
    have hn := congrArg (fun t : LoopState α => t.self.number_of_detections)
      (Option.some.inj hres)
    simp [accumulateErrors, recordUnassigned] at hn
  · intro v _ hd hmem
    have hlt := ((mem_matchingGroundtruthVehicles E cluster_mean vs v).mp hmem).2
    rw [hd] at hlt
    exact lt_irrefl _ hlt
  · intro hex
    obtain ⟨cv, _, _, _, _, heval⟩ :=
      evaluateCentroid_of_some_in_range E hsort vs p s cluster_mean hex
    exact ⟨_, heval, rfl, rfl⟩

/-- Witness of C2: the centroid (10, 90) against a vehicle at distance 2 and
a vehicle at distance exactly 5, with insertion sort as `std::sort`. -/
theorem unassigned_iff_no_vehicle_in_range_witness :
    StdSortContract externQ.sort ∧
    distance externQ centroid10 vehicle12 < 5 ∧
    distance externQ centroid10 vehicle95 = 5 ∧
    vehicle95 ∉ matchingGroundtruthVehicles externQ centroid10 [vehicle95, vehicle12] ∧
    ∃ s1, evaluateCentroid externQ [vehicle95, vehicle12] false loopStart centroid10 = some s1 ∧
      s1.self.number_of_detections = loopStart.self.number_of_detections + 1 ∧
      s1.self.number_of_unassigned_detections =
        loopStart.self.number_of_unassigned_detections := by
  have hc : StdSortContract externQ.sort := insertionSortBy_contract
  have h12 : distance externQ centroid10 vehicle12 < 5 := by
    rw [distance_centroid10_vehicle12]; norm_num
  have hw := unassigned_iff_no_vehicle_in_range externQ hc [vehicle95, vehicle12] false
    loopStart centroid10
  exact ⟨hc, h12, distance_centroid10_vehicle95,
    hw.2.1 vehicle95 (by simp) distance_centroid10_vehicle95,
    hw.2.2 ⟨vehicle12, by simp, h12⟩⟩

/-- C3: when some vehicle of the step is at a distance below 5, the vehicle
chosen as `closest_vehicle` exists, is a vehicle of the step, is at a
distance below 5, is not farther from the centroid than any vehicle of the
step, and it is the vehicle whose error is accumulated. -/
theorem closest_vehicle_is_nearest (E : Extern α) (hsort : StdSortContract E.sort)
    (vs : List (Vehicle α)) (p : Bool) (s : LoopState α) (cluster_mean : PointWithVelocity α)
    (h : ∃ v ∈ vs, distance E cluster_mean v < 5) :
    ∃ cv, closestVehicle E cluster_mean (matchingGroundtruthVehicles E cluster_mean vs) = some cv ∧
      cv ∈ vs ∧ distance E cluster_mean cv < 5 ∧
      (∀ w ∈ vs, distance E cluster_mean cv ≤ distance E cluster_mean w) ∧
      ∃ s1, evaluateCentroid E vs p s cluster_mean = some s1 ∧
        s1.self = accumulateErrors s.self (computeError cluster_mean cv) := by
  obtain ⟨cv, h1, h2, h3, h4, h5⟩ :=
    evaluateCentroid_of_some_in_range E hsort vs p s cluster_mean h
  exact ⟨cv, h1, h2, h3, h4, _, h5, rfl⟩

/-- Witness of C3: the centroid (10, 90) with the vehicles at distance 5 and
at distance 2. -/
theorem closest_vehicle_is_nearest_witness :
    StdSortContract externQ.sort ∧
    (∃ v ∈ [vehicle95, vehicle12], distance externQ centroid10 v < 5) ∧
    ∃ cv, closestVehicle externQ centroid10
        (matchingGroundtruthVehicles externQ centroid10 [vehicle95, vehicle12]) = some cv ∧
      cv ∈ [vehicle95, vehicle12] ∧ distance externQ centroid10 cv < 5 ∧
      (∀ w ∈ [vehicle95, vehicle12],
        distance externQ centroid10 cv ≤ distance externQ centroid10 w) ∧
      ∃ s1, evaluateCentroid externQ [vehicle95, vehicle12] true loopStart centroid10 = some s1 ∧
        s1.self = accumulateErrors loopStart.self (computeError centroid10 cv) := by
  have hc : StdSortContract externQ.sort := insertionSortBy_contract
  have hex : ∃ v ∈ [vehicle95, vehicle12], distance externQ centroid10 v < 5 :=
    ⟨vehicle12, by simp, by rw [distance_centroid10_vehicle12]; norm_num⟩
  exact ⟨hc, hex,
    closest_vehicle_is_nearest externQ hc [vehicle95, vehicle12] true loopStart centroid10 hex⟩

theorem distance_centroid10_vehicle8 : distance externQ centroid10 vehicle8 = 2 := by
  have h : ((10 : ℚ) - 8) ^ 2 + ((90 : ℚ) - 90) ^ 2 = 4 := by norm_num
  simp only [distance, externQ, centroid10, vehicle8, h, sqrtQ_four]

/-! ### The sort of the GNU C++ library commutes with renaming the elements -/

theorem iter_swap_map {β γ : Type} (f : γ → β) (arr : List γ) (i j : Nat) :
    iter_swap (arr.map f) i j = (iter_swap arr i j).map (List.map f) := by
  unfold iter_swap
  rw [List.getElem?_map, List.getElem?_map]
  cases arr[i]? <;> cases arr[j]? <;> simp

theorem move_median_to_first_map {β γ : Type} (f : γ → β) (comp : β → β → Bool) (arr : List γ)
    (result a b c : Nat) :
    move_median_to_first comp (arr.map f) result a b c =
      (move_median_to_first (fun x y => comp (f x) (f y)) arr result a b c).map (List.map f) := by
  unfold move_median_to_first
  rw [List.getElem?_map, List.getElem?_map, List.getElem?_map]
  cases arr[a]? <;> cases arr[b]? <;> cases arr[c]? <;> simp only [Option.map_some',
    Option.map_none']
  split_ifs <;> exact iter_swap_map f arr _ _

theorem advance_first_map {β γ : Type} (f : γ → β) (comp : β → β → Bool) (arr : List γ)
    (pivot fuel first : Nat) :
    advance_first comp (arr.map f) pivot fuel first =
      advance_first (fun x y => comp (f x) (f y)) arr pivot fuel first := by
  induction fuel generalizing first with
  | zero => rfl
  | succ fuel ih =>
    simp only [advance_first, List.getElem?_map]
    cases arr[first]? <;> cases arr[pivot]? <;> simp only [Option.map_some', Option.map_none']
    rw [ih]

theorem retreat_last_map {β γ : Type} (f : γ → β) (comp : β → β → Bool) (arr : List γ)
    (pivot fuel last : Nat) :
    retreat_last comp (arr.map f) pivot fuel last =
      retreat_last (fun x y => comp (f x) (f y)) arr pivot fuel last := by
  induction fuel generalizing last with
  | zero => rfl
  | succ fuel ih =>
    simp only [retreat_last, List.getElem?_map]
    cases arr[last]? <;> cases arr[pivot]? <;> simp only [Option.map_some', Option.map_none']
    rw [ih]

theorem unguarded_partition_map {β γ : Type} (f : γ → β) (comp : β → β → Bool) (pivot fuel : Nat)
    (arr : List γ) (first last : Nat) :
    unguarded_partition comp pivot fuel (arr.map f) first last =
      (unguarded_partition (fun x y => comp (f x) (f y)) pivot fuel arr first last).map
        (fun r => (r.1.map f, r.2)) := by
  induction fuel generalizing arr first last with
  | zero => rfl
  | succ fuel ih =>
    simp only [unguarded_partition, advance_first_map, retreat_last_map, List.length_map,
      iter_swap_map]
    cases advance_first (fun x y => comp (f x) (f y)) arr pivot (arr.length + 1) first with
    | none => rfl
    | some first1 =>
      simp only []
      by_cases hl : last = 0
      · simp [hl]
      · simp only [hl, if_false]
        cases retreat_last (fun x y => comp (f x) (f y)) arr pivot (arr.length + 1) (last - 1) with
        | none => rfl
        | some last1 =>
          simp only []
          by_cases hlt : first1 < last1
          · simp only [hlt, if_true]
            cases iter_swap arr first1 last1 with
            | none => rfl
            | some arr1 =>
              simp only [Option.map_some']
              exact ih arr1 (first1 + 1) last1
          · simp [hlt]

theorem unguarded_partition_pivot_map {β γ : Type} (f : γ → β) (comp : β → β → Bool)
    (arr : List γ) (first last : Nat) :
    unguarded_partition_pivot comp (arr.map f) first last =
      (unguarded_partition_pivot (fun x y => comp (f x) (f y)) arr first last).map
        (fun r => (r.1.map f, r.2)) := by
  simp only [unguarded_partition_pivot, move_median_to_first_map, List.length_map]
  cases move_median_to_first (fun x y => comp (f x) (f y)) arr first (first + 1)
      (first + (last - first) / 2) (last - 1) with
  | none => rfl
  | some arr1 =>
    simp only [Option.map_some']
    exact unguarded_partition_map f comp first (arr.length + 1) arr1 (first + 1) last

theorem introsort_loop_map {β γ : Type} (f : γ → β) (comp : β → β → Bool) (fuel : Nat)
    (arr : List γ) (first last depth_limit : Nat) :
    introsort_loop comp fuel (arr.map f) first last depth_limit =
      (introsort_loop (fun x y => comp (f x) (f y)) fuel arr first last depth_limit).map
        (List.map f) := by
  induction fuel generalizing arr first last depth_limit with
  | zero => rfl
  | succ fuel ih =>
    simp only [introsort_loop, unguarded_partition_pivot_map]
    by_cases hsize : last - first > 16
    · simp only [hsize, if_true]
      by_cases hd : depth_limit = 0
      · simp [hd]
      · simp only [hd, if_false]
        cases unguarded_partition_pivot (fun x y => comp (f x) (f y)) arr first last with
        | none => rfl
        | some r =>
          obtain ⟨arr1, cut⟩ := r
          simp only [Option.map_some', ih]
          cases introsort_loop (fun x y => comp (f x) (f y)) fuel arr1 cut last
              (depth_limit - 1) with
          | none => rfl
          | some arr2 =>
            simp only [Option.map_some', ih]
    · simp [hsize]

theorem unguarded_linear_insert_map {β γ : Type} (f : γ → β) (comp : β → β → Bool) (val : γ)
    (fuel : Nat) (arr : List γ) (last : Nat) :
    unguarded_linear_insert comp (f val) fuel (arr.map f) last =
      (unguarded_linear_insert (fun x y => comp (f x) (f y)) val fuel arr last).map
        (List.map f) := by
  induction fuel generalizing arr last with
  | zero => rfl
  | succ fuel ih =>
    simp only [unguarded_linear_insert, List.getElem?_map]
    by_cases hl : last = 0
    · simp [hl]
    · simp only [hl, if_false]
      cases arr[last - 1]? with
      | none => rfl
      | some next =>
        simp only [Option.map_some']
        by_cases hc : comp (f val) (f next) = true
        · simp only [hc, if_true]
          rw [← ih, List.map_set]
        · simp only [hc, if_false, Bool.false_eq_true, Option.map_some', List.map_set]

theorem insertion_sort_loop_map {β γ : Type} (f : γ → β) (comp : β → β → Bool) (first count : Nat)
    (arr : List γ) (i : Nat) :
    insertion_sort_loop comp first count (arr.map f) i =
      (insertion_sort_loop (fun x y => comp (f x) (f y)) first count arr i).map (List.map f) := by
  induction count generalizing arr i with
  | zero => rfl
  | succ count ih =>
    simp only [insertion_sort_loop, List.getElem?_map, List.length_map]
    cases arr[i]? with
    | none => rfl
    | some xi =>
      cases arr[first]? with
      | none => rfl
      | some xf =>
        simp only [Option.map_some']
        by_cases hc : comp (f xi) (f xf) = true
        · simp only [hc, if_true]
          rw [← ih]
          simp
        · simp only [hc, if_false, Bool.false_eq_true, unguarded_linear_insert_map]
          cases unguarded_linear_insert (fun x y => comp (f x) (f y)) xi (arr.length + 1) arr i with
          | none => rfl
          | some arr1 =>
            simp only [Option.map_some']
            exact ih arr1 (i + 1)

theorem insertion_sort_map {β γ : Type} (f : γ → β) (comp : β → β → Bool) (arr : List γ)
    (first last : Nat) :
    insertion_sort comp (arr.map f) first last =
      (insertion_sort (fun x y => comp (f x) (f y)) arr first last).map (List.map f) := by
  unfold insertion_sort
  split_ifs
  · rfl
  · exact insertion_sort_loop_map f comp first _ arr _

theorem unguarded_insertion_sort_map {β γ : Type} (f : γ → β) (comp : β → β → Bool) (count : Nat)
    (arr : List γ) (i : Nat) :
    unguarded_insertion_sort comp count (arr.map f) i =
      (unguarded_insertion_sort (fun x y => comp (f x) (f y)) count arr i).map (List.map f) := by
  induction count generalizing arr i with
  | zero => rfl
  | succ count ih =>
    simp only [unguarded_insertion_sort, List.getElem?_map, List.length_map]
    cases arr[i]? with
    | none => rfl
    | some xi =>
      simp only [Option.map_some', unguarded_linear_insert_map]
      cases unguarded_linear_insert (fun x y => comp (f x) (f y)) xi (arr.length + 1) arr i with
      | none => rfl
      | some arr1 =>
        simp only [Option.map_some']
        exact ih arr1 (i + 1)

theorem final_insertion_sort_map {β γ : Type} (f : γ → β) (comp : β → β → Bool) (arr : List γ)
    (first last : Nat) :
    final_insertion_sort comp (arr.map f) first last =
      (final_insertion_sort (fun x y => comp (f x) (f y)) arr first last).map (List.map f) := by
  unfold final_insertion_sort
  split_ifs
  · rw [insertion_sort_map]
    cases insertion_sort (fun x y => comp (f x) (f y)) arr first (first + 16) with
    | none => rfl
    | some arr1 =>
      simp only [Option.map_some']
      exact unguarded_insertion_sort_map f comp _ arr1 _
  · exact insertion_sort_map f comp arr first last

theorem gnu_sort_map {β γ : Type} (f : γ → β) (comp : β → β → Bool) (arr : List γ) :
    gnu_sort comp (arr.map f) = (gnu_sort (fun x y => comp (f x) (f y)) arr).map (List.map f) := by
  unfold gnu_sort
  simp only [List.length_map]
  split_ifs
  · rfl
  · rw [introsort_loop_map]
    cases introsort_loop (fun x y => comp (f x) (f y)) (arr.length + 1) arr 0 arr.length
        (Nat.log2 arr.length * 2) with
    | none => rfl
    | some arr1 =>
      simp only [Option.map_some']
      exact final_insertion_sort_map f comp arr1 0 arr.length

theorem gnu_sort_ties17 :
    gnu_sort (fun (_ _ : Nat) => false) [0, 1, 2, 3, 4, 5, 6, 7, 8, 9, 10, 11, 12, 13, 14, 15, 16] =
      some [8, 16, 15, 14, 13, 12, 11, 10, 9, 0, 7, 6, 5, 4, 3, 2, 1] := by
  have hlg : Nat.log2 17 = 4 := by simp [Nat.log2]
  unfold gnu_sort
  simp only [List.length_cons, List.length_nil, hlg]
  decide

theorem distance_centroid10_tiedVehicle (k : ℕ) :
    distance externGnuQ centroid10 (tiedVehicle k) = 2 := by
  have h : ((10 : ℚ) - 12) ^ 2 + ((90 : ℚ) - 90) ^ 2 = 4 := by norm_num
  simp only [distance, externGnuQ, centroid10, tiedVehicle, h, sqrtQ_four]

theorem closerThan_tiedVehicle :
    (fun x y : ℕ => closerThan externGnuQ centroid10 (tiedVehicle x) (tiedVehicle y)) =
      fun _ _ => false := by
  funext x y
  simp [closerThan, distance_centroid10_tiedVehicle]

theorem matchingGroundtruthVehicles_tied (l : List ℕ) :
    matchingGroundtruthVehicles externGnuQ centroid10 (l.map tiedVehicle) =
      l.map tiedVehicle := by
  unfold matchingGroundtruthVehicles
  rw [List.filter_eq_self]
  intro v hv
  obtain ⟨k, _, hk⟩ := List.mem_map.mp hv
  rw [← hk, distance_centroid10_tiedVehicle]
  simp [kMaximumAssignmentDistance]
  norm_num

theorem gnu_sort_tied (l r : List ℕ) (h : gnu_sort (fun (_ _ : ℕ) => false) l = some r) :
    gnu_sort (closerThan externGnuQ centroid10) (l.map tiedVehicle) =
      some (r.map tiedVehicle) := by
  rw [gnu_sort_map, closerThan_tiedVehicle, h]
  rfl

theorem closestVehicle_tied (l r : List ℕ) (h : gnu_sort (fun (_ _ : ℕ) => false) l = some r) :
    closestVehicle externGnuQ centroid10
        (matchingGroundtruthVehicles externGnuQ centroid10 (l.map tiedVehicle)) =
      (r.map tiedVehicle).head? := by
  rw [matchingGroundtruthVehicles_tied]
  show (gnu_sort_total (closerThan externGnuQ centroid10) (l.map tiedVehicle)).head? = _
  unfold gnu_sort_total
  rw [gnu_sort_tied l r h]
  rfl

theorem gnu_sort_ties2 : gnu_sort (fun (_ _ : ℕ) => false) [0, 1] = some [0, 1] := by
  have hlg : Nat.log2 2 = 1 := by simp [Nat.log2]
  unfold gnu_sort
  simp only [List.length_cons, List.length_nil, hlg]
  decide

theorem tiedVehicle_injective (j k : ℕ) (h : tiedVehicle j = tiedVehicle k) : j = k := by
  have hv := congrArg (fun v : Vehicle ℚ => v.vel.1) h
  simpa [tiedVehicle] using hv

/-- C4, counterexample: with the `std::sort` of the GNU C++ library and
seventeen vehicles at the same distance 2 from the centroid (10, 90), the
sort puts the vehicle that stood ninth in the input first, and that vehicle
is selected, not the earliest; the tie-break law fails.  With two tied
vehicles the same routine selects the earlier one. -/
theorem tie_break_fails_on_seventeen_ties :
    (∀ v ∈ tiedVehicles, distance externGnuQ centroid10 v = 2) ∧
    matchingGroundtruthVehicles externGnuQ centroid10 tiedVehicles = tiedVehicles ∧
    gnu_sort (closerThan externGnuQ centroid10) tiedVehicles =
      some ([8, 16, 15, 14, 13, 12, 11, 10, 9, 0, 7, 6, 5, 4, 3, 2, 1].map tiedVehicle) ∧
    tiedVehicles.head? = some (tiedVehicle 0) ∧
    closestVehicle externGnuQ centroid10
      (matchingGroundtruthVehicles externGnuQ centroid10 tiedVehicles) = some (tiedVehicle 8) ∧
    tiedVehicle 8 ≠ tiedVehicle 0 ∧
    ¬ SelectsEarliest externGnuQ ∧
    closestVehicle externGnuQ centroid10
      (matchingGroundtruthVehicles externGnuQ centroid10 [tiedVehicle 0, tiedVehicle 1]) =
      some (tiedVehicle 0) := by
  have hsel : closestVehicle externGnuQ centroid10
      (matchingGroundtruthVehicles externGnuQ centroid10 tiedVehicles) = some (tiedVehicle 8) :=
    closestVehicle_tied _ _ gnu_sort_ties17
  have hne : tiedVehicle 8 ≠ tiedVehicle 0 := fun h => by
    have := tiedVehicle_injective 8 0 h
    omega
  refine ⟨?_, matchingGroundtruthVehicles_tied _, gnu_sort_tied _ _ gnu_sort_ties17, rfl,
    hsel, hne, ?_, closestVehicle_tied [0, 1] [0, 1] gnu_sort_ties2⟩
  · intro v hv
    obtain ⟨k, _, hk⟩ := List.mem_map.mp hv
    rw [← hk]
    exact distance_centroid10_tiedVehicle k
  · intro hlaw
    obtain ⟨pre, post, hsplit, hpre⟩ := hlaw centroid10 tiedVehicles (tiedVehicle 8) hsel
    cases pre with
    | nil => exact hne (List.cons.inj hsplit).1.symm
    | cons a pre1 =>
      have hhead : tiedVehicle 0 = a := (List.cons.inj hsplit).1
      have hlt := hpre a (List.mem_cons_self _ _)
      rw [← hhead, distance_centroid10_tiedVehicle, distance_centroid10_tiedVehicle] at hlt
      exact absurd hlt (lt_irrefl _)

/-- C4, amended: when `std::sort` keeps equivalent elements in their input
order, the selected vehicle exists and is the earliest vehicle of the step at
the minimal distance: every vehicle before it is strictly farther, every
vehicle after it is not nearer. -/
theorem stable_sort_selects_earliest (E : Extern α) (hsort : StdSortContract E.sort)
    (hstable : StableSort E.sort) (cluster_mean : PointWithVelocity α)
    (vs : List (Vehicle α)) (h : ∃ v ∈ vs, distance E cluster_mean v < 5) :
    ∃ cv pre post,
      closestVehicle E cluster_mean (matchingGroundtruthVehicles E cluster_mean vs) = some cv ∧
      vs = pre ++ cv :: post ∧
      (∀ w ∈ pre, distance E cluster_mean cv < distance E cluster_mean w) ∧
      (∀ w ∈ post, distance E cluster_mean cv ≤ distance E cluster_mean w) := by
  have hne : matchingGroundtruthVehicles E cluster_mean vs ≠ [] := by
    intro hnil
    obtain ⟨v, hv, hd⟩ := h
    exact (matchingGroundtruthVehicles_eq_nil E cluster_mean vs).mp hnil v hv hd
  obtain ⟨cv, hcv, hmem, hmin⟩ := closestVehicle_spec E hsort cluster_mean _ hne
  have hcv5 := ((mem_matchingGroundtruthVehicles E cluster_mean vs cv).mp hmem).2
  have hswo := closerThan_strictWeak E cluster_mean
  have hst := hstable (closerThan E cluster_mean)
    (matchingGroundtruthVehicles E cluster_mean vs) cv hswo
  unfold closestVehicle at hcv
  cases hs : E.sort (closerThan E cluster_mean)
      (matchingGroundtruthVehicles E cluster_mean vs) with
  | nil => rw [hs] at hcv; simp at hcv
  | cons c rest =>
    rw [hs] at hcv hst
    have hc : c = cv := by simpa using hcv
    subst hc
    have hself : closerThan E cluster_mean c c = false := hswo.1 c
    rw [List.filter_cons, if_pos (by simp [hself])] at hst
    unfold matchingGroundtruthVehicles at hst
    rw [List.filter_filter] at hst
    obtain ⟨pre, post, hsplit, hpre, _, _⟩ := List.filter_eq_cons_iff.mp hst.symm
    have hall : ∀ w ∈ vs, distance E cluster_mean c ≤ distance E cluster_mean w := by
      intro w hw
      by_cases hd : distance E cluster_mean w < 5
      · exact hmin w ((mem_matchingGroundtruthVehicles E cluster_mean vs w).mpr ⟨hw, hd⟩)
      · exact le_trans (le_of_lt hcv5) (not_lt.mp hd)
    refine ⟨c, pre, post, by unfold closestVehicle; rw [hs]; rfl, hsplit, ?_, ?_⟩
    · intro w hw
      have hnp := hpre w hw
      have hle := hall w (by rw [hsplit]; simp [hw])
      rcases lt_or_eq_of_le hle with hlt | heq
      · exact hlt
      · exfalso
        apply hnp
        simp only [closerThan, kMaximumAssignmentDistance, heq, lt_irrefl, decide_False,
          Bool.not_false, Bool.and_self, Bool.true_and, decide_eq_true_eq]
        rw [← heq]
        exact hcv5
    · intro w hw
      exact hall w (by rw [hsplit]; simp [hw])

/-- Witness of C4, amended: with the stable insertion sort, the vehicle at
(12, 90) stands first among the two vehicles at distance 2 and is selected. -/
theorem stable_sort_selects_earliest_witness :
    StdSortContract externQ.sort ∧ StableSort externQ.sort ∧
    (∃ v ∈ [vehicle12, vehicle8], distance externQ centroid10 v < 5) ∧
    ∃ cv pre post,
      closestVehicle externQ centroid10
        (matchingGroundtruthVehicles externQ centroid10 [vehicle12, vehicle8]) = some cv ∧
      [vehicle12, vehicle8] = pre ++ cv :: post ∧
      (∀ w ∈ pre, distance externQ centroid10 cv < distance externQ centroid10 w) ∧
      (∀ w ∈ post, distance externQ centroid10 cv ≤ distance externQ centroid10 w) := by
  have hc : StdSortContract externQ.sort := insertionSortBy_contract
  have hs : StableSort externQ.sort := insertionSortBy_stable
  have hex : ∃ v ∈ [vehicle12, vehicle8], distance externQ centroid10 v < 5 :=
    ⟨vehicle12, by simp, by rw [distance_centroid10_vehicle12]; norm_num⟩
  exact ⟨hc, hs, hex,
    stable_sort_selects_earliest externQ hc hs centroid10 [vehicle12, vehicle8] hex⟩

/-! ### Error computation and accumulation -/

theorem computeError_centroid10_vehicle12 :
    computeError centroid10 vehicle12 = ⟨-2, 0, 0, 0⟩ := by
  norm_num [computeError, centroid10, vehicle12]

theorem evaluateCentroid_centroid10_vehicle12 (p : Bool) (s : LoopState ℚ) :
    evaluateCentroid externQ [vehicle12] p s centroid10 =
      some { self := accumulateErrors s.self ⟨-2, 0, 0, 0⟩
             cluster_id := s.cluster_id + 1
             cout := if p = true then s.cout ++ [⟨s.cluster_id, ⟨-2, 0, 0, 0⟩⟩] else s.cout } := by
  obtain ⟨cv, _, hmem, _, _, heval⟩ :=
    evaluateCentroid_of_some_in_range externQ insertionSortBy_contract [vehicle12] p
      s centroid10
      ⟨vehicle12, by simp, by rw [distance_centroid10_vehicle12]; norm_num⟩
  have hcv : cv = vehicle12 := by simpa using hmem
  subst hcv
  rw [heval, computeError_centroid10_vehicle12]

theorem evaluateAndStoreStep_evaluator100 :
    evaluateAndStoreStep externQ evaluator100 0 [sample10] true =
      some (accumulateErrors evaluator100 ⟨-2, 0, 0, 0⟩, [⟨0, ⟨-2, 0, 0, 0⟩⟩]) := by
  have hstep : stepAt evaluator100.sim_data 0 = some ⟨[vehicle12]⟩ := rfl
  have hcl : computeDbscanClusters externQ [sample10] = [[sample10]] := rfl
  have hcluster : evaluateCluster externQ [vehicle12] true ⟨evaluator100, 0, []⟩ [sample10] =
      some { self := accumulateErrors evaluator100 ⟨-2, 0, 0, 0⟩
             cluster_id := 0 + 1
             cout := [] ++ [⟨0, ⟨-2, 0, 0, 0⟩⟩] } := by
    unfold evaluateCluster
    rw [computeClusterMean_sample10]
    exact evaluateCentroid_centroid10_vehicle12 true ⟨evaluator100, 0, []⟩
  unfold evaluateAndStoreStep
  rw [hstep]
  simp only [hcl, evaluateClusters, hcluster]
  simp

/-- C5: `computeError` returns the signed component-wise difference between
the centroid and the vehicle.  For the centroid (10, 90) with velocity (1, 0)
and the vehicle at (12, 90) with velocity (1, 0) the distance is 2, the
cluster is matched and the error is (-2, 0, 0, 0). -/
theorem computeError_signed_difference :
    (∀ (c : PointWithVelocity α) (v : Vehicle α),
      computeError c v =
        { x := c.x - v.pos.1, y := c.y - v.pos.2,
          v_x := c.v_x - v.vel.1, v_y := c.v_y - v.vel.2 }) ∧
    distance externQ centroid10 vehicle12 = 2 ∧
    computeError centroid10 vehicle12 = ⟨-2, 0, 0, 0⟩ ∧
    evaluateCentroid externQ [vehicle12] false loopStart centroid10 =
      some { self := accumulateErrors loopStart.self ⟨-2, 0, 0, 0⟩
             cluster_id := 1
             cout := [] } := by
  refine ⟨?_, distance_centroid10_vehicle12, computeError_centroid10_vehicle12, ?_⟩
  · intro c v
    simp [computeError]
  · rw [evaluateCentroid_centroid10_vehicle12]
    simp [loopStart]

/-- C6: `accumulateErrors` adds the absolute value of each error component to
the matching cumulative sum, increases `number_of_detections` by one and
leaves `number_of_unassigned_detections` unchanged. -/
theorem accumulateErrors_effect (self : PrecisionEvaluator α) (e : PointWithVelocity α) :
    (accumulateErrors self e).cumulative_error.x = self.cumulative_error.x + |e.x| ∧
    (accumulateErrors self e).cumulative_error.y = self.cumulative_error.y + |e.y| ∧
    (accumulateErrors self e).cumulative_error.v_x = self.cumulative_error.v_x + |e.v_x| ∧
    (accumulateErrors self e).cumulative_error.v_y = self.cumulative_error.v_y + |e.v_y| ∧
    (accumulateErrors self e).number_of_detections = self.number_of_detections + 1 ∧
    (accumulateErrors self e).number_of_unassigned_detections =
      self.number_of_unassigned_detections :=
  ⟨rfl, rfl, rfl, rfl, rfl, rfl⟩

/-! ### The cluster loop -/

/-- C7: a non-empty cluster whose centroid is at distance 5 or more from
every vehicle of the step increases the unassigned count by one and leaves
the matched count and the four cumulative sums unchanged. -/
theorem unassigned_cluster_effect (E : Extern α) (vs : List (Vehicle α)) (p : Bool)
    (s : LoopState α) (cluster : Cluster α) (hne : cluster ≠ [])
    (hfar : ∀ m, computeClusterMean s.self cluster = some m →
      ∀ v ∈ vs, 5 ≤ distance E m v) :
    ∃ s1, evaluateCluster E vs p s cluster = some s1 ∧
      s1.self.number_of_unassigned_detections = s.self.number_of_unassigned_detections + 1 ∧
      s1.self.number_of_detections = s.self.number_of_detections ∧
      s1.self.cumulative_error = s.self.cumulative_error := by
  have hm := computeClusterMean_of_ne_nil s.self cluster hne
  have hnone := evaluateCentroid_of_none_in_range E vs p s _
    (fun v hv => not_lt.mpr (hfar _ hm v hv))
  refine ⟨{ s with self := recordUnassigned s.self }, ?_, rfl, rfl, rfl⟩
  unfold evaluateCluster
  rw [hm]
  exact hnone

/-- Witness of C7: the cluster of the single sample (10, 10) has the centroid
(10, 90); the only vehicle is at distance exactly 5. -/
theorem unassigned_cluster_effect_witness :
    [sample10] ≠ [] ∧
    (∀ m, computeClusterMean loopStart.self [sample10] = some m →
      ∀ v ∈ [vehicle95], 5 ≤ distance externQ m v) ∧
    ∃ s1, evaluateCluster externQ [vehicle95] true loopStart [sample10] = some s1 ∧
      s1.self.number_of_unassigned_detections =
        loopStart.self.number_of_unassigned_detections + 1 ∧
      s1.self.number_of_detections = loopStart.self.number_of_detections ∧
      s1.self.cumulative_error = loopStart.self.cumulative_error := by
  have hfar : ∀ m, computeClusterMean loopStart.self [sample10] = some m →
      ∀ v ∈ [vehicle95], 5 ≤ distance externQ m v := by
    intro m hm v hv
    have hm1 : computeClusterMean evaluator100 [sample10] = some m := hm
    rw [computeClusterMean_sample10] at hm1
    have hmeq : centroid10 = m := Option.some.inj hm1
    have hveq : v = vehicle95 := by simpa using hv
    rw [← hmeq, hveq, distance_centroid10_vehicle95]
  exact ⟨by simp, hfar,
    unassigned_cluster_effect externQ [vehicle95] true loopStart [sample10] (by simp) hfar⟩

/-- C8: when the sample list is empty or the step has no vehicle,
`evaluateAndStoreStep` returns the evaluator unchanged and writes nothing. -/
theorem empty_input_short_circuit (E : Extern α) (self : PrecisionEvaluator α) (i : Int)
    (cells : List (Point α)) (p : Bool) (step : SimulationStep α)
    (hstep : stepAt self.sim_data i = some step)
    (hempty : cells = [] ∨ step.vehicles = []) :
    evaluateAndStoreStep E self i cells p = some (self, []) := by
  unfold evaluateAndStoreStep
  rw [hstep]
  rcases hempty with h | h
  · simp [h]
  · simp [h]

/-- Witness of C8: an empty sample list at step 0 of a data set with one
vehicle, and one sample at step 0 of a data set whose step has no vehicle. -/
theorem empty_input_short_circuit_witness :
    stepAt evaluator100.sim_data 0 = some ⟨[vehicle12]⟩ ∧
    evaluateAndStoreStep externQ evaluator100 0 [] true = some (evaluator100, []) ∧
    stepAt evaluatorNoVehicle.sim_data 0 = some ⟨[]⟩ ∧
    evaluateAndStoreStep externQ evaluatorNoVehicle 0 [sample10] true =
      some (evaluatorNoVehicle, []) :=
  ⟨rfl,
   empty_input_short_circuit externQ evaluator100 0 [] true ⟨[vehicle12]⟩ rfl (Or.inl rfl),
   rfl,
   empty_input_short_circuit externQ evaluatorNoVehicle 0 [sample10] true ⟨[]⟩ rfl (Or.inr rfl)⟩

/-! ### Linearity of the accumulation -/

theorem computeClusterMean_congr (s t : PrecisionEvaluator α) (cluster : Cluster α)
    (hr : t.resolution = s.resolution) (hg : t.grid_size = s.grid_size) :
    computeClusterMean t cluster = computeClusterMean s cluster := by
  unfold computeClusterMean
  rw [hr, hg]

theorem evaluateCentroid_total (E : Extern α) (hsort : StdSortContract E.sort)
    (vs : List (Vehicle α)) (p : Bool) (s : LoopState α) (cluster_mean : PointWithVelocity α) :
    ∃ s1, evaluateCentroid E vs p s cluster_mean = some s1 := by
  by_cases h : ∃ v ∈ vs, distance E cluster_mean v < 5
  · obtain ⟨cv, _, _, _, _, heval⟩ :=
      evaluateCentroid_of_some_in_range E hsort vs p s cluster_mean h
    exact ⟨_, heval⟩
  · push_neg at h
    exact ⟨_, evaluateCentroid_of_none_in_range E vs p s cluster_mean
      (fun v hv => not_lt.mpr (h v hv))⟩

theorem evaluateCluster_total (E : Extern α) (hsort : StdSortContract E.sort)
    (vs : List (Vehicle α)) (p : Bool) (s : LoopState α) (cluster : Cluster α)
    (hne : cluster ≠ []) :
    ∃ s1, evaluateCluster E vs p s cluster = some s1 := by
  unfold evaluateCluster
  rw [computeClusterMean_of_ne_nil s.self cluster hne]
  exact evaluateCentroid_total E hsort vs p s _

theorem evaluateClusters_total (E : Extern α) (hsort : StdSortContract E.sort)
    (vs : List (Vehicle α)) (p : Bool) (clusters : List (Cluster α))
    (hne : ∀ c ∈ clusters, c ≠ []) (s : LoopState α) :
    ∃ s1, evaluateClusters E vs p s clusters = some s1 := by
  induction clusters generalizing s with
  | nil => exact ⟨s, rfl⟩
  | cons c rest ih =>
    obtain ⟨s1, hs1⟩ := evaluateCluster_total E hsort vs p s c (hne c (List.mem_cons_self _ _))
    obtain ⟨s2, hs2⟩ := ih (fun c1 hc1 => hne c1 (List.mem_cons_of_mem _ hc1)) s1
    refine ⟨s2, ?_⟩
    simp only [evaluateClusters, hs1]
    exact hs2

theorem evaluateCentroid_offset (E : Extern α) (vs : List (Vehicle α)) (p : Bool)
    (d : PointWithVelocity α) (n u : Nat) (s t s1 : LoopState α)
    (cluster_mean : PointWithVelocity α) (hoff : OffsetBy d n u s.self t.self)
    (hs : evaluateCentroid E vs p s cluster_mean = some s1) :
    ∃ t1, evaluateCentroid E vs p t cluster_mean = some t1 ∧ OffsetBy d n u s1.self t1.self := by
  obtain ⟨h1, h2, h3, h4, h5, h6, h7, h8, h9⟩ := hoff
  unfold evaluateCentroid at hs ⊢
  by_cases hlen : (matchingGroundtruthVehicles E cluster_mean vs).length = 0
  · rw [if_pos hlen] at hs ⊢
    have hs1 := Option.some.inj hs
    subst hs1
    refine ⟨_, rfl, h1, h2, h3, h4, h5, h6, h7, h8, ?_⟩
    show t.self.number_of_unassigned_detections + 1 =
      s.self.number_of_unassigned_detections + 1 + u
    omega
  · rw [if_neg hlen] at hs ⊢
    cases hcv : closestVehicle E cluster_mean (matchingGroundtruthVehicles E cluster_mean vs) with
    | none => rw [hcv] at hs; cases hs
    | some cv =>
      rw [hcv] at hs
      have hs1 := Option.some.inj hs
      subst hs1
      refine ⟨_, rfl, h1, h2, h3, ?_, ?_, ?_, ?_, ?_, h9⟩
      · show t.self.cumulative_error.x + _ = s.self.cumulative_error.x + _ + d.x
        rw [h4]; ring
      · show t.self.cumulative_error.y + _ = s.self.cumulative_error.y + _ + d.y
        rw [h5]; ring
      · show t.self.cumulative_error.v_x + _ = s.self.cumulative_error.v_x + _ + d.v_x
        rw [h6]; ring
      · show t.self.cumulative_error.v_y + _ = s.self.cumulative_error.v_y + _ + d.v_y
        rw [h7]; ring
      · show t.self.number_of_detections + 1 = s.self.number_of_detections + 1 + n
        omega

theorem evaluateClusters_offset (E : Extern α) (vs : List (Vehicle α)) (p : Bool)
    (d : PointWithVelocity α) (n u : Nat) (clusters : List (Cluster α)) (s t s1 : LoopState α)
    (hoff : OffsetBy d n u s.self t.self)
    (hs : evaluateClusters E vs p s clusters = some s1) :
    ∃ t1, evaluateClusters E vs p t clusters = some t1 ∧ OffsetBy d n u s1.self t1.self := by
  induction clusters generalizing s t with
  | nil =>
    simp only [evaluateClusters] at hs ⊢
    have hs1 := Option.some.inj hs
    subst hs1
    exact ⟨t, rfl, hoff⟩
  | cons c rest ih =>
    simp only [evaluateClusters] at hs ⊢
    cases hc : evaluateCluster E vs p s c with
    | none => rw [hc] at hs; cases hs
    | some sm =>
      rw [hc] at hs
      have hmean : computeClusterMean t.self c = computeClusterMean s.self c :=
        computeClusterMean_congr s.self t.self c hoff.2.1 hoff.2.2.1
      unfold evaluateCluster at hc
      cases hm : computeClusterMean s.self c with
      | none => rw [hm] at hc; cases hc
      | some m =>
        rw [hm] at hc
        obtain ⟨tm, htm, hoffm⟩ := evaluateCentroid_offset E vs p d n u s t sm m hoff hc
        have htc : evaluateCluster E vs p t c = some tm := by
          unfold evaluateCluster
          rw [hmean, hm]
          exact htm
        rw [htc]
        exact ih sm tm hoffm hs

theorem evaluateCluster_sameConfig (E : Extern α) (vs : List (Vehicle α)) (p : Bool)
    (s s1 : LoopState α) (cluster : Cluster α)
    (hs : evaluateCluster E vs p s cluster = some s1) : SameConfig s.self s1.self := by
  unfold evaluateCluster at hs
  cases hm : computeClusterMean s.self cluster with
  | none => rw [hm] at hs; cases hs
  | some m =>
    rw [hm] at hs
    change evaluateCentroid E vs p s m = some s1 at hs
    unfold evaluateCentroid at hs
    by_cases hlen : (matchingGroundtruthVehicles E m vs).length = 0
    · rw [if_pos hlen] at hs
      have hs1 := Option.some.inj hs
      subst hs1
      exact ⟨rfl, rfl, rfl⟩
    · rw [if_neg hlen] at hs
      cases hcv : closestVehicle E m (matchingGroundtruthVehicles E m vs) with
      | none => rw [hcv] at hs; cases hs
      | some cv =>
        rw [hcv] at hs
        have hs1 := Option.some.inj hs
        subst hs1
        exact ⟨rfl, rfl, rfl⟩

theorem evaluateClusters_sameConfig (E : Extern α) (vs : List (Vehicle α)) (p : Bool)
    (clusters : List (Cluster α)) (s s1 : LoopState α)
    (hs : evaluateClusters E vs p s clusters = some s1) : SameConfig s.self s1.self := by
  induction clusters generalizing s with
  | nil =>
    simp only [evaluateClusters] at hs
    have hs1 := Option.some.inj hs
    subst hs1
    exact ⟨rfl, rfl, rfl⟩
  | cons c rest ih =>
    simp only [evaluateClusters] at hs
    cases hc : evaluateCluster E vs p s c with
    | none => rw [hc] at hs; cases hs
    | some sm =>
      rw [hc] at hs
      obtain ⟨a1, a2, a3⟩ := evaluateCluster_sameConfig E vs p s sm c hc
      obtain ⟨b1, b2, b3⟩ := ih sm hs
      exact ⟨b1.trans a1, b2.trans a2, b3.trans a3⟩

theorem evaluateAndStoreStep_twice (E : Extern α) (hsort : StdSortContract E.sort)
    (sim_data : SimulationData α) (resolution grid_size : α) (i : Int)
    (cells : List (Point α)) (p : Bool) (step : SimulationStep α)
    (hstep : stepAt sim_data i = some step)
    (hne : ∀ c ∈ computeDbscanClusters E cells, c ≠ []) :
    ∃ s1 o1 s2 o2,
      evaluateAndStoreStep E (PrecisionEvaluator.create sim_data resolution grid_size)
        i cells p = some (s1, o1) ∧
      evaluateAndStoreStep E s1 i cells p = some (s2, o2) ∧
      OffsetBy s1.cumulative_error s1.number_of_detections s1.number_of_unassigned_detections
        s1 s2 := by
  by_cases hcond : cells.length > 0 ∧ step.vehicles.length > 0
  · obtain ⟨l1, hl1⟩ := evaluateClusters_total E hsort step.vehicles p
      (computeDbscanClusters E cells) hne
      ⟨PrecisionEvaluator.create sim_data resolution grid_size, 0, []⟩
    obtain ⟨c1, c2, c3⟩ := evaluateClusters_sameConfig E step.vehicles p _ _ _ hl1
    have hoff : OffsetBy l1.self.cumulative_error l1.self.number_of_detections
        l1.self.number_of_unassigned_detections
        (PrecisionEvaluator.create sim_data resolution grid_size) l1.self := by
      refine ⟨c1, c2, c3, ?_, ?_, ?_, ?_, ?_, ?_⟩ <;> simp [PrecisionEvaluator.create]
    obtain ⟨l2, hl2, hoff2⟩ := evaluateClusters_offset E step.vehicles p _ _ _
      (computeDbscanClusters E cells)
      ⟨PrecisionEvaluator.create sim_data resolution grid_size, 0, []⟩ ⟨l1.self, 0, []⟩ l1
      hoff hl1
    have hsd : l1.self.sim_data = sim_data := c1
    refine ⟨l1.self, l1.cout, l2.self, l2.cout, ?_, ?_, hoff2⟩
    · unfold evaluateAndStoreStep
      simp only [PrecisionEvaluator.create, hstep, hcond, and_self, if_true]
      simp only [PrecisionEvaluator.create] at hl1
      rw [hl1]
    · unfold evaluateAndStoreStep
      simp only [hsd, hstep, hcond, and_self, if_true]
      rw [hl2]
  · refine ⟨PrecisionEvaluator.create sim_data resolution grid_size, [],
      PrecisionEvaluator.create sim_data resolution grid_size, [], ?_, ?_, ?_⟩
    · unfold evaluateAndStoreStep
      simp only [PrecisionEvaluator.create, hstep, hcond, if_false]
    · unfold evaluateAndStoreStep
      simp only [PrecisionEvaluator.create, hstep, hcond, if_false]
    · refine ⟨rfl, rfl, rfl, ?_, ?_, ?_, ?_, ?_, ?_⟩ <;> simp [PrecisionEvaluator.create]

/-- C9: starting from a fresh evaluator, a second call of
`evaluateAndStoreStep` with the same step index and samples returns, and it
doubles the matched count, the unassigned count and each of the four
cumulative sums reached after the first call. -/
theorem evaluate_twice_doubles (E : Extern α) (hsort : StdSortContract E.sort)
    (sim_data : SimulationData α) (resolution grid_size : α) (i : Int)
    (cells : List (Point α)) (p : Bool) (step : SimulationStep α)
    (hstep : stepAt sim_data i = some step)
    (hne : ∀ c ∈ computeDbscanClusters E cells, c ≠ []) :
    ∃ s1 o1 s2 o2,
      evaluateAndStoreStep E (PrecisionEvaluator.create sim_data resolution grid_size)
        i cells p = some (s1, o1) ∧
      evaluateAndStoreStep E s1 i cells p = some (s2, o2) ∧
      s2.number_of_detections = 2 * s1.number_of_detections ∧
      s2.cumulative_error.x = 2 * s1.cumulative_error.x ∧
      s2.cumulative_error.y = 2 * s1.cumulative_error.y ∧
      s2.cumulative_error.v_x = 2 * s1.cumulative_error.v_x ∧
      s2.cumulative_error.v_y = 2 * s1.cumulative_error.v_y ∧
      s2.number_of_unassigned_detections = 2 * s1.number_of_unassigned_detections := by
  obtain ⟨s1, o1, s2, o2, h1, h2, _, _, _, hx, hy, hvx, hvy, hn, hu⟩ :=
    evaluateAndStoreStep_twice E hsort sim_data resolution grid_size i cells p step hstep hne
  refine ⟨s1, o1, s2, o2, h1, h2, ?_, ?_, ?_, ?_, ?_, ?_⟩
  · omega
  · rw [hx]; ring
  · rw [hy]; ring
  · rw [hvx]; ring
  · rw [hvy]; ring
  · omega

/-- Witness of C9: the data set with one vehicle at (12, 90), the single
sample (10, 10): one call gives one detection and the sum 2 for x, the second
call gives two detections and the sum 4. -/
theorem evaluate_twice_doubles_witness :
    StdSortContract externQ.sort ∧
    stepAt evaluator100.sim_data 0 = some ⟨[vehicle12]⟩ ∧
    (∀ c ∈ computeDbscanClusters externQ [sample10], c ≠ []) ∧
    ∃ s1 o1 s2 o2,
      evaluateAndStoreStep externQ (PrecisionEvaluator.create evaluator100.sim_data 1 100)
        0 [sample10] true = some (s1, o1) ∧
      evaluateAndStoreStep externQ s1 0 [sample10] true = some (s2, o2) ∧
      s1.number_of_detections = 1 ∧ s1.cumulative_error.x = 2 ∧
      s2.number_of_detections = 2 ∧ s2.cumulative_error.x = 4 := by
  have hc : StdSortContract externQ.sort := insertionSortBy_contract
  have hne : ∀ c ∈ computeDbscanClusters externQ [sample10], c ≠ [] := by
    intro c hmem
    have hc1 : c = [sample10] := by
      simpa [computeDbscanClusters, externQ, oneCluster] using hmem
    simp [hc1]
  obtain ⟨s1, o1, s2, o2, h1, h2, hn, hx, _⟩ :=
    evaluate_twice_doubles externQ hc evaluator100.sim_data 1 100 0 [sample10] true
      ⟨[vehicle12]⟩ rfl hne
  have hfirst : some (s1, o1) =
      some (accumulateErrors evaluator100 ⟨-2, 0, 0, 0⟩, [⟨0, ⟨-2, 0, 0, 0⟩⟩]) :=
    h1.symm.trans evaluateAndStoreStep_evaluator100
  have hs1 : s1 = accumulateErrors evaluator100 ⟨-2, 0, 0, 0⟩ :=
    congrArg Prod.fst (Option.some.inj hfirst)
  have hn1 : s1.number_of_detections = 1 := by
    rw [hs1]; rfl
  have hx1 : s1.cumulative_error.x = 2 := by
    rw [hs1]; norm_num [accumulateErrors, evaluator100, PrecisionEvaluator.create]
  refine ⟨hc, rfl, hne, s1, o1, s2, o2, h1, h2, hn1, hx1, ?_, ?_⟩
  · rw [hn, hn1]
  · rw [hx, hx1]; norm_num

/-! ### The summary -/

theorem printSummary_of_zero_detections (self : PrecisionEvaluator α)
    (first : SimulationStep α) (hfirst : self.sim_data.head? = some first)
    (hzero : self.number_of_detections = 0) :
    printSummary self =
      some { position_x := floatDiv self.cumulative_error.x 0
             position_y := floatDiv self.cumulative_error.y 0
             velocity_x := floatDiv self.cumulative_error.v_x 0
             velocity_y := floatDiv self.cumulative_error.v_y 0
             detections_unassigned := self.number_of_unassigned_detections
             maximum_possible_detections :=
               (first.vehicles.length * self.sim_data.length) % 2 ^ 64 } := by
  unfold printSummary
  rw [hfirst, hzero]

/-- C10, counterexample: for the fresh evaluator over a data set with one
step, which has no matched detection, `printSummary` reports not-a-number
for each of the four means. -/
theorem printSummary_fresh_reports_nan :
    evaluator100.number_of_detections = 0 ∧
    printSummary evaluator100 =
      some { position_x := FloatQuotient.nan
             position_y := FloatQuotient.nan
             velocity_x := FloatQuotient.nan
             velocity_y := FloatQuotient.nan
             detections_unassigned := 0
             maximum_possible_detections := 1 } := by
  refine ⟨rfl, ?_⟩
  rw [printSummary_of_zero_detections evaluator100 ⟨[vehicle12]⟩ rfl rfl]
  simp [floatDiv, evaluator100, PrecisionEvaluator.create]

/-- C10, amended: with a matched count of zero `printSummary` makes no check
of the count.  It reports the four divisions by zero, each not-a-number for
a zero sum and an infinity otherwise, never a finite value, next to the
unassigned count. -/
theorem printSummary_zero_count_divides (self : PrecisionEvaluator α)
    (hdata : self.sim_data ≠ []) (hzero : self.number_of_detections = 0) :
    ∃ summary, printSummary self = some summary ∧
      summary.position_x = floatDiv self.cumulative_error.x 0 ∧
      summary.position_y = floatDiv self.cumulative_error.y 0 ∧
      summary.velocity_x = floatDiv self.cumulative_error.v_x 0 ∧
      summary.velocity_y = floatDiv self.cumulative_error.v_y 0 ∧
      summary.detections_unassigned = self.number_of_unassigned_detections ∧
      (∀ sum : α, floatDiv sum 0 =
        if sum = 0 then FloatQuotient.nan
        else if 0 < sum then FloatQuotient.inf else FloatQuotient.negInf) ∧
      (∀ sum q : α, floatDiv sum 0 ≠ FloatQuotient.finite q) := by
  cases hsd : self.sim_data with
  | nil => exact absurd hsd hdata
  | cons first rest =>
    have hfirst : self.sim_data.head? = some first := by rw [hsd]; rfl
    refine ⟨_, printSummary_of_zero_detections self first hfirst hzero,
      rfl, rfl, rfl, rfl, rfl, ?_, ?_⟩
    · intro sum
      simp [floatDiv]
    · intro sum q
      simp only [floatDiv, if_true]
      split_ifs <;> simp

/-- Witness of C10, amended: the fresh evaluator over a data set with one
step. -/
theorem printSummary_zero_count_divides_witness :
    evaluator100.sim_data ≠ [] ∧ evaluator100.number_of_detections = 0 ∧
    ∃ summary, printSummary evaluator100 = some summary ∧
      summary.position_x = floatDiv evaluator100.cumulative_error.x 0 ∧
      summary.position_y = floatDiv evaluator100.cumulative_error.y 0 ∧
      summary.velocity_x = floatDiv evaluator100.cumulative_error.v_x 0 ∧
      summary.velocity_y = floatDiv evaluator100.cumulative_error.v_y 0 ∧
      summary.detections_unassigned = evaluator100.number_of_unassigned_detections ∧
      (∀ sum : ℚ, floatDiv sum 0 =
        if sum = 0 then FloatQuotient.nan
        else if 0 < sum then FloatQuotient.inf else FloatQuotient.negInf) ∧
      (∀ sum q : ℚ, floatDiv sum 0 ≠ FloatQuotient.finite q) :=
  ⟨by simp [evaluator100, PrecisionEvaluator.create], rfl,
   printSummary_zero_count_divides evaluator100
     (by simp [evaluator100, PrecisionEvaluator.create]) rfl⟩

/-! ### The cluster loop in closed form -/

theorem clusterError_congr (E : Extern α) (s t : PrecisionEvaluator α) (vs : List (Vehicle α))
    (hc : SameConfig s t) : clusterError E t vs = clusterError E s vs := by
  funext c
  unfold clusterError
  rw [computeClusterMean_congr s t c hc.2.1 hc.2.2]

theorem evaluateCluster_some_cases (E : Extern α) (vs : List (Vehicle α)) (p : Bool)
    (s s1 : LoopState α) (c : Cluster α) (h : evaluateCluster E vs p s c = some s1) :
    (clusterError E s.self vs c = none ∧ s1 = { s with self := recordUnassigned s.self }) ∨
    (∃ e, clusterError E s.self vs c = some e ∧
      s1 = { self := accumulateErrors s.self e
             cluster_id := s.cluster_id + 1
             cout := if p = true then s.cout ++ [⟨s.cluster_id, e⟩] else s.cout }) := by
  unfold evaluateCluster at h
  unfold clusterError
  cases hm : computeClusterMean s.self c with
  | none => rw [hm] at h; cases h
  | some m =>
    rw [hm] at h
    change evaluateCentroid E vs p s m = some s1 at h
    unfold evaluateCentroid at h
    by_cases hlen : (matchingGroundtruthVehicles E m vs).length = 0
    · rw [if_pos hlen] at h
      left
      simp only [hlen, if_true, true_and]
      exact (Option.some.inj h).symm
    · rw [if_neg hlen] at h
      cases hcv : closestVehicle E m (matchingGroundtruthVehicles E m vs) with
      | none => rw [hcv] at h; cases h
      | some cv =>
        rw [hcv] at h
        right
        refine ⟨computeError m cv, ?_, (Option.some.inj h).symm⟩
        simp only [hlen, if_false, hcv, Option.map_some']

theorem evaluateClusters_advancedBy (E : Extern α) (vs : List (Vehicle α)) (p : Bool)
    (clusters : List (Cluster α)) (s s1 : LoopState α)
    (h : evaluateClusters E vs p s clusters = some s1) :
    AdvancedBy p (matchedErrors E s.self vs clusters) clusters.length s s1 := by
  induction clusters generalizing s with
  | nil =>
    simp only [evaluateClusters] at h
    have h1 := Option.some.inj h
    subst h1
    refine ⟨⟨rfl, rfl, rfl⟩, ?_, ?_, ?_, ?_, ?_, ?_, ?_, ?_⟩ <;> simp [matchedErrors, diagRecords]
  | cons c rest ih =>
    simp only [evaluateClusters] at h
    cases hc : evaluateCluster E vs p s c with
    | none => rw [hc] at h; cases h
    | some sm =>
      rw [hc] at h
      have hcfg := evaluateCluster_sameConfig E vs p s sm c hc
      obtain ⟨⟨c1, c2, c3⟩, hx, hy, hvx, hvy, hn, hu, hid, hout⟩ := ih sm h
      have herr : matchedErrors E sm.self vs rest = matchedErrors E s.self vs rest := by
        unfold matchedErrors
        rw [clusterError_congr E s.self sm.self vs hcfg]
      rw [herr] at hx hy hvx hvy hn hu hid hout
      rcases evaluateCluster_some_cases E vs p s sm c hc with ⟨hnone, hsm⟩ | ⟨e, hsome, hsm⟩
      · have hme : matchedErrors E s.self vs (c :: rest) = matchedErrors E s.self vs rest := by
          simp [matchedErrors, List.filterMap_cons, hnone]
        rw [hme]
        subst hsm
        refine ⟨⟨c1.trans hcfg.1, c2.trans hcfg.2.1, c3.trans hcfg.2.2⟩,
          hx, hy, hvx, hvy, hn, ?_, hid, hout⟩
        have hu1 : s1.self.number_of_unassigned_detections +
            (matchedErrors E s.self vs rest).length =
            s.self.number_of_unassigned_detections + 1 + rest.length := hu
        simp only [List.length_cons]
        omega
      · have hme : matchedErrors E s.self vs (c :: rest) =
            e :: matchedErrors E s.self vs rest := by
          simp [matchedErrors, List.filterMap_cons, hsome]
        rw [hme]
        subst hsm
        refine ⟨⟨c1.trans hcfg.1, c2.trans hcfg.2.1, c3.trans hcfg.2.2⟩, ?_, ?_, ?_, ?_, ?_, ?_, ?_, ?_⟩
        · rw [hx]; simp [accumulateErrors, add_assoc]
        · rw [hy]; simp [accumulateErrors, add_assoc]
        · rw [hvx]; simp [accumulateErrors, add_assoc]
        · rw [hvy]; simp [accumulateErrors, add_assoc]
        · rw [hn]; simp [accumulateErrors]; omega
        · have hu1 : s1.self.number_of_unassigned_detections +
              (matchedErrors E s.self vs rest).length =
              s.self.number_of_unassigned_detections + rest.length := hu
          simp only [List.length_cons]
          omega
        · rw [hid]; simp only [List.length_cons]; push_cast; ring
        · rw [hout]
          cases p <;> simp [diagRecords]

theorem evaluateAndStoreStep_eq (E : Extern α) (self : PrecisionEvaluator α) (i : Int)
    (cells : List (Point α)) (p : Bool) (step : SimulationStep α)
    (hstep : stepAt self.sim_data i = some step) :
    evaluateAndStoreStep E self i cells p =
      (evaluateClusters E step.vehicles p ⟨self, 0, []⟩ (clustersOf E step cells)).map
        (fun l => (l.self, l.cout)) := by
  unfold evaluateAndStoreStep clustersOf
  rw [hstep]
  by_cases hcond : cells.length > 0 ∧ step.vehicles.length > 0
  · simp only [hcond, and_self, if_true]
    cases evaluateClusters E step.vehicles p ⟨self, 0, []⟩ (computeDbscanClusters E cells) <;> rfl
  · simp only [hcond, if_false, evaluateClusters, Option.map_some']

theorem stepAt_of_evaluateAndStoreStep (E : Extern α) (self : PrecisionEvaluator α) (i : Int)
    (cells : List (Point α)) (p : Bool) (r : PrecisionEvaluator α × List (DiagRecord α))
    (h : evaluateAndStoreStep E self i cells p = some r) :
    ∃ step, stepAt self.sim_data i = some step := by
  cases hstep : stepAt self.sim_data i with
  | none =>
    unfold evaluateAndStoreStep at h
    rw [hstep] at h
    cases h
  | some step => exact ⟨step, rfl⟩

theorem clustersOf_of_nonempty (E : Extern α) (step : SimulationStep α) (cells : List (Point α))
    (hcells : cells ≠ []) (hveh : step.vehicles ≠ []) :
    clustersOf E step cells = computeDbscanClusters E cells := by
  unfold clustersOf
  have h1 : cells.length > 0 := List.length_pos.mpr hcells
  have h2 : step.vehicles.length > 0 := List.length_pos.mpr hveh
  simp [h1, h2]

theorem clustersOf_ne_nil (E : Extern α) (step : SimulationStep α) (cells : List (Point α))
    (hne : ∀ c ∈ computeDbscanClusters E cells, c ≠ []) :
    ∀ c ∈ clustersOf E step cells, c ≠ [] := by
  intro c hc
  unfold clustersOf at hc
  split_ifs at hc
  · exact hne c hc
  · cases hc

/-- The call returns, and the loop state it ends in is the start state
advanced by the matched errors of the clusters of the step. -/
theorem evaluateAndStoreStep_advancedBy (E : Extern α) (hsort : StdSortContract E.sort)
    (self : PrecisionEvaluator α) (i : Int) (cells : List (Point α)) (p : Bool)
    (step : SimulationStep α) (hstep : stepAt self.sim_data i = some step)
    (hne : ∀ c ∈ computeDbscanClusters E cells, c ≠ []) :
    ∃ l, evaluateAndStoreStep E self i cells p = some (l.self, l.cout) ∧
      evaluateClusters E step.vehicles p ⟨self, 0, []⟩ (clustersOf E step cells) = some l ∧
      AdvancedBy p (matchedErrors E self step.vehicles (clustersOf E step cells))
        (clustersOf E step cells).length ⟨self, 0, []⟩ l := by
  obtain ⟨l, hl⟩ := evaluateClusters_total E hsort step.vehicles p (clustersOf E step cells)
    (clustersOf_ne_nil E step cells hne) ⟨self, 0, []⟩
  refine ⟨l, ?_, hl, evaluateClusters_advancedBy E step.vehicles p _ _ l hl⟩
  rw [evaluateAndStoreStep_eq E self i cells p step hstep, hl]
  rfl

/-! ### The summary with matched detections -/

theorem printSummary_of_pos (self : PrecisionEvaluator α)
    (hdata : self.sim_data ≠ []) (hpos : 0 < self.number_of_detections) :
    ∃ summary, printSummary self = some summary ∧
      summary.position_x =
        FloatQuotient.finite (self.cumulative_error.x / (self.number_of_detections : α)) ∧
      summary.position_y =
        FloatQuotient.finite (self.cumulative_error.y / (self.number_of_detections : α)) ∧
      summary.velocity_x =
        FloatQuotient.finite (self.cumulative_error.v_x / (self.number_of_detections : α)) ∧
      summary.velocity_y =
        FloatQuotient.finite (self.cumulative_error.v_y / (self.number_of_detections : α)) ∧
      summary.detections_unassigned = self.number_of_unassigned_detections := by
  have hn : self.number_of_detections ≠ 0 := Nat.pos_iff_ne_zero.mp hpos
  cases hsd : self.sim_data with
  | nil => exact absurd hsd hdata
  | cons first rest =>
    unfold printSummary
    rw [hsd]
    simp only [List.head?_cons, floatDiv, hn, if_false]
    exact ⟨_, rfl, rfl, rfl, rfl, rfl, rfl⟩

/-- C11: with a positive matched count `printSummary` reports each cumulative
sum divided by the count, as a finite value, together with the unassigned
count. -/
theorem printSummary_reports_means (self : PrecisionEvaluator α)
    (hdata : self.sim_data ≠ []) (hpos : 0 < self.number_of_detections) :
    ∃ summary, printSummary self = some summary ∧
      summary.position_x =
        FloatQuotient.finite (self.cumulative_error.x / (self.number_of_detections : α)) ∧
      summary.position_y =
        FloatQuotient.finite (self.cumulative_error.y / (self.number_of_detections : α)) ∧
      summary.velocity_x =
        FloatQuotient.finite (self.cumulative_error.v_x / (self.number_of_detections : α)) ∧
      summary.velocity_y =
        FloatQuotient.finite (self.cumulative_error.v_y / (self.number_of_detections : α)) ∧
      summary.detections_unassigned = self.number_of_unassigned_detections :=
  printSummary_of_pos self hdata hpos

/-- Witness of C11: after one `accumulateErrors` of (-2, 0, 0, 0) on the
fresh evaluator the x sum is 2, the matched count is 1 and the reported mean
x position error is 2. -/
theorem printSummary_reports_means_witness :
    (accumulateErrors evaluator100 ⟨-2, 0, 0, 0⟩).sim_data ≠ [] ∧
    0 < (accumulateErrors evaluator100 ⟨-2, 0, 0, 0⟩).number_of_detections ∧
    (accumulateErrors evaluator100 ⟨-2, 0, 0, 0⟩).cumulative_error.x = 2 ∧
    (accumulateErrors evaluator100 ⟨-2, 0, 0, 0⟩).number_of_detections = 1 ∧
    ∃ summary, printSummary (accumulateErrors evaluator100 ⟨-2, 0, 0, 0⟩) = some summary ∧
      summary.position_x = FloatQuotient.finite 2 ∧
      summary.detections_unassigned = 0 := by
  have hdata : (accumulateErrors evaluator100 ⟨-2, 0, 0, 0⟩).sim_data ≠ [] := by
    simp [accumulateErrors, evaluator100, PrecisionEvaluator.create]
  have hpos : 0 < (accumulateErrors evaluator100 ⟨-2, 0, 0, 0⟩).number_of_detections := by
    simp [accumulateErrors]
  have hx : (accumulateErrors evaluator100 ⟨-2, 0, 0, 0⟩).cumulative_error.x = 2 := by
    norm_num [accumulateErrors, evaluator100, PrecisionEvaluator.create]
  obtain ⟨summary, hs, hpx, _, _, _, hu⟩ :=
    printSummary_reports_means (accumulateErrors evaluator100 ⟨-2, 0, 0, 0⟩) hdata hpos
  refine ⟨hdata, hpos, hx, rfl, summary, hs, ?_, ?_⟩
  · rw [hpx, hx]
    norm_num [accumulateErrors, evaluator100, PrecisionEvaluator.create]
  · rw [hu]; rfl

/-! ### Counting, order and output -/

theorem evaluateCluster_counts_one (E : Extern α) (hsort : StdSortContract E.sort)
    (vs : List (Vehicle α)) (p : Bool) (s : LoopState α) (c : Cluster α) (hne : c ≠ []) :
    ∃ s1, evaluateCluster E vs p s c = some s1 ∧
      ((s1.self.number_of_detections = s.self.number_of_detections + 1 ∧
          s1.self.number_of_unassigned_detections = s.self.number_of_unassigned_detections) ∨
        (s1.self.number_of_detections = s.self.number_of_detections ∧
          s1.self.number_of_unassigned_detections =
            s.self.number_of_unassigned_detections + 1)) := by
  obtain ⟨s1, hs1⟩ := evaluateCluster_total E hsort vs p s c hne
  refine ⟨s1, hs1, ?_⟩
  rcases evaluateCluster_some_cases E vs p s s1 c hs1 with ⟨_, h⟩ | ⟨e, _, h⟩
  · right
    subst h
    exact ⟨rfl, rfl⟩
  · left
    subst h
    exact ⟨rfl, rfl⟩

/-- C12: for a step with samples and vehicles, every cluster of the
clustering increases exactly one of the matched count and the unassigned
count by one, and the call increases their sum by the number of clusters. -/
theorem every_cluster_counted_once (E : Extern α) (hsort : StdSortContract E.sort)
    (self : PrecisionEvaluator α) (i : Int) (cells : List (Point α)) (p : Bool)
    (step : SimulationStep α) (hstep : stepAt self.sim_data i = some step)
    (hcells : cells ≠ []) (hveh : step.vehicles ≠ [])
    (hne : ∀ c ∈ computeDbscanClusters E cells, c ≠ []) :
    (∀ (s : LoopState α) (c : Cluster α), c ∈ computeDbscanClusters E cells →
      ∃ s1, evaluateCluster E step.vehicles p s c = some s1 ∧
        ((s1.self.number_of_detections = s.self.number_of_detections + 1 ∧
            s1.self.number_of_unassigned_detections =
              s.self.number_of_unassigned_detections) ∨
          (s1.self.number_of_detections = s.self.number_of_detections ∧
            s1.self.number_of_unassigned_detections =
              s.self.number_of_unassigned_detections + 1))) ∧
    ∃ s1 o1, evaluateAndStoreStep E self i cells p = some (s1, o1) ∧
      s1.number_of_detections + s1.number_of_unassigned_detections =
        self.number_of_detections + self.number_of_unassigned_detections +
          (computeDbscanClusters E cells).length := by
  refine ⟨fun s c hc => evaluateCluster_counts_one E hsort step.vehicles p s c (hne c hc), ?_⟩
  obtain ⟨l, hl, _, _, _, _, _, _, hn, hu, _, _⟩ :=
    evaluateAndStoreStep_advancedBy E hsort self i cells p step hstep hne
  rw [clustersOf_of_nonempty E step cells hcells hveh] at hn hu
  refine ⟨l.self, l.cout, hl, ?_⟩
  have hn1 : l.self.number_of_detections = self.number_of_detections +
      (matchedErrors E self step.vehicles (computeDbscanClusters E cells)).length := hn
  have hu1 : l.self.number_of_unassigned_detections +
      (matchedErrors E self step.vehicles (computeDbscanClusters E cells)).length =
      self.number_of_unassigned_detections + (computeDbscanClusters E cells).length := hu
  omega

/-- Witness of C12: the step with one vehicle and the single sample (10, 10),
clustered into one cluster. -/
theorem every_cluster_counted_once_witness :
    StdSortContract externQ.sort ∧
    stepAt evaluator100.sim_data 0 = some ⟨[vehicle12]⟩ ∧
    [sample10] ≠ [] ∧ [vehicle12] ≠ [] ∧
    (∀ c ∈ computeDbscanClusters externQ [sample10], c ≠ []) ∧
    ∃ s1 o1, evaluateAndStoreStep externQ evaluator100 0 [sample10] true = some (s1, o1) ∧
      s1.number_of_detections + s1.number_of_unassigned_detections =
        evaluator100.number_of_detections + evaluator100.number_of_unassigned_detections +
          (computeDbscanClusters externQ [sample10]).length := by
  have hc : StdSortContract externQ.sort := insertionSortBy_contract
  have hne : ∀ c ∈ computeDbscanClusters externQ [sample10], c ≠ [] := by
    intro c hmem
    have hc1 : c = [sample10] := by
      simpa [computeDbscanClusters, externQ, oneCluster] using hmem
    simp [hc1]
  exact ⟨hc, rfl, by simp, by simp, hne,
    (every_cluster_counted_once externQ hc evaluator100 0 [sample10] true ⟨[vehicle12]⟩ rfl
      (by simp) (by simp) hne).2⟩

theorem evaluator_ext {β : Type} (a b : PrecisionEvaluator β) (hc : SameConfig a b)
    (hx : b.cumulative_error.x = a.cumulative_error.x)
    (hy : b.cumulative_error.y = a.cumulative_error.y)
    (hvx : b.cumulative_error.v_x = a.cumulative_error.v_x)
    (hvy : b.cumulative_error.v_y = a.cumulative_error.v_y)
    (hn : b.number_of_detections = a.number_of_detections)
    (hu : b.number_of_unassigned_detections = a.number_of_unassigned_detections) : a = b := by
  obtain ⟨h1, h2, h3⟩ := hc
  cases a with
  | mk sd r g ce n u =>
    cases b with
    | mk sd1 r1 g1 ce1 n1 u1 =>
      cases ce
      cases ce1
      simp only at h1 h2 h3 hx hy hvx hvy hn hu
      subst h1 h2 h3 hx hy hvx hvy hn hu
      rfl

theorem advancedBy_perm (p : Bool) (errs1 errs2 : List (PointWithVelocity α)) (k : Nat)
    (s s1 s2 : LoopState α) (hperm : errs1.Perm errs2)
    (h1 : AdvancedBy p errs1 k s s1) (h2 : AdvancedBy p errs2 k s s2) : s1.self = s2.self := by
  obtain ⟨⟨a1, a2, a3⟩, ax, ay, avx, avy, an, au, _, _⟩ := h1
  obtain ⟨⟨b1, b2, b3⟩, bx, byy, bvx, bvy, bn, bu, _, _⟩ := h2
  have hlen := hperm.length_eq
  apply evaluator_ext
  · exact ⟨b1.trans a1.symm, b2.trans a2.symm, b3.trans a3.symm⟩
  · rw [ax, bx, (hperm.map (fun e => |e.x|)).sum_eq]
  · rw [ay, byy, (hperm.map (fun e => |e.y|)).sum_eq]
  · rw [avx, bvx, (hperm.map (fun e => |e.v_x|)).sum_eq]
  · rw [avy, bvy, (hperm.map (fun e => |e.v_y|)).sum_eq]
  · rw [an, bn, hlen]
  · omega

theorem evaluateClusters_perm (E : Extern α) (hsort : StdSortContract E.sort)
    (vs : List (Vehicle α)) (p : Bool) (s : LoopState α) (l1 l2 : List (Cluster α))
    (hne : ∀ c ∈ l1, c ≠ []) (hperm : l1.Perm l2) :
    ∃ s1 s2, evaluateClusters E vs p s l1 = some s1 ∧ evaluateClusters E vs p s l2 = some s2 ∧
      s1.self = s2.self := by
  obtain ⟨s1, hs1⟩ := evaluateClusters_total E hsort vs p l1 hne s
  obtain ⟨s2, hs2⟩ := evaluateClusters_total E hsort vs p l2
    (fun c hc => hne c (hperm.symm.subset hc)) s
  refine ⟨s1, s2, hs1, hs2, ?_⟩
  have h1 := evaluateClusters_advancedBy E vs p l1 s s1 hs1
  have h2 := evaluateClusters_advancedBy E vs p l2 s s2 hs2
  rw [← hperm.length_eq] at h2
  exact advancedBy_perm p _ _ _ s s1 s2 (hperm.filterMap _) h1 h2

theorem evaluateCluster_extern_eq (E1 E2 : Extern α) (h1 : E1.sqrtf = E2.sqrtf)
    (h2 : E1.sort = E2.sort) (vs : List (Vehicle α)) (p : Bool) (s : LoopState α)
    (c : Cluster α) : evaluateCluster E1 vs p s c = evaluateCluster E2 vs p s c := by
  cases E1 with
  | mk f1 g1 c1 =>
    cases E2 with
    | mk f2 g2 c2 =>
      simp only at h1 h2
      subst h1 h2
      rfl

theorem evaluateClusters_extern_eq (E1 E2 : Extern α) (h1 : E1.sqrtf = E2.sqrtf)
    (h2 : E1.sort = E2.sort) (vs : List (Vehicle α)) (p : Bool) (clusters : List (Cluster α))
    (s : LoopState α) : evaluateClusters E1 vs p s clusters = evaluateClusters E2 vs p s clusters := by
  induction clusters generalizing s with
  | nil => rfl
  | cons c rest ih =>
    simp only [evaluateClusters, evaluateCluster_extern_eq E1 E2 h1 h2]
    cases evaluateCluster E2 vs p s c with
    | none => rfl
    | some sm => exact ih sm

/-- C13: two cluster sequences that are permutations of each other, processed
by the cluster loop from the same loop state, both return, and they return
the same evaluator: the same matched count, unassigned count and four
cumulative sums.  So do two calls of `evaluateAndStoreStep` whose
clusterings return permutations of each other. -/
theorem cluster_order_irrelevant (E : Extern α) (hsort : StdSortContract E.sort)
    (vs : List (Vehicle α)) (p : Bool) (s : LoopState α) (l1 l2 : List (Cluster α))
    (hne : ∀ c ∈ l1, c ≠ []) (hperm : l1.Perm l2) :
    (∃ s1 s2, evaluateClusters E vs p s l1 = some s1 ∧ evaluateClusters E vs p s l2 = some s2 ∧
      s1.self = s2.self) ∧
    ∀ (E2 : Extern α) (self : PrecisionEvaluator α) (i : Int) (cells : List (Point α))
      (step : SimulationStep α),
      E2.sqrtf = E.sqrtf → E2.sort = E.sort → stepAt self.sim_data i = some step →
      (∀ c ∈ computeDbscanClusters E cells, c ≠ []) →
      (computeDbscanClusters E cells).Perm (computeDbscanClusters E2 cells) →
      ∃ s1 o1 o2, evaluateAndStoreStep E self i cells p = some (s1, o1) ∧
        evaluateAndStoreStep E2 self i cells p = some (s1, o2) := by
  refine ⟨evaluateClusters_perm E hsort vs p s l1 l2 hne hperm, ?_⟩
  intro E2 self i cells step hf hs hstep hne2 hperm2
  have hpc : (clustersOf E step cells).Perm (clustersOf E2 step cells) := by
    unfold clustersOf
    split_ifs
    · exact hperm2
    · exact List.Perm.refl _
  obtain ⟨s1, s2, h1, h2, heq⟩ := evaluateClusters_perm E hsort step.vehicles p
    ⟨self, 0, []⟩ _ _ (clustersOf_ne_nil E step cells hne2) hpc
  refine ⟨s1.self, s1.cout, s2.cout, ?_, ?_⟩
  · rw [evaluateAndStoreStep_eq E self i cells p step hstep, h1]
    rfl
  · rw [evaluateAndStoreStep_eq E2 self i cells p step hstep,
      evaluateClusters_extern_eq E2 E hf hs, h2, heq]
    rfl

/-- Witness of C13: the clusters of the near sample and of the far sample in
both orders, against the vehicle at (12, 90). -/
theorem cluster_order_irrelevant_witness :
    StdSortContract externQ.sort ∧
    (∀ c ∈ [[sample10], [sampleFar]], c ≠ []) ∧
    [[sample10], [sampleFar]].Perm [[sampleFar], [sample10]] ∧
    ∃ s1 s2,
      evaluateClusters externQ [vehicle12] true loopStart [[sample10], [sampleFar]] = some s1 ∧
      evaluateClusters externQ [vehicle12] true loopStart [[sampleFar], [sample10]] = some s2 ∧
      s1.self = s2.self := by
  have hc : StdSortContract externQ.sort := insertionSortBy_contract
  have hne : ∀ c ∈ [[sample10], [sampleFar]], c ≠ [] := by
    intro c hmem
    rcases List.mem_cons.mp hmem with h | h
    · simp [h]
    · have h1 : c = [sampleFar] := by simpa using h
      simp [h1]
  have hperm : [[sample10], [sampleFar]].Perm [[sampleFar], [sample10]] :=
    List.Perm.swap _ _ _
  exact ⟨hc, hne, hperm,
    (cluster_order_irrelevant externQ hc [vehicle12] true loopStart _ _ hne hperm).1⟩

theorem evaluateCluster_self_congr (E : Extern α) (vs : List (Vehicle α)) (p q : Bool)
    (s t : LoopState α) (c : Cluster α) (hs : s.self = t.self) :
    (evaluateCluster E vs p s c).map (fun r => r.self) =
      (evaluateCluster E vs q t c).map (fun r => r.self) := by
  unfold evaluateCluster
  rw [hs]
  cases hm : computeClusterMean t.self c with
  | none => rfl
  | some m =>
    show (evaluateCentroid E vs p s m).map (fun r => r.self) =
      (evaluateCentroid E vs q t m).map (fun r => r.self)
    unfold evaluateCentroid
    by_cases hlen : (matchingGroundtruthVehicles E m vs).length = 0
    · simp only [hlen, if_true, Option.map_some', hs]
    · simp only [hlen, if_false]
      cases closestVehicle E m (matchingGroundtruthVehicles E m vs) with
      | none => rfl
      | some cv => simp only [Option.map_some', hs]

theorem evaluateClusters_self_congr (E : Extern α) (vs : List (Vehicle α)) (p q : Bool)
    (clusters : List (Cluster α)) (s t : LoopState α) (hs : s.self = t.self) :
    (evaluateClusters E vs p s clusters).map (fun r => r.self) =
      (evaluateClusters E vs q t clusters).map (fun r => r.self) := by
  induction clusters generalizing s t with
  | nil => simp only [evaluateClusters, Option.map_some', hs]
  | cons c rest ih =>
    have hc := evaluateCluster_self_congr E vs p q s t c hs
    simp only [evaluateClusters]
    cases h1 : evaluateCluster E vs p s c with
    | none =>
      cases h2 : evaluateCluster E vs q t c with
      | none => rfl
      | some tm => rw [h1, h2] at hc; cases hc
    | some sm =>
      cases h2 : evaluateCluster E vs q t c with
      | none => rw [h1, h2] at hc; cases hc
      | some tm =>
        rw [h1, h2] at hc
        exact ih sm tm (Option.some.inj hc)

/-- C14: the evaluator that `evaluateAndStoreStep` returns is the same with
and without the diagnostic output, and the call returns with the output
exactly when it returns without it. -/
theorem print_flag_irrelevant (E : Extern α) (self : PrecisionEvaluator α) (i : Int)
    (cells : List (Point α)) :
    (evaluateAndStoreStep E self i cells true).map Prod.fst =
      (evaluateAndStoreStep E self i cells false).map Prod.fst := by
  cases hstep : stepAt self.sim_data i with
  | none =>
    unfold evaluateAndStoreStep
    rw [hstep]
  | some step =>
    rw [evaluateAndStoreStep_eq E self i cells true step hstep,
      evaluateAndStoreStep_eq E self i cells false step hstep]
    have h := evaluateClusters_self_congr E step.vehicles true false (clustersOf E step cells)
      ⟨self, 0, []⟩ ⟨self, 0, []⟩ rfl
    simp only [Option.map_map]
    exact h

/-! ### Worked steps with several clusters -/

theorem sqrtQ_hundred : sqrtQ 100 = 10 := by
  simp [sqrtQ]
  norm_num

theorem distance_centroid14_vehicle12 : distance externQ centroid14 vehicle12 = 2 := by
  have h : ((14 : ℚ) - 12) ^ 2 + ((90 : ℚ) - 90) ^ 2 = 4 := by norm_num
  simp only [distance, externQ, centroid14, vehicle12, h, sqrtQ_four]

theorem distance_centroidFar_vehicle12 : distance externQ centroidFar vehicle12 = 10 := by
  have h : ((18 : ℚ) - 12) ^ 2 + ((98 : ℚ) - 90) ^ 2 = 100 := by norm_num
  simp only [distance, externQ, centroidFar, vehicle12, h, sqrtQ_hundred]

theorem computeClusterMean_single (self : PrecisionEvaluator ℚ) (hr : self.resolution = 1)
    (hg : self.grid_size = 100) (pt : Point ℚ) :
    computeClusterMean self [pt] =
      some ⟨pt.x, 100 - pt.y, pt.data.mean_x_vel, -pt.data.mean_y_vel⟩ := by
  rw [computeClusterMean_of_ne_nil self [pt] (by simp)]
  simp [mean, hr, hg]

theorem evaluateCluster_sample10 (p : Bool) (s : LoopState ℚ) (hr : s.self.resolution = 1)
    (hg : s.self.grid_size = 100) :
    evaluateCluster externQ [vehicle12] p s [sample10] =
      some { self := accumulateErrors s.self ⟨-2, 0, 0, 0⟩
             cluster_id := s.cluster_id + 1
             cout := if p = true then s.cout ++ [⟨s.cluster_id, ⟨-2, 0, 0, 0⟩⟩] else s.cout } := by
  have hm : computeClusterMean s.self [sample10] = some centroid10 := by
    rw [computeClusterMean_single s.self hr hg]
    norm_num [sample10, centroid10]
  unfold evaluateCluster
  rw [hm]
  exact evaluateCentroid_centroid10_vehicle12 p s

theorem evaluateCluster_sample14 (p : Bool) (s : LoopState ℚ) (hr : s.self.resolution = 1)
    (hg : s.self.grid_size = 100) :
    evaluateCluster externQ [vehicle12] p s [sample14] =
      some { self := accumulateErrors s.self ⟨2, 0, 0, 0⟩
             cluster_id := s.cluster_id + 1
             cout := if p = true then s.cout ++ [⟨s.cluster_id, ⟨2, 0, 0, 0⟩⟩] else s.cout } := by
  have hm : computeClusterMean s.self [sample14] = some centroid14 := by
    rw [computeClusterMean_single s.self hr hg]
    norm_num [sample14, centroid14]
  have herr : computeError centroid14 vehicle12 = ⟨2, 0, 0, 0⟩ := by
    norm_num [computeError, centroid14, vehicle12]
  unfold evaluateCluster
  rw [hm]
  obtain ⟨cv, _, hmem, _, _, heval⟩ :=
    evaluateCentroid_of_some_in_range externQ insertionSortBy_contract [vehicle12] p
      s centroid14
      ⟨vehicle12, by simp, by rw [distance_centroid14_vehicle12]; norm_num⟩
  have hcv : cv = vehicle12 := by simpa using hmem
  subst hcv
  rw [← herr]
  exact heval

theorem evaluateCluster_sampleFar (p : Bool) (s : LoopState ℚ) (hr : s.self.resolution = 1)
    (hg : s.self.grid_size = 100) :
    evaluateCluster externQ [vehicle12] p s [sampleFar] =
      some { s with self := recordUnassigned s.self } := by
  have hm : computeClusterMean s.self [sampleFar] = some centroidFar := by
    rw [computeClusterMean_single s.self hr hg]
    norm_num [sampleFar, centroidFar]
  unfold evaluateCluster
  rw [hm]
  apply evaluateCentroid_of_none_in_range
  intro v hv
  have hveq : v = vehicle12 := by simpa using hv
  rw [hveq, distance_centroidFar_vehicle12]
  norm_num

theorem evaluateAndStoreStep_far_then_near :
    evaluateAndStoreStep externSplitQ evaluator100 0 [sampleFar, sample10] true =
      some (accumulateErrors (recordUnassigned evaluator100) ⟨-2, 0, 0, 0⟩,
        [⟨0, ⟨-2, 0, 0, 0⟩⟩]) := by
  have hstep : stepAt evaluator100.sim_data 0 = some ⟨[vehicle12]⟩ := rfl
  have hcl : clustersOf externSplitQ ⟨[vehicle12]⟩ [sampleFar, sample10] =
      [[sampleFar], [sample10]] := by
    simp [clustersOf, computeDbscanClusters, externSplitQ, splitCluster]
  rw [evaluateAndStoreStep_eq externSplitQ evaluator100 0 _ true ⟨[vehicle12]⟩ hstep, hcl,
    evaluateClusters_extern_eq externSplitQ externQ rfl rfl]
  simp only [evaluateClusters]
  rw [evaluateCluster_sampleFar true ⟨evaluator100, 0, []⟩ rfl rfl]
  simp only []
  rw [evaluateCluster_sample10 true _ rfl rfl]
  simp

theorem evaluateAndStoreStep_two_near :
    evaluateAndStoreStep externSplitQ evaluator100 0 [sample10, sample14] false =
      some (accumulateErrors (accumulateErrors evaluator100 ⟨-2, 0, 0, 0⟩) ⟨2, 0, 0, 0⟩, []) := by
  have hstep : stepAt evaluator100.sim_data 0 = some ⟨[vehicle12]⟩ := rfl
  have hcl : clustersOf externSplitQ ⟨[vehicle12]⟩ [sample10, sample14] =
      [[sample10], [sample14]] := by
    simp [clustersOf, computeDbscanClusters, externSplitQ, splitCluster]
  rw [evaluateAndStoreStep_eq externSplitQ evaluator100 0 _ false ⟨[vehicle12]⟩ hstep, hcl,
    evaluateClusters_extern_eq externSplitQ externQ rfl rfl]
  simp only [evaluateClusters]
  rw [evaluateCluster_sample10 false ⟨evaluator100, 0, []⟩ rfl rfl]
  simp only []
  rw [evaluateCluster_sample14 false _ rfl rfl]
  simp

/-! ### Diagnostic records -/

theorem diagRecords_map_error {β : Type} (start : Int) (errs : List (PointWithVelocity β)) :
    (diagRecords start errs).map (fun r => r.error) = errs := by
  induction errs generalizing start with
  | nil => rfl
  | cons e es ih => simp [diagRecords, ih]

theorem diagRecords_map_id {β : Type} (start : Int) (errs : List (PointWithVelocity β)) :
    (diagRecords start errs).map (fun r => r.cluster_id) =
      (List.range errs.length).map (fun (k : Nat) => start + (k : Int)) := by
  induction errs generalizing start with
  | nil => rfl
  | cons e es ih =>
    rw [diagRecords, List.map_cons, ih, List.length_cons, List.range_succ_eq_map,
      List.map_cons, List.map_map]
    congr 1
    · simp
    · apply List.map_congr_left
      intro k _
      simp only [Function.comp, Nat.cast_succ]
      ring

theorem clusterError_eq_none_iff (E : Extern α) (hsort : StdSortContract E.sort)
    (self : PrecisionEvaluator α) (vs : List (Vehicle α)) (c : Cluster α) (hne : c ≠ []) :
    clusterError E self vs c = none ↔
      ∀ m, computeClusterMean self c = some m → ∀ v ∈ vs, ¬ distance E m v < 5 := by
  have hm0 := computeClusterMean_of_ne_nil self c hne
  unfold clusterError
  cases hm : computeClusterMean self c with
  | none => rw [hm] at hm0; cases hm0
  | some m =>
    simp only [Option.some.injEq, forall_eq']
    by_cases hnil : matchingGroundtruthVehicles E m vs = []
    · simp only [hnil, List.length_nil, if_true, true_iff]
      exact (matchingGroundtruthVehicles_eq_nil E m vs).mp hnil
    · have hlen : (matchingGroundtruthVehicles E m vs).length ≠ 0 :=
        fun h0 => hnil (List.length_eq_zero.mp h0)
      obtain ⟨cv, hcv, _, _⟩ := closestVehicle_spec E hsort m _ hnil
      simp only [hlen, if_false, hcv, Option.map_some']
      constructor
      · intro h; cases h
      · intro h
        exact absurd ((matchingGroundtruthVehicles_eq_nil E m vs).mpr h) hnil

theorem matchedErrors_length_of_all (E : Extern α) (self : PrecisionEvaluator α)
    (vs : List (Vehicle α)) (clusters : List (Cluster α))
    (hall : ∀ c ∈ clusters, clusterError E self vs c ≠ none) :
    (matchedErrors E self vs clusters).length = clusters.length := by
  induction clusters with
  | nil => rfl
  | cons c rest ih =>
    have hc := hall c (List.mem_cons_self _ _)
    have ih1 := ih (fun c1 h1 => hall c1 (List.mem_cons_of_mem _ h1))
    cases he : clusterError E self vs c with
    | none => exact absurd he hc
    | some e =>
      unfold matchedErrors at ih1 ⊢
      simp [List.filterMap_cons, he, ih1]

/-- C15, counterexample: with the far sample and the near sample as two
clusters, the call with diagnostics writes a single record for two clusters,
and the record of the second cluster carries the id 0. -/
theorem diagnostics_skip_unassigned :
    (computeDbscanClusters externSplitQ [sampleFar, sample10]).length = 2 ∧
    evaluateAndStoreStep externSplitQ evaluator100 0 [sampleFar, sample10] true =
      some (accumulateErrors (recordUnassigned evaluator100) ⟨-2, 0, 0, 0⟩,
        [⟨0, ⟨-2, 0, 0, 0⟩⟩]) :=
  ⟨rfl, evaluateAndStoreStep_far_then_near⟩

/-- C15, amended: with diagnostics, a step with samples and vehicles writes
one record for each matched cluster, in the order of the clustering, with the
error of that cluster, and no record for a cluster without a vehicle below
distance 5; when every cluster is matched there is one record per cluster
and the ids are 0, 1, and so on in that order. -/
theorem diagnostics_for_matched_clusters (E : Extern α) (hsort : StdSortContract E.sort)
    (self : PrecisionEvaluator α) (i : Int) (cells : List (Point α))
    (step : SimulationStep α) (hstep : stepAt self.sim_data i = some step)
    (hcells : cells ≠ []) (hveh : step.vehicles ≠ [])
    (hne : ∀ c ∈ computeDbscanClusters E cells, c ≠ []) :
    ∃ s1 out, evaluateAndStoreStep E self i cells true = some (s1, out) ∧
      out.map (fun r => r.error) =
        (computeDbscanClusters E cells).filterMap (clusterError E self step.vehicles) ∧
      (∀ c ∈ computeDbscanClusters E cells,
        (clusterError E self step.vehicles c = none ↔
          ∀ m, computeClusterMean self c = some m →
            ∀ v ∈ step.vehicles, ¬ distance E m v < 5)) ∧
      ((∀ c ∈ computeDbscanClusters E cells, clusterError E self step.vehicles c ≠ none) →
        out.length = (computeDbscanClusters E cells).length ∧
        out.map (fun r => r.cluster_id) =
          (List.range (computeDbscanClusters E cells).length).map (fun (k : Nat) => (k : Int))) := by
  obtain ⟨l, hl, _, _, _, _, _, _, _, _, _, hout⟩ :=
    evaluateAndStoreStep_advancedBy E hsort self i cells true step hstep hne
  rw [clustersOf_of_nonempty E step cells hcells hveh] at hout
  have hout1 : l.cout =
      diagRecords 0 (matchedErrors E self step.vehicles (computeDbscanClusters E cells)) := by
    rw [hout]; simp
  refine ⟨l.self, l.cout, hl, ?_, ?_, ?_⟩
  · rw [hout1, diagRecords_map_error]
    rfl
  · intro c hc
    exact clusterError_eq_none_iff E hsort self step.vehicles c (hne c hc)
  · intro hall
    have hlen := matchedErrors_length_of_all E self step.vehicles _ hall
    constructor
    · rw [hout1, ← hlen, ← List.length_map (diagRecords 0 _) (fun r => r.error),
        diagRecords_map_error]
    · rw [hout1, diagRecords_map_id, hlen]
      simp

/-- Witness of C15, amended: the two near samples as two clusters against the
vehicle at (12, 90). -/
theorem diagnostics_for_matched_clusters_witness :
    StdSortContract externSplitQ.sort ∧
    stepAt evaluator100.sim_data 0 = some ⟨[vehicle12]⟩ ∧
    [sample10, sample14] ≠ [] ∧ [vehicle12] ≠ [] ∧
    (∀ c ∈ computeDbscanClusters externSplitQ [sample10, sample14], c ≠ []) ∧
    ∃ s1 out, evaluateAndStoreStep externSplitQ evaluator100 0 [sample10, sample14] true =
        some (s1, out) ∧
      out.map (fun r => r.error) =
        (computeDbscanClusters externSplitQ [sample10, sample14]).filterMap
          (clusterError externSplitQ evaluator100 [vehicle12]) ∧
      (∀ c ∈ computeDbscanClusters externSplitQ [sample10, sample14],
        (clusterError externSplitQ evaluator100 [vehicle12] c = none ↔
          ∀ m, computeClusterMean evaluator100 c = some m →
            ∀ v ∈ [vehicle12], ¬ distance externSplitQ m v < 5)) ∧
      ((∀ c ∈ computeDbscanClusters externSplitQ [sample10, sample14],
          clusterError externSplitQ evaluator100 [vehicle12] c ≠ none) →
        out.length = (computeDbscanClusters externSplitQ [sample10, sample14]).length ∧
        out.map (fun r => r.cluster_id) =
          (List.range (computeDbscanClusters externSplitQ [sample10, sample14]).length).map
            (fun (k : Nat) => (k : Int))) := by
  have hc : StdSortContract externSplitQ.sort := insertionSortBy_contract
  have hne : ∀ c ∈ computeDbscanClusters externSplitQ [sample10, sample14], c ≠ [] := by
    intro c hmem
    have h1 : c = [sample10] ∨ c = [sample14] := by
      simpa [computeDbscanClusters, externSplitQ, splitCluster] using hmem
    rcases h1 with h | h <;> simp [h]
  exact ⟨hc, rfl, by simp, by simp, hne,
    diagnostics_for_matched_clusters externSplitQ hc evaluator100 0 [sample10, sample14]
      ⟨[vehicle12]⟩ rfl (by simp) (by simp) hne⟩

/-- C16: a step with the single vehicle at (12, 90) and two clusters whose
centroids (10, 90) and (14, 90) are both at distance 2 from it: both clusters
are matched to that vehicle, the matched count rises by 2 and both absolute
errors are added to the sums. -/
theorem matching_not_one_to_one :
    stepAt evaluator100.sim_data 0 = some ⟨[vehicle12]⟩ ∧
    computeDbscanClusters externSplitQ [sample10, sample14] = [[sample10], [sample14]] ∧
    computeClusterMean evaluator100 [sample10] = some centroid10 ∧
    computeClusterMean evaluator100 [sample14] = some centroid14 ∧
    distance externSplitQ centroid10 vehicle12 = 2 ∧
    distance externSplitQ centroid14 vehicle12 = 2 ∧
    closestVehicle externSplitQ centroid10
      (matchingGroundtruthVehicles externSplitQ centroid10 [vehicle12]) = some vehicle12 ∧
    closestVehicle externSplitQ centroid14
      (matchingGroundtruthVehicles externSplitQ centroid14 [vehicle12]) = some vehicle12 ∧
    ∃ s1, evaluateAndStoreStep externSplitQ evaluator100 0 [sample10, sample14] false =
        some (s1, []) ∧
      s1.number_of_detections = evaluator100.number_of_detections + 2 ∧
      s1.number_of_unassigned_detections = evaluator100.number_of_unassigned_detections ∧
      s1.cumulative_error.x = evaluator100.cumulative_error.x + |(-2 : ℚ)| + |(2 : ℚ)| ∧
      s1.cumulative_error.x = 4 := by
  have hc : StdSortContract externSplitQ.sort := insertionSortBy_contract
  have hm14 : computeClusterMean evaluator100 [sample14] = some centroid14 := by
    rw [computeClusterMean_single evaluator100 rfl rfl]
    norm_num [sample14, centroid14]
  have hd10 : distance externSplitQ centroid10 vehicle12 = 2 := distance_centroid10_vehicle12
  have hd14 : distance externSplitQ centroid14 vehicle12 = 2 := distance_centroid14_vehicle12
  have hcl10 : closestVehicle externSplitQ centroid10
      (matchingGroundtruthVehicles externSplitQ centroid10 [vehicle12]) = some vehicle12 := by
    obtain ⟨cv, h1, hmem, _⟩ := evaluateCentroid_of_some_in_range externSplitQ hc [vehicle12]
      false loopStart centroid10 ⟨vehicle12, by simp, by rw [hd10]; norm_num⟩
    have hcv : cv = vehicle12 := by simpa using hmem
    rw [h1, hcv]
  have hcl14 : closestVehicle externSplitQ centroid14
      (matchingGroundtruthVehicles externSplitQ centroid14 [vehicle12]) = some vehicle12 := by
    obtain ⟨cv, h1, hmem, _⟩ := evaluateCentroid_of_some_in_range externSplitQ hc [vehicle12]
      false loopStart centroid14 ⟨vehicle12, by simp, by rw [hd14]; norm_num⟩
    have hcv : cv = vehicle12 := by simpa using hmem
    rw [h1, hcv]
  refine ⟨rfl, rfl, computeClusterMean_sample10, hm14, hd10, hd14, hcl10, hcl14,
    _, evaluateAndStoreStep_two_near, rfl, rfl, ?_, ?_⟩
  · simp [accumulateErrors, add_assoc]
  · norm_num [accumulateErrors, evaluator100, PrecisionEvaluator.create]

/-! ### Sessions -/

theorem stepAt_some_bounds {β : Type} (sim_data : SimulationData β) (i : Int)
    (step : SimulationStep β)
    (h : stepAt sim_data i = some step) : 0 ≤ i ∧ i.toNat < sim_data.length := by
  unfold stepAt at h
  by_cases hi : 0 ≤ i
  · rw [if_pos hi] at h
    refine ⟨hi, ?_⟩
    by_contra hlen
    have hnone : sim_data.get? i.toNat = none := List.get?_eq_none.mpr (not_lt.mp hlen)
    rw [hnone] at h
    cases h
  · rw [if_neg hi] at h
    cases h

theorem clustersOf_length_le (E : Extern α) (step : SimulationStep α) (cells : List (Point α)) :
    (clustersOf E step cells).length ≤ (computeDbscanClusters E cells).length := by
  unfold clustersOf
  split_ifs
  · exact le_refl _
  · exact Nat.zero_le _

theorem printSummary_maximum (self : PrecisionEvaluator α) (first : SimulationStep α)
    (rest : SimulationData α) (hsd : self.sim_data = first :: rest)
    (hfit : first.vehicles.length * self.sim_data.length < 2 ^ 64) :
    ∃ summary, printSummary self = some summary ∧
      summary.maximum_possible_detections = first.vehicles.length * self.sim_data.length := by
  have hhead : self.sim_data.head? = some first := by rw [hsd]; rfl
  unfold printSummary
  rw [hhead]
  exact ⟨_, rfl, Nat.mod_eq_of_lt hfit⟩

theorem runCalls_detections_le (E : Extern α) (hsort : StdSortContract E.sort)
    (sim_data : SimulationData α) (bound : Nat) (calls : List (Call α))
    (hrange : ∀ c ∈ calls, stepAt sim_data c.index ≠ none)
    (hne : ∀ c ∈ calls, ∀ cl ∈ computeDbscanClusters E c.cells, cl ≠ [])
    (hsmall : ∀ c ∈ calls, (computeDbscanClusters E c.cells).length ≤ bound)
    (s : PrecisionEvaluator α) (hs : s.sim_data = sim_data) :
    ∃ s1, runCalls E s calls = some s1 ∧ s1.sim_data = sim_data ∧
      s1.number_of_detections ≤ s.number_of_detections + calls.length * bound := by
  induction calls generalizing s with
  | nil => exact ⟨s, rfl, hs, by simp⟩
  | cons c rest ih =>
    have hc := hrange c (List.mem_cons_self _ _)
    cases hstep : stepAt sim_data c.index with
    | none => exact absurd hstep hc
    | some step =>
      obtain ⟨l, hl, _, ⟨c1, _, _⟩, _, _, _, _, hn, _, _, _⟩ :=
        evaluateAndStoreStep_advancedBy E hsort s c.index c.cells c.print_current_precision
          step (by rw [hs]; exact hstep) (hne c (List.mem_cons_self _ _))
      have hsd1 : l.self.sim_data = sim_data := by
        have h0 : l.self.sim_data = s.sim_data := c1
        rw [h0, hs]
      obtain ⟨s1, hrun, hsd2, hle⟩ := ih
        (fun c1 h1 => hrange c1 (List.mem_cons_of_mem _ h1))
        (fun c1 h1 => hne c1 (List.mem_cons_of_mem _ h1))
        (fun c1 h1 => hsmall c1 (List.mem_cons_of_mem _ h1)) l.self hsd1
      refine ⟨s1, ?_, hsd2, ?_⟩
      · simp only [runCalls, hl]
        exact hrun
      · have hn1 : l.self.number_of_detections = s.number_of_detections +
            (matchedErrors E s step.vehicles (clustersOf E step c.cells)).length := hn
        have h1 : (matchedErrors E s step.vehicles (clustersOf E step c.cells)).length ≤
            (clustersOf E step c.cells).length := List.length_filterMap_le _ _
        have h2 := clustersOf_length_le E step c.cells
        have h3 := hsmall c (List.mem_cons_self _ _)
        have h4 : (c :: rest).length * bound = rest.length * bound + bound := by
          rw [List.length_cons, Nat.succ_mul]
        rw [h4]
        omega

theorem calls_length_le {β : Type} (sim_data : SimulationData β) (calls : List (Call β))
    (hnodup : (calls.map (fun c => c.index)).Nodup)
    (hrange : ∀ c ∈ calls, stepAt sim_data c.index ≠ none) :
    calls.length ≤ sim_data.length := by
  have hb : ∀ i ∈ calls.map (fun c => c.index), 0 ≤ i ∧ i.toNat < sim_data.length := by
    intro i hi
    obtain ⟨c, hc, rfl⟩ := List.mem_map.mp hi
    cases hstep : stepAt sim_data c.index with
    | none => exact absurd hstep (hrange c hc)
    | some step => exact stepAt_some_bounds sim_data c.index step hstep
  have hnd : ((calls.map (fun c => c.index)).map Int.toNat).Nodup := by
    apply List.Nodup.map_on _ hnodup
    intro x hx y hy hxy
    have hx0 := (hb x hx).1
    have hy0 := (hb y hy).1
    omega
  have hsub : ((calls.map (fun c => c.index)).map Int.toNat).toFinset ⊆
      Finset.range sim_data.length := by
    intro n hn
    simp only [List.mem_toFinset] at hn
    obtain ⟨i, hi, rfl⟩ := List.mem_map.mp hn
    simpa using (hb i hi).2
  have hcard := Finset.card_le_card hsub
  rw [List.toFinset_card_of_nodup hnd, Finset.card_range] at hcard
  simpa using hcard

/-- C17, counterexample: over the data set with one step and one vehicle the
reported maximum is 1, yet a single call for step 0 with two clusters near
that vehicle leaves a matched count of 2. -/
theorem maximum_possible_exceeded :
    runCalls externSplitQ evaluator100 [⟨0, [sample10, sample14], false⟩] =
      some (accumulateErrors (accumulateErrors evaluator100 ⟨-2, 0, 0, 0⟩) ⟨2, 0, 0, 0⟩) ∧
    (accumulateErrors (accumulateErrors evaluator100 ⟨-2, 0, 0, 0⟩)
      ⟨2, 0, 0, 0⟩).number_of_detections = 2 ∧
    ∃ summary,
      printSummary (accumulateErrors (accumulateErrors evaluator100 ⟨-2, 0, 0, 0⟩) ⟨2, 0, 0, 0⟩) =
        some summary ∧
      summary.maximum_possible_detections = 1 := by
  refine ⟨?_, rfl, ?_⟩
  · simp only [runCalls, evaluateAndStoreStep_two_near]
  · obtain ⟨summary, h1, h2⟩ := printSummary_maximum
      (accumulateErrors (accumulateErrors evaluator100 ⟨-2, 0, 0, 0⟩) ⟨2, 0, 0, 0⟩)
      ⟨[vehicle12]⟩ [] rfl (by norm_num [accumulateErrors, evaluator100,
        PrecisionEvaluator.create])
    refine ⟨summary, h1, ?_⟩
    rw [h2]
    simp [accumulateErrors, evaluator100, PrecisionEvaluator.create]

/-- C17, amended: over a non-empty data set whose product fits `size_t`,
`printSummary` reports the number of vehicles of step 0 times the number of
steps.  A session that calls `evaluateAndStoreStep` at most once for each
step index, and in which no call has more clusters than step 0 has vehicles,
returns with a matched count that is at most the reported value. -/
theorem maximum_possible_detections_bound (E : Extern α) (hsort : StdSortContract E.sort)
    (sim_data : SimulationData α) (resolution grid_size : α)
    (first : SimulationStep α) (rest : SimulationData α) (hsd : sim_data = first :: rest)
    (hfit : first.vehicles.length * sim_data.length < 2 ^ 64)
    (calls : List (Call α))
    (hnodup : (calls.map (fun c => c.index)).Nodup)
    (hrange : ∀ c ∈ calls, stepAt sim_data c.index ≠ none)
    (hne : ∀ c ∈ calls, ∀ cl ∈ computeDbscanClusters E c.cells, cl ≠ [])
    (hsmall : ∀ c ∈ calls, (computeDbscanClusters E c.cells).length ≤ first.vehicles.length) :
    (∀ self : PrecisionEvaluator α, self.sim_data = sim_data →
      ∃ summary, printSummary self = some summary ∧
        summary.maximum_possible_detections = first.vehicles.length * sim_data.length) ∧
    ∃ s summary,
      runCalls E (PrecisionEvaluator.create sim_data resolution grid_size) calls = some s ∧
      printSummary s = some summary ∧
      summary.maximum_possible_detections = first.vehicles.length * sim_data.length ∧
      s.number_of_detections ≤ summary.maximum_possible_detections := by
  have hmax : ∀ self : PrecisionEvaluator α, self.sim_data = sim_data →
      ∃ summary, printSummary self = some summary ∧
        summary.maximum_possible_detections = first.vehicles.length * sim_data.length := by
    intro self hself
    have h := printSummary_maximum self first rest (hself.trans hsd) (by rw [hself]; exact hfit)
    rw [hself] at h
    exact h
  refine ⟨hmax, ?_⟩
  obtain ⟨s, hrun, hsd1, hle⟩ := runCalls_detections_le E hsort sim_data first.vehicles.length
    calls hrange hne hsmall (PrecisionEvaluator.create sim_data resolution grid_size) rfl
  obtain ⟨summary, hsum, hval⟩ := hmax s hsd1
  refine ⟨s, summary, hrun, hsum, hval, ?_⟩
  have hlen := calls_length_le sim_data calls hnodup hrange
  have h0 : (PrecisionEvaluator.create sim_data resolution grid_size).number_of_detections = 0 :=
    rfl
  rw [hval]
  calc s.number_of_detections
      ≤ 0 + calls.length * first.vehicles.length := by rw [h0] at hle; exact hle
    _ = calls.length * first.vehicles.length := Nat.zero_add _
    _ ≤ sim_data.length * first.vehicles.length := Nat.mul_le_mul_right _ hlen
    _ = first.vehicles.length * sim_data.length := Nat.mul_comm _ _

/-- Witness of C17, amended: one call for step 0 with one cluster, over the
data set with one step and one vehicle. -/
theorem maximum_possible_detections_bound_witness :
    StdSortContract externQ.sort ∧
    evaluator100.sim_data = [⟨[vehicle12]⟩] ∧
    ∃ s summary,
      runCalls externQ (PrecisionEvaluator.create evaluator100.sim_data 1 100)
        [⟨0, [sample10], true⟩] = some s ∧
      printSummary s = some summary ∧
      summary.maximum_possible_detections = 1 ∧
      s.number_of_detections ≤ summary.maximum_possible_detections := by
  have hc : StdSortContract externQ.sort := insertionSortBy_contract
  have hcl : computeDbscanClusters externQ [sample10] = [[sample10]] := rfl
  have h := (maximum_possible_detections_bound externQ hc evaluator100.sim_data 1 100
    ⟨[vehicle12]⟩ [] rfl (by norm_num [evaluator100, PrecisionEvaluator.create])
    [⟨0, [sample10], true⟩] (by simp)
    (by
      intro c hmem
      have hceq : c = ⟨0, [sample10], true⟩ := by simpa using hmem
      rw [hceq]
      show stepAt evaluator100.sim_data 0 ≠ none
      rw [show stepAt evaluator100.sim_data 0 = some ⟨[vehicle12]⟩ from rfl]
      simp)
    (by
      intro c hmem cl hcmem
      have hceq : c = ⟨0, [sample10], true⟩ := by simpa using hmem
      rw [hceq, hcl] at hcmem
      have hcleq : cl = [sample10] := by simpa using hcmem
      simp [hcleq])
    (by
      intro c hmem
      have hceq : c = ⟨0, [sample10], true⟩ := by simpa using hmem
      rw [hceq, hcl]
      simp)).2
  obtain ⟨s, summary, h1, h2, h3, h4⟩ := h
  refine ⟨hc, rfl, s, summary, h1, h2, ?_, h4⟩
  rw [h3]
  simp [evaluator100, PrecisionEvaluator.create]

/-! ### Bounds on the position sums -/

theorem sum_abs_bounds (f : PointWithVelocity α → α) (errs : List (PointWithVelocity α))
    (h : ∀ e ∈ errs, 0 ≤ f e ∧ f e < 5) :
    0 ≤ (errs.map f).sum ∧ (errs.map f).sum ≤ 5 * (errs.length : α) ∧
      (0 < errs.length → (errs.map f).sum < 5 * (errs.length : α)) := by
  induction errs with
  | nil => simp
  | cons e es ih =>
    obtain ⟨h0, h5⟩ := h e (List.mem_cons_self _ _)
    obtain ⟨i0, i5, _⟩ := ih (fun e1 h1 => h e1 (List.mem_cons_of_mem _ h1))
    simp only [List.map_cons, List.sum_cons, List.length_cons, Nat.cast_succ]
    refine ⟨by linarith, by linarith, fun _ => by linarith⟩

theorem clusterError_position_lt (E : Extern α) (hsort : StdSortContract E.sort)
    (hsqrt : SqrtDominates E) (self : PrecisionEvaluator α) (vs : List (Vehicle α))
    (c : Cluster α) (e : PointWithVelocity α) (h : clusterError E self vs c = some e) :
    |e.x| < 5 ∧ |e.y| < 5 := by
  unfold clusterError at h
  cases hm : computeClusterMean self c with
  | none => rw [hm] at h; cases h
  | some m =>
    rw [hm] at h
    simp only at h
    by_cases hlen : (matchingGroundtruthVehicles E m vs).length = 0
    · rw [if_pos hlen] at h; cases h
    · rw [if_neg hlen] at h
      have hnil : matchingGroundtruthVehicles E m vs ≠ [] :=
        fun h0 => hlen (by rw [h0]; rfl)
      obtain ⟨cv, hcv, hmem, _⟩ := closestVehicle_spec E hsort m _ hnil
      rw [hcv] at h
      have he : computeError m cv = e := by simpa using h
      have hd := ((mem_matchingGroundtruthVehicles E m vs cv).mp hmem).2
      unfold distance at hd
      subst he
      constructor
      · have h1 := hsqrt (m.x - cv.pos.1) (m.y - cv.pos.2)
        simp only [computeError, zero_add]
        exact lt_of_le_of_lt h1 hd
      · have h1 := hsqrt (m.y - cv.pos.2) (m.x - cv.pos.1)
        rw [add_comm] at h1
        simp only [computeError, zero_add]
        exact lt_of_le_of_lt h1 hd

theorem evaluateAndStoreStep_bounded (E : Extern α) (hsort : StdSortContract E.sort)
    (hsqrt : SqrtDominates E) (s : PrecisionEvaluator α) (i : Int) (cells : List (Point α))
    (p : Bool) (r : PrecisionEvaluator α × List (DiagRecord α))
    (hr : evaluateAndStoreStep E s i cells p = some r) (hs : PositionSumsBounded s) :
    PositionSumsBounded r.1 := by
  obtain ⟨step, hstep⟩ := stepAt_of_evaluateAndStoreStep E s i cells p r hr
  rw [evaluateAndStoreStep_eq E s i cells p step hstep] at hr
  cases hl : evaluateClusters E step.vehicles p ⟨s, 0, []⟩ (clustersOf E step cells) with
  | none => rw [hl] at hr; cases hr
  | some l =>
    rw [hl] at hr
    have hr1 : r = (l.self, l.cout) := (Option.some.inj hr).symm
    subst hr1
    obtain ⟨⟨c1, _, _⟩, hx, hy, _, _, hn, _, _, _⟩ :=
      evaluateClusters_advancedBy E step.vehicles p _ _ l hl
    have herr : ∀ e ∈ matchedErrors E s step.vehicles (clustersOf E step cells),
        |e.x| < 5 ∧ |e.y| < 5 := by
      intro e he
      unfold matchedErrors at he
      obtain ⟨c, _, hc⟩ := List.mem_filterMap.mp he
      exact clusterError_position_lt E hsort hsqrt s step.vehicles c e hc
    obtain ⟨x0, x5, xs⟩ := sum_abs_bounds (fun e => |e.x|) _
      (fun e he => ⟨abs_nonneg _, (herr e he).1⟩)
    obtain ⟨y0, y5, ys⟩ := sum_abs_bounds (fun e => |e.y|) _
      (fun e he => ⟨abs_nonneg _, (herr e he).2⟩)
    obtain ⟨sx0, sx5, sy0, sy5, spos⟩ := hs
    have hdata : l.self.sim_data ≠ [] := by
      have h0 : l.self.sim_data = s.sim_data := c1
      rw [h0]
      intro hnil
      have hb := (stepAt_some_bounds s.sim_data i step hstep).2
      rw [hnil] at hb
      exact Nat.not_lt_zero _ hb
    have hx1 : l.self.cumulative_error.x = s.cumulative_error.x +
        ((matchedErrors E s step.vehicles (clustersOf E step cells)).map
          (fun e => |e.x|)).sum := hx
    have hy1 : l.self.cumulative_error.y = s.cumulative_error.y +
        ((matchedErrors E s step.vehicles (clustersOf E step cells)).map
          (fun e => |e.y|)).sum := hy
    have hn1 : l.self.number_of_detections = s.number_of_detections +
        (matchedErrors E s step.vehicles (clustersOf E step cells)).length := hn
    show PositionSumsBounded l.self
    unfold PositionSumsBounded
    rw [hx1, hy1, hn1]
    push_cast
    refine ⟨by linarith, by linarith, by linarith, by linarith, ?_⟩
    intro hpos
    refine ⟨?_, ?_, hdata⟩
    · by_cases hk : 0 < (matchedErrors E s step.vehicles (clustersOf E step cells)).length
      · have := xs hk
        linarith
      · have hk0 : (matchedErrors E s step.vehicles (clustersOf E step cells)).length = 0 := by
          omega
        have hsp : 0 < s.number_of_detections := by omega
        have := (spos hsp).1
        linarith
    · by_cases hk : 0 < (matchedErrors E s step.vehicles (clustersOf E step cells)).length
      · have := ys hk
        linarith
      · have hk0 : (matchedErrors E s step.vehicles (clustersOf E step cells)).length = 0 := by
          omega
        have hsp : 0 < s.number_of_detections := by omega
        have := (spos hsp).2.1
        linarith

theorem runCalls_bounded (E : Extern α) (hsort : StdSortContract E.sort)
    (hsqrt : SqrtDominates E) (calls : List (Call α)) (s s1 : PrecisionEvaluator α)
    (hs : PositionSumsBounded s) (hrun : runCalls E s calls = some s1) :
    PositionSumsBounded s1 := by
  induction calls generalizing s with
  | nil =>
    simp only [runCalls] at hrun
    rw [← Option.some.inj hrun]
    exact hs
  | cons c rest ih =>
    simp only [runCalls] at hrun
    cases hr : evaluateAndStoreStep E s c.index c.cells c.print_current_precision with
    | none => rw [hr] at hrun; cases hrun
    | some r =>
      rw [hr] at hrun
      exact ih r.1 (evaluateAndStoreStep_bounded E hsort hsqrt s c.index c.cells
        c.print_current_precision r hr hs) hrun

theorem create_bounded (sim_data : SimulationData α) (resolution grid_size : α) :
    PositionSumsBounded (PrecisionEvaluator.create sim_data resolution grid_size) := by
  unfold PositionSumsBounded
  simp [PrecisionEvaluator.create]

/-- C19, amended: in exact arithmetic, in every evaluator that a session
reaches from the fresh evaluator by calls of `evaluateAndStoreStep`, the x
and y sums lie between zero and five times the matched count; with a positive
matched count they are strictly below it, and `printSummary` reports finite
mean position errors below 5.  The routine `sqrtf` is assumed not to fall
below a coordinate on a sum of two squares, as the exact square root does
not. -/
theorem position_sums_below_radius (E : Extern α) (hsort : StdSortContract E.sort)
    (hsqrt : SqrtDominates E) (sim_data : SimulationData α) (resolution grid_size : α)
    (calls : List (Call α)) (s : PrecisionEvaluator α)
    (hrun : runCalls E (PrecisionEvaluator.create sim_data resolution grid_size) calls =
      some s) :
    0 ≤ s.cumulative_error.x ∧ s.cumulative_error.x ≤ 5 * (s.number_of_detections : α) ∧
    0 ≤ s.cumulative_error.y ∧ s.cumulative_error.y ≤ 5 * (s.number_of_detections : α) ∧
    (0 < s.number_of_detections →
      s.cumulative_error.x < 5 * (s.number_of_detections : α) ∧
      s.cumulative_error.y < 5 * (s.number_of_detections : α) ∧
      ∃ summary mx my, printSummary s = some summary ∧
        summary.position_x = FloatQuotient.finite mx ∧
        summary.position_y = FloatQuotient.finite my ∧
        mx < 5 ∧ my < 5) := by
  obtain ⟨x0, x5, y0, y5, hpos⟩ := runCalls_bounded E hsort hsqrt calls _ s
    (create_bounded sim_data resolution grid_size) hrun
  refine ⟨x0, x5, y0, y5, ?_⟩
  intro hn
  obtain ⟨hx, hy, hdata⟩ := hpos hn
  obtain ⟨summary, hsum, hpx, hpy, _⟩ := printSummary_of_pos s hdata hn
  have hn1 : (0 : α) < (s.number_of_detections : α) := by exact_mod_cast hn
  exact ⟨hx, hy, summary, _, _, hsum, hpx, hpy,
    (div_lt_iff₀ hn1).mpr hx, (div_lt_iff₀ hn1).mpr hy⟩

theorem evaluateAndStoreStep_sampleOf (sqrtf : α → α) (h4 : sqrtf 4 = 2) (p : Bool) :
    evaluateAndStoreStep (externOf sqrtf) (PrecisionEvaluator.create (simDataOf α) 1 100) 0
        [sampleOf α] p =
      some (accumulateErrors (PrecisionEvaluator.create (simDataOf α) 1 100) ⟨-2, 0, 0, 0⟩,
        if p = true then [⟨0, ⟨-2, 0, 0, 0⟩⟩] else []) := by
  have hstep : stepAt (PrecisionEvaluator.create (simDataOf α) 1 100).sim_data 0 =
      some ⟨[⟨(12, 90), (1, 0)⟩]⟩ := rfl
  have hcl : clustersOf (externOf sqrtf) ⟨[⟨(12, 90), (1, 0)⟩]⟩ [sampleOf α] =
      [[sampleOf α]] := by
    simp [clustersOf, computeDbscanClusters, externOf]
  have hm : computeClusterMean (PrecisionEvaluator.create (simDataOf α) 1 100) [sampleOf α] =
      some ⟨10, 90, 1, 0⟩ := by
    rw [computeClusterMean_of_ne_nil _ [sampleOf α] (by simp)]
    norm_num [mean, sampleOf, PrecisionEvaluator.create]
  have hd : distance (externOf sqrtf) ⟨10, 90, 1, 0⟩ ⟨(12, 90), (1, 0)⟩ = 2 := by
    have h : ((10 : α) - 12) ^ 2 + ((90 : α) - 90) ^ 2 = 4 := by norm_num
    simp only [distance, externOf, h, h4]
  have herr : computeError (⟨10, 90, 1, 0⟩ : PointWithVelocity α) ⟨(12, 90), (1, 0)⟩ =
      ⟨-2, 0, 0, 0⟩ := by
    norm_num [computeError]
  have hcluster : evaluateCluster (externOf sqrtf) [⟨(12, 90), (1, 0)⟩] p
      ⟨PrecisionEvaluator.create (simDataOf α) 1 100, 0, []⟩ [sampleOf α] =
      some { self := accumulateErrors (PrecisionEvaluator.create (simDataOf α) 1 100)
               ⟨-2, 0, 0, 0⟩
             cluster_id := 0 + 1
             cout := if p = true then [] ++ [⟨0, ⟨-2, 0, 0, 0⟩⟩] else [] } := by
    unfold evaluateCluster
    rw [hm]
    obtain ⟨cv, _, hmem, _, _, heval⟩ :=
      evaluateCentroid_of_some_in_range (externOf sqrtf) insertionSortBy_contract
        [⟨(12, 90), (1, 0)⟩] p ⟨PrecisionEvaluator.create (simDataOf α) 1 100, 0, []⟩
        ⟨10, 90, 1, 0⟩ ⟨⟨(12, 90), (1, 0)⟩, by simp, by rw [hd]; norm_num⟩
    have hcv : cv = ⟨(12, 90), (1, 0)⟩ := by simpa using hmem
    subst hcv
    rw [← herr]
    exact heval
  rw [evaluateAndStoreStep_eq _ _ 0 _ p _ hstep, hcl]
  simp only [evaluateClusters, hcluster]
  cases p <;> simp

/-- Witness of C19: over the real numbers with the exact square root, one
call with the sample (10, 10) against the vehicle at (12, 90) reaches the x
sum 2 with one matched detection. -/
theorem position_sums_below_radius_witness :
    StdSortContract (externOf Real.sqrt).sort ∧
    SqrtDominates (externOf Real.sqrt) ∧
    runCalls (externOf Real.sqrt) (PrecisionEvaluator.create (simDataOf ℝ) 1 100)
        [⟨0, [sampleOf ℝ], true⟩] =
      some (accumulateErrors (PrecisionEvaluator.create (simDataOf ℝ) 1 100) ⟨-2, 0, 0, 0⟩) ∧
    (accumulateErrors (PrecisionEvaluator.create (simDataOf ℝ) 1 100)
      ⟨-2, 0, 0, 0⟩).cumulative_error.x = 2 ∧
    (accumulateErrors (PrecisionEvaluator.create (simDataOf ℝ) 1 100)
      ⟨-2, 0, 0, 0⟩).number_of_detections = 1 ∧
    ∃ summary mx my,
      printSummary (accumulateErrors (PrecisionEvaluator.create (simDataOf ℝ) 1 100)
        ⟨-2, 0, 0, 0⟩) = some summary ∧
      summary.position_x = FloatQuotient.finite mx ∧
      summary.position_y = FloatQuotient.finite my ∧
      mx < 5 ∧ my < 5 := by
  have hc : StdSortContract (externOf Real.sqrt).sort := insertionSortBy_contract
  have hsq : SqrtDominates (externOf Real.sqrt) := by
    intro a b
    exact Real.abs_le_sqrt (by nlinarith [sq_nonneg b])
  have h4 : Real.sqrt 4 = 2 := by
    rw [show (4 : ℝ) = 2 ^ 2 by norm_num]
    exact Real.sqrt_sq (by norm_num)
  have hrun : runCalls (externOf Real.sqrt) (PrecisionEvaluator.create (simDataOf ℝ) 1 100)
      [⟨0, [sampleOf ℝ], true⟩] =
      some (accumulateErrors (PrecisionEvaluator.create (simDataOf ℝ) 1 100)
        ⟨-2, 0, 0, 0⟩) := by
    simp only [runCalls, evaluateAndStoreStep_sampleOf Real.sqrt h4 true]
  have hx : (accumulateErrors (PrecisionEvaluator.create (simDataOf ℝ) 1 100)
      ⟨-2, 0, 0, 0⟩).cumulative_error.x = 2 := by
    norm_num [accumulateErrors, PrecisionEvaluator.create]
  exact ⟨hc, hsq, hrun, hx, rfl,
    ((position_sums_below_radius (externOf Real.sqrt) hc hsq (simDataOf ℝ) 1 100
      [⟨0, [sampleOf ℝ], true⟩] _ hrun).2.2.2.2 (by simp [accumulateErrors])).2.2⟩

/-! ### The counters as 32-bit `int` members -/

theorem intValue_zero : intValue 0 = 0 := by
  unfold intValue
  omega

theorem intValue_succ (n : Nat) : intValue (n + 1) = intIncrement (intValue n) := by
  unfold intValue intIncrement
  split_ifs <;> omega

theorem intValue_of_le (n : Nat) (h : n ≤ 2147483647) : intValue n = (n : Int) := by
  unfold intValue
  omega

theorem intValue_mono (m n : Nat) (hmn : m ≤ n) (hn : n ≤ 2147483647) :
    intValue m ≤ intValue n := by
  rw [intValue_of_le m (le_trans hmn hn), intValue_of_le n hn]
  exact_mod_cast hmn

theorem evaluateAndStoreStep_sample10_at (s : PrecisionEvaluator ℚ)
    (hsd : s.sim_data = [⟨[vehicle12]⟩]) (hr : s.resolution = 1) (hg : s.grid_size = 100) :
    evaluateAndStoreStep externQ s 0 [sample10] false =
      some (accumulateErrors s ⟨-2, 0, 0, 0⟩, []) := by
  have hstep : stepAt s.sim_data 0 = some ⟨[vehicle12]⟩ := by rw [hsd]; rfl
  have hcl : clustersOf externQ ⟨[vehicle12]⟩ [sample10] = [[sample10]] := rfl
  rw [evaluateAndStoreStep_eq externQ s 0 _ false _ hstep, hcl]
  simp only [evaluateClusters, evaluateCluster_sample10 false ⟨s, 0, []⟩ hr hg]
  rfl

theorem evaluateAndStoreStep_sampleFar_at (s : PrecisionEvaluator ℚ)
    (hsd : s.sim_data = [⟨[vehicle12]⟩]) (hr : s.resolution = 1) (hg : s.grid_size = 100) :
    evaluateAndStoreStep externQ s 0 [sampleFar] false = some (recordUnassigned s, []) := by
  have hstep : stepAt s.sim_data 0 = some ⟨[vehicle12]⟩ := by rw [hsd]; rfl
  have hcl : clustersOf externQ ⟨[vehicle12]⟩ [sampleFar] = [[sampleFar]] := rfl
  rw [evaluateAndStoreStep_eq externQ s 0 _ false _ hstep, hcl]
  simp only [evaluateClusters, evaluateCluster_sampleFar false ⟨s, 0, []⟩ hr hg]
  rfl

theorem runCalls_cons_of_step (E : Extern α)
    (s s1 : PrecisionEvaluator α) (c : Call α) (rest : List (Call α))
    (d : List (DiagRecord α))
    (h : evaluateAndStoreStep E s c.index c.cells c.print_current_precision = some (s1, d)) :
    runCalls E s (c :: rest) = runCalls E s1 rest := by
  simp only [runCalls, h]

theorem accumulateErrors_evaluatorAt (j : ℕ) :
    accumulateErrors (evaluatorAt (2 * (j : ℚ)) j) ⟨-2, 0, 0, 0⟩ =
      evaluatorAt (2 * ((j + 1 : ℕ) : ℚ)) (j + 1) := by
  have hx : 2 * (j : ℚ) + |(-2 : ℚ)| = 2 * ((j + 1 : ℕ) : ℚ) := by
    rw [abs_neg, abs_of_pos (by norm_num : (0 : ℚ) < 2)]
    push_cast
    ring
  simp only [accumulateErrors, evaluatorAt, hx, abs_zero, add_zero]

theorem runCalls_sample10 (k j : ℕ) :
    runCalls externQ (evaluatorAt (2 * (j : ℚ)) j) (List.replicate k ⟨0, [sample10], false⟩) =
      some (evaluatorAt (2 * ((j + k : ℕ) : ℚ)) (j + k)) := by
  induction k generalizing j with
  | zero => simp [runCalls]
  | succ k ih =>
    have hstep := evaluateAndStoreStep_sample10_at (evaluatorAt (2 * (j : ℚ)) j) rfl rfl rfl
    have e1 : j + 1 + k = j + (k + 1) := by omega
    rw [List.replicate_succ,
      runCalls_cons_of_step externQ _ _ ⟨0, [sample10], false⟩ _ _ hstep,
      accumulateErrors_evaluatorAt j, ih (j + 1), e1]

theorem runCalls_sampleFar (k u : ℕ) :
    runCalls externQ (evaluatorUnassigned u) (List.replicate k ⟨0, [sampleFar], false⟩) =
      some (evaluatorUnassigned (u + k)) := by
  induction k generalizing u with
  | zero => simp [runCalls]
  | succ k ih =>
    have hstep := evaluateAndStoreStep_sampleFar_at (evaluatorUnassigned u) rfl rfl rfl
    have e1 : u + 1 + k = u + (k + 1) := by omega
    have hrec : recordUnassigned (evaluatorUnassigned u) = evaluatorUnassigned (u + 1) := rfl
    rw [List.replicate_succ,
      runCalls_cons_of_step externQ _ _ ⟨0, [sampleFar], false⟩ _ _ hstep,
      hrec, ih (u + 1), e1]

/-- C18, counterexample: the counters are `int` members, and an `int` at
`INT_MAX` = 2147483647 does not grow when it is incremented.  After
2147483647 calls that each match one cluster the matched count holds
`INT_MAX`; the next call, and `accumulateErrors` alone, leave it at
-2147483648, below its value before the call.  The same happens to the
unassigned count after 2147483647 calls with an unassigned cluster. -/
theorem counter_wraps_at_int_max :
    runCalls externQ evaluator100 (List.replicate 2147483647 ⟨0, [sample10], false⟩) =
      some (evaluatorAt 4294967294 2147483647) ∧
    intValue (evaluatorAt 4294967294 2147483647).number_of_detections = 2147483647 ∧
    evaluateAndStoreStep externQ (evaluatorAt 4294967294 2147483647) 0 [sample10] false =
      some (accumulateErrors (evaluatorAt 4294967294 2147483647) ⟨-2, 0, 0, 0⟩, []) ∧
    intValue (accumulateErrors (evaluatorAt 4294967294 2147483647)
      ⟨-2, 0, 0, 0⟩).number_of_detections = -2147483648 ∧
    intValue (accumulateErrors (evaluatorAt 4294967294 2147483647)
        ⟨-2, 0, 0, 0⟩).number_of_detections <
      intValue (evaluatorAt 4294967294 2147483647).number_of_detections ∧
    runCalls externQ evaluator100 (List.replicate 2147483647 ⟨0, [sampleFar], false⟩) =
      some (evaluatorUnassigned 2147483647) ∧
    intValue (evaluatorUnassigned 2147483647).number_of_unassigned_detections = 2147483647 ∧
    evaluateAndStoreStep externQ (evaluatorUnassigned 2147483647) 0 [sampleFar] false =
      some (recordUnassigned (evaluatorUnassigned 2147483647), []) ∧
    intValue (recordUnassigned
      (evaluatorUnassigned 2147483647)).number_of_unassigned_detections = -2147483648 ∧
    intValue (recordUnassigned
        (evaluatorUnassigned 2147483647)).number_of_unassigned_detections <
      intValue (evaluatorUnassigned 2147483647).number_of_unassigned_detections := by
  have h0 : evaluator100 = evaluatorAt (2 * ((0 : ℕ) : ℚ)) 0 := by
    rw [Nat.cast_zero, mul_zero]
    rfl
  have hrun := runCalls_sample10 2147483647 0
  have e1 : (2 : ℚ) * ((0 + 2147483647 : ℕ) : ℚ) = 4294967294 := by norm_num
  have e2 : 0 + 2147483647 = 2147483647 := Nat.zero_add 2147483647
  rw [e1, e2, ← h0] at hrun
  have hrunFar := runCalls_sampleFar 2147483647 0
  have h0u : evaluatorUnassigned 0 = evaluator100 := rfl
  rw [e2, h0u] at hrunFar
  have hbefore : intValue (evaluatorAt 4294967294 2147483647).number_of_detections =
      2147483647 := by
    show intValue 2147483647 = 2147483647
    unfold intValue
    omega
  have hafter : intValue (accumulateErrors (evaluatorAt 4294967294 2147483647)
      ⟨-2, 0, 0, 0⟩).number_of_detections = -2147483648 := by
    show intValue (2147483647 + 1) = -2147483648
    unfold intValue
    omega
  have hbeforeU : intValue (evaluatorUnassigned 2147483647).number_of_unassigned_detections =
      2147483647 := by
    show intValue 2147483647 = 2147483647
    unfold intValue
    omega
  have hafterU : intValue (recordUnassigned
      (evaluatorUnassigned 2147483647)).number_of_unassigned_detections = -2147483648 := by
    show intValue (2147483647 + 1) = -2147483648
    unfold intValue
    omega
  refine ⟨hrun, hbefore, evaluateAndStoreStep_sample10_at _ rfl rfl rfl, hafter, ?_,
    hrunFar, hbeforeU, evaluateAndStoreStep_sampleFar_at _ rfl rfl rfl, hafterU, ?_⟩
  · rw [hbefore, hafter]
    norm_num
  · rw [hbeforeU, hafterU]
    norm_num

/-- C18, amended: a call of `evaluateAndStoreStep` returns, and each counter
that the call does not take beyond `INT_MAX` = 2147483647 holds, as the `int`
member it is, a value not below the one before the call; the same holds for
`accumulateErrors`, which does not touch the unassigned count. -/
theorem counters_monotone_below_int_max (E : Extern α)
    (hsort : StdSortContract E.sort)
    (self : PrecisionEvaluator α) (i : Int) (cells : List (Point α)) (p : Bool)
    (step : SimulationStep α) (hstep : stepAt self.sim_data i = some step)
    (hne : ∀ c ∈ computeDbscanClusters E cells, c ≠ []) (e : PointWithVelocity α) :
    (∃ s1 o1, evaluateAndStoreStep E self i cells p = some (s1, o1) ∧
      (s1.number_of_detections ≤ 2147483647 →
        intValue self.number_of_detections ≤ intValue s1.number_of_detections) ∧
      (s1.number_of_unassigned_detections ≤ 2147483647 →
        intValue self.number_of_unassigned_detections ≤
          intValue s1.number_of_unassigned_detections)) ∧
    ((accumulateErrors self e).number_of_detections ≤ 2147483647 →
      intValue self.number_of_detections ≤
        intValue (accumulateErrors self e).number_of_detections) ∧
    intValue self.number_of_unassigned_detections ≤
      intValue (accumulateErrors self e).number_of_unassigned_detections := by
  refine ⟨?_, fun h => intValue_mono _ _ (Nat.le_succ _) h, le_refl _⟩
  obtain ⟨l, hl, _, _, _, _, _, _, hn, hu, _, _⟩ :=
    evaluateAndStoreStep_advancedBy E hsort self i cells p step hstep hne
  refine ⟨l.self, l.cout, hl, fun h => intValue_mono _ _ ?_ h,
    fun h => intValue_mono _ _ ?_ h⟩
  · have hn1 : l.self.number_of_detections = self.number_of_detections +
        (matchedErrors E self step.vehicles (clustersOf E step cells)).length := hn
    omega
  · have hu1 : l.self.number_of_unassigned_detections +
        (matchedErrors E self step.vehicles (clustersOf E step cells)).length =
        self.number_of_unassigned_detections + (clustersOf E step cells).length := hu
    have hle : (matchedErrors E self step.vehicles (clustersOf E step cells)).length ≤
        (clustersOf E step cells).length := List.length_filterMap_le _ _
    omega

/-- Witness of C18, amended: the step with one vehicle and the single sample
(10, 10) on the fresh evaluator; the matched count goes from 0 to 1 and the
unassigned count stays 0, both within the range of `int`. -/
theorem counters_monotone_below_int_max_witness :
    StdSortContract externQ.sort ∧
    stepAt evaluator100.sim_data 0 = some ⟨[vehicle12]⟩ ∧
    (∀ c ∈ computeDbscanClusters externQ [sample10], c ≠ []) ∧
    evaluateAndStoreStep externQ evaluator100 0 [sample10] false =
      some (accumulateErrors evaluator100 ⟨-2, 0, 0, 0⟩, []) ∧
    (accumulateErrors evaluator100 ⟨-2, 0, 0, 0⟩).number_of_detections ≤ 2147483647 ∧
    (accumulateErrors evaluator100 ⟨-2, 0, 0, 0⟩).number_of_unassigned_detections ≤
      2147483647 ∧
    intValue evaluator100.number_of_detections ≤
      intValue (accumulateErrors evaluator100 ⟨-2, 0, 0, 0⟩).number_of_detections ∧
    intValue evaluator100.number_of_unassigned_detections ≤
      intValue (accumulateErrors evaluator100 ⟨-2, 0, 0, 0⟩).number_of_unassigned_detections ∧
    (∃ s1 o1, evaluateAndStoreStep externQ evaluator100 0 [sample10] false = some (s1, o1) ∧
      (s1.number_of_detections ≤ 2147483647 →
        intValue evaluator100.number_of_detections ≤ intValue s1.number_of_detections) ∧
      (s1.number_of_unassigned_detections ≤ 2147483647 →
        intValue evaluator100.number_of_unassigned_detections ≤
          intValue s1.number_of_unassigned_detections)) := by
  have hc : StdSortContract externQ.sort := insertionSortBy_contract
  have hne : ∀ c ∈ computeDbscanClusters externQ [sample10], c ≠ [] := by
    intro c hmem
    have hc1 : c = [sample10] := by
      simpa [computeDbscanClusters, externQ, oneCluster] using hmem
    simp [hc1]
  have h := counters_monotone_below_int_max externQ hc evaluator100 0 [sample10] false
    ⟨[vehicle12]⟩ rfl hne ⟨-2, 0, 0, 0⟩
  have hd : (accumulateErrors evaluator100 ⟨-2, 0, 0, 0⟩).number_of_detections ≤
      2147483647 := by
    show 0 + 1 ≤ 2147483647
    omega
  have hu : (accumulateErrors evaluator100 ⟨-2, 0, 0, 0⟩).number_of_unassigned_detections ≤
      2147483647 := by
    show 0 ≤ 2147483647
    omega
  exact ⟨hc, rfl, hne, evaluateAndStoreStep_sample10_at evaluator100 rfl rfl rfl, hd, hu,
    h.2.1 hd, h.2.2, h.1⟩

/-! ### Binary32 rounding -/

theorem roundHalfEven_intCast (n : ℤ) : roundHalfEven (n : ℚ) = n := by
  unfold roundHalfEven
  simp

theorem roundF32_of_int (x : ℚ) (n : ℤ) (h : x / 2 ^ (Int.log 2 |x| - 23) = n) :
    roundF32 x = x := by
  unfold roundF32
  rw [h, roundHalfEven_intCast, ← h]
  have hne : (2 : ℚ) ^ (Int.log 2 |x| - 23) ≠ 0 := zpow_ne_zero _ (by norm_num)
  field_simp

theorem log_two_bounds (x : ℚ) (hx : 0 < x) :
    (2 : ℚ) ^ Int.log 2 x ≤ x ∧ x < (2 : ℚ) ^ (Int.log 2 x + 1) := by
  have h1 := Int.zpow_log_le_self (b := 2) (r := x) (by norm_num) hx
  have h2 := Int.lt_zpow_succ_log_self (b := 2) (by norm_num) x
  exact ⟨by exact_mod_cast h1, by exact_mod_cast h2⟩

theorem log_two_eq (x : ℚ) (k : ℤ) (h1 : (2 : ℚ) ^ k ≤ x) (h2 : x < (2 : ℚ) ^ (k + 1)) :
    Int.log 2 x = k := by
  have hx : 0 < x := lt_of_lt_of_le (zpow_pos (by norm_num) k) h1
  obtain ⟨b1, b2⟩ := log_two_bounds x hx
  have hlt1 : (2 : ℚ) ^ k < (2 : ℚ) ^ (Int.log 2 x + 1) := lt_of_le_of_lt h1 b2
  have hlt2 : (2 : ℚ) ^ Int.log 2 x < (2 : ℚ) ^ (k + 1) := lt_of_le_of_lt b1 h2
  have e1 := (zpow_lt_zpow_iff_right₀ (by norm_num : (1 : ℚ) < 2)).mp hlt1
  have e2 := (zpow_lt_zpow_iff_right₀ (by norm_num : (1 : ℚ) < 2)).mp hlt2
  omega

/-- A natural number of at most 24 bits times a power of two is a binary32
value. -/
theorem roundF32_dyadic (M : ℕ) (hM : M ≤ 2 ^ 24) (t : ℤ) :
    roundF32 ((M : ℚ) * 2 ^ t) = (M : ℚ) * 2 ^ t := by
  rcases Nat.eq_zero_or_pos M with h0 | hpos
  · subst h0
    simp [roundF32, roundHalfEven]
  · have h2t : (0 : ℚ) < 2 ^ t := zpow_pos (by norm_num) t
    have hMq : (0 : ℚ) < M := by exact_mod_cast hpos
    have hx : 0 < (M : ℚ) * 2 ^ t := mul_pos hMq h2t
    have habs : |(M : ℚ) * 2 ^ t| = (M : ℚ) * 2 ^ t := abs_of_pos hx
    obtain ⟨b1, b2⟩ := log_two_bounds _ hx
    have hMle : (M : ℚ) ≤ 2 ^ (24 : ℤ) := by
      have h24 : (M : ℚ) ≤ ((2 ^ 24 : ℕ) : ℚ) := by exact_mod_cast hM
      have hpow : (((2 : ℕ) ^ 24 : ℕ) : ℚ) = (2 : ℚ) ^ (24 : ℤ) := by norm_num
      rw [hpow] at h24
      exact h24
    have hk : Int.log 2 ((M : ℚ) * 2 ^ t) ≤ 24 + t := by
      have h3 : (2 : ℚ) ^ Int.log 2 ((M : ℚ) * 2 ^ t) ≤ 2 ^ (24 + t) := by
        rw [zpow_add₀ (by norm_num : (2 : ℚ) ≠ 0)]
        exact le_trans b1 (mul_le_mul_of_nonneg_right hMle (le_of_lt h2t))
      exact (zpow_le_zpow_iff_right₀ (by norm_num : (1 : ℚ) < 2)).mp h3
    rcases lt_or_eq_of_le hk with hlt | heq
    · -- the exponent leaves room: the quotient is a natural number
      obtain ⟨d, hd⟩ := Int.eq_ofNat_of_zero_le
        (show 0 ≤ 23 + t - Int.log 2 ((M : ℚ) * 2 ^ t) by omega)
      apply roundF32_of_int _ ((M : ℤ) * 2 ^ d)
      rw [habs]
      have hexp : t - (Int.log 2 ((M : ℚ) * 2 ^ t) - 23) = (d : ℤ) := by omega
      rw [mul_div_assoc, ← zpow_sub₀ (by norm_num : (2 : ℚ) ≠ 0), hexp, zpow_natCast]
      push_cast
      ring
    · -- the top of the range: M is 2 ^ 24
      have hM2 : (M : ℚ) = 2 ^ (24 : ℤ) := by
        apply le_antisymm hMle
        have h4 : (2 : ℚ) ^ (24 + t) ≤ (M : ℚ) * 2 ^ t := by rw [← heq]; exact b1
        rw [zpow_add₀ (by norm_num : (2 : ℚ) ≠ 0)] at h4
        exact le_of_mul_le_mul_right h4 h2t
      apply roundF32_of_int _ (2 ^ 23)
      rw [habs, heq, hM2, ← zpow_add₀ (by norm_num : (2 : ℚ) ≠ 0),
        ← zpow_sub₀ (by norm_num : (2 : ℚ) ≠ 0)]
      have hexp : (24 : ℤ) + t - (24 + t - 23) = 23 := by omega
      rw [hexp]
      norm_num

/-- Above `2 ^ 26` the binary32 values are the multiples of 8: adding 4.5 to
one of them rounds up to the next. -/
theorem roundF32_add_up (m : ℕ) (h1 : 2 ^ 26 ≤ 8 * m) (h2 : 8 * m + 8 ≤ 2 ^ 27) :
    roundF32 (8 * (m : ℚ) + 9 / 2) = 8 * (m : ℚ) + 8 := by
  have hlo : (2 : ℚ) ^ (26 : ℤ) ≤ 8 * (m : ℚ) + 9 / 2 := by
    have : ((2 ^ 26 : ℕ) : ℚ) ≤ ((8 * m : ℕ) : ℚ) := by exact_mod_cast h1
    push_cast at this
    norm_num at this ⊢
    linarith
  have hhi : 8 * (m : ℚ) + 9 / 2 < (2 : ℚ) ^ ((26 : ℤ) + 1) := by
    have : ((8 * m + 8 : ℕ) : ℚ) ≤ ((2 ^ 27 : ℕ) : ℚ) := by exact_mod_cast h2
    push_cast at this
    norm_num at this ⊢
    linarith
  have hx : 0 < 8 * (m : ℚ) + 9 / 2 := by positivity
  have hlog := log_two_eq _ 26 hlo hhi
  unfold roundF32
  rw [abs_of_pos hx, hlog]
  have hq : (8 * (m : ℚ) + 9 / 2) / 2 ^ ((26 : ℤ) - 23) = (m : ℚ) + 9 / 16 := by
    norm_num
    ring
  have hfloor : ⌊(m : ℚ) + 9 / 16⌋ = (m : ℤ) := by
    rw [Int.floor_eq_iff]
    constructor
    · push_cast; linarith
    · push_cast; linarith
  rw [hq]
  unfold roundHalfEven
  rw [hfloor]
  norm_num
  ring

/-! ### A session with binary32 sums -/

theorem roundF32_zero : roundF32 0 = 0 := by
  simpa using roundF32_dyadic 0 (by norm_num) 0

theorem roundF32_natCast (M : ℕ) (hM : M ≤ 2 ^ 24) : roundF32 (M : ℚ) = M := by
  simpa using roundF32_dyadic M hM 0

theorem roundF32_one : roundF32 1 = 1 := by
  simpa using roundF32_natCast 1 (by norm_num)

theorem roundF32_four : roundF32 4 = 4 := by
  simpa using roundF32_natCast 4 (by norm_num)

theorem roundF32_ten : roundF32 10 = 10 := by
  simpa using roundF32_natCast 10 (by norm_num)

theorem roundF32_sixteen : roundF32 16 = 16 := by
  simpa using roundF32_natCast 16 (by norm_num)

theorem roundF32_ninety : roundF32 90 = 90 := by
  simpa using roundF32_natCast 90 (by norm_num)

theorem roundF32_half33 : roundF32 (33 / 2) = 33 / 2 := by
  have h := roundF32_dyadic 33 (by norm_num) (-1)
  norm_num at h
  exact h

theorem roundF32_half9 : roundF32 (9 / 2) = 9 / 2 := by
  have h := roundF32_dyadic 9 (by norm_num) (-1)
  norm_num at h
  exact h

theorem roundF32_quarter81 : roundF32 (81 / 4) = 81 / 4 := by
  have h := roundF32_dyadic 81 (by norm_num) (-2)
  norm_num at h
  exact h

theorem sqrtQ_sixteen : sqrtQ 16 = 4 := by
  simp [sqrtQ]
  norm_num

theorem sqrtQ_quarter81 : sqrtQ (81 / 4) = 9 / 2 := by
  have hn : ((81 : ℚ) / 4).num = 81 := by norm_num
  have hd : ((81 : ℚ) / 4).den = 4 := by norm_num
  have h324 : Int.toNat 81 * 4 = 324 := by decide
  have h18 : Nat.sqrt 324 = 18 := by norm_num
  simp only [sqrtQ, hn, hd, h324, h18]
  norm_num

theorem computeClusterMeanR_sample16 (s : PrecisionEvaluator ℚ) (hr : s.resolution = 1)
    (hg : s.grid_size = 100) :
    computeClusterMeanR roundF32 s [sample16] = some ⟨16, 90, 1, 0⟩ := by
  simp [computeClusterMeanR, clusterSumR, sample16, hr, hg, roundF32_zero, roundF32_one,
    roundF32_ten, roundF32_sixteen]
  norm_num [roundF32_ninety]

theorem computeClusterMeanR_sample16h (s : PrecisionEvaluator ℚ) (hr : s.resolution = 1)
    (hg : s.grid_size = 100) :
    computeClusterMeanR roundF32 s [sample16h] = some ⟨33 / 2, 90, 1, 0⟩ := by
  simp [computeClusterMeanR, clusterSumR, sample16h, hr, hg, roundF32_zero, roundF32_one,
    roundF32_ten, roundF32_half33]
  norm_num [roundF32_ninety]

theorem distanceR_sample16 : distanceR roundF32 externQ ⟨16, 90, 1, 0⟩ vehicle12 = 4 := by
  have h1 : ((16 : ℚ) - 12) = 4 := by norm_num
  have h2 : ((90 : ℚ) - 90) = 0 := by norm_num
  have h3 : ((4 : ℚ) ^ 2) = 16 := by norm_num
  have h4 : ((0 : ℚ) ^ 2) = 0 := by norm_num
  have h5 : ((16 : ℚ) + 0) = 16 := by norm_num
  simp only [distanceR, vehicle12, externQ, h1, h2, h3, h4, h5, roundF32_four, roundF32_zero,
    roundF32_sixteen, sqrtQ_sixteen]

theorem distanceR_sample16h : distanceR roundF32 externQ ⟨33 / 2, 90, 1, 0⟩ vehicle12 = 9 / 2 := by
  have h1 : ((33 : ℚ) / 2 - 12) = 9 / 2 := by norm_num
  have h2 : ((90 : ℚ) - 90) = 0 := by norm_num
  have h3 : (((9 : ℚ) / 2) ^ 2) = 81 / 4 := by norm_num
  have h4 : ((0 : ℚ) ^ 2) = 0 := by norm_num
  have h5 : ((81 : ℚ) / 4 + 0) = 81 / 4 := by norm_num
  simp only [distanceR, vehicle12, externQ, h1, h2, h3, h4, h5, roundF32_half9, roundF32_zero,
    roundF32_quarter81, sqrtQ_quarter81]

theorem computeErrorR_sample16 : computeErrorR roundF32 ⟨16, 90, 1, 0⟩ vehicle12 = ⟨4, 0, 0, 0⟩ := by
  have h1 : ((16 : ℚ) - 12) = 4 := by norm_num
  have h2 : ((90 : ℚ) - 90) = 0 := by norm_num
  have h3 : ((1 : ℚ) - 1) = 0 := by norm_num
  have h4 : ((0 : ℚ) - 0) = 0 := by norm_num
  simp only [computeErrorR, vehicle12, h1, h2, h3, h4, zero_add, roundF32_four, roundF32_zero]

theorem computeErrorR_sample16h :
    computeErrorR roundF32 ⟨33 / 2, 90, 1, 0⟩ vehicle12 = ⟨9 / 2, 0, 0, 0⟩ := by
  have h1 : ((33 : ℚ) / 2 - 12) = 9 / 2 := by norm_num
  have h2 : ((90 : ℚ) - 90) = 0 := by norm_num
  have h3 : ((1 : ℚ) - 1) = 0 := by norm_num
  have h4 : ((0 : ℚ) - 0) = 0 := by norm_num
  simp only [computeErrorR, vehicle12, h1, h2, h3, h4, zero_add, roundF32_half9, roundF32_zero]

/-- One call with a single cluster whose rounded centroid is `m`, at the
rounded distance `d` below 5 from the only vehicle. -/
theorem evaluateAndStoreStepR_single (s : PrecisionEvaluator ℚ) (pt : Point ℚ)
    (m e : PointWithVelocity ℚ) (d : ℚ)
    (hsd : s.sim_data = [⟨[vehicle12]⟩])
    (hm : computeClusterMeanR roundF32 s [pt] = some m)
    (hd : distanceR roundF32 externQ m vehicle12 = d) (hd5 : d < 5)
    (he : computeErrorR roundF32 m vehicle12 = e) :
    evaluateAndStoreStepR roundF32 externQ s 0 [pt] false =
      some (accumulateErrorsR roundF32 s e, []) := by
  have hstep : stepAt s.sim_data 0 = some ⟨[vehicle12]⟩ := by rw [hsd]; rfl
  have hcl : computeDbscanClusters externQ [pt] = [[pt]] := rfl
  have hmatch : matchingGroundtruthVehiclesR roundF32 externQ m [vehicle12] = [vehicle12] := by
    simp [matchingGroundtruthVehiclesR, hd, kMaximumAssignmentDistance, hd5]
  have hclosest : closestVehicleR roundF32 externQ m [vehicle12] = some vehicle12 := by
    simp [closestVehicleR, externQ, insertionSortBy]
  have hcentroid : evaluateCentroidR roundF32 externQ [vehicle12] false ⟨s, 0, []⟩ m =
      some ⟨accumulateErrorsR roundF32 s e, 0 + 1, []⟩ := by
    simp [evaluateCentroidR, hmatch, hclosest, he]
  unfold evaluateAndStoreStepR
  rw [hstep]
  simp only [hcl, evaluateClustersR, evaluateClusterR, hm, hcentroid]
  simp

theorem accumulateErrorsR_four (j n : ℕ) (hj : j + 1 ≤ 2 ^ 24) :
    accumulateErrorsR roundF32 (evaluatorAt (4 * (j : ℚ)) n) ⟨4, 0, 0, 0⟩ =
      evaluatorAt (4 * ((j + 1 : ℕ) : ℚ)) (n + 1) := by
  have h := roundF32_dyadic (j + 1) hj 2
  have hx : roundF32 (4 * (j : ℚ) + |(4 : ℚ)|) = 4 * ((j + 1 : ℕ) : ℚ) := by
    have e1 : 4 * (j : ℚ) + |(4 : ℚ)| = ((j + 1 : ℕ) : ℚ) * 2 ^ (2 : ℤ) := by
      rw [abs_of_pos (by norm_num : (0 : ℚ) < 4)]
      push_cast
      norm_num
      ring
    rw [e1, h]
    norm_num
    ring
  simp only [accumulateErrorsR, evaluatorAt, hx, abs_zero, add_zero, roundF32_zero]

theorem accumulateErrorsR_half9 (m n : ℕ) (h1 : 2 ^ 26 ≤ 8 * m) (h2 : 8 * m + 8 ≤ 2 ^ 27) :
    accumulateErrorsR roundF32 (evaluatorAt (8 * (m : ℚ)) n) ⟨9 / 2, 0, 0, 0⟩ =
      evaluatorAt (8 * ((m + 1 : ℕ) : ℚ)) (n + 1) := by
  have hx : roundF32 (8 * (m : ℚ) + |(9 : ℚ) / 2|) = 8 * ((m + 1 : ℕ) : ℚ) := by
    rw [abs_of_pos (by norm_num : (0 : ℚ) < 9 / 2), roundF32_add_up m h1 h2]
    push_cast
    ring
  simp only [accumulateErrorsR, evaluatorAt, hx, abs_zero, add_zero, roundF32_zero]

theorem runCallsR_append (rnd : ℚ → ℚ) (E : Extern ℚ) (l1 l2 : List (Call ℚ))
    (s s1 : PrecisionEvaluator ℚ) (h : runCallsR rnd E s l1 = some s1) :
    runCallsR rnd E s (l1 ++ l2) = runCallsR rnd E s1 l2 := by
  induction l1 generalizing s with
  | nil =>
    simp only [runCallsR] at h
    rw [← Option.some.inj h]
    rfl
  | cons c rest ih =>
    simp only [runCallsR, List.cons_append] at h ⊢
    cases hr : evaluateAndStoreStepR rnd E s c.index c.cells c.print_current_precision with
    | none => rw [hr] at h; cases h
    | some r =>
      rw [hr] at h
      exact ih r.1 h

theorem runCallsR_cons_of_step (rnd : ℚ → ℚ) (E : Extern ℚ) (s s1 : PrecisionEvaluator ℚ)
    (c : Call ℚ) (rest : List (Call ℚ)) (d : List (DiagRecord ℚ))
    (h : evaluateAndStoreStepR rnd E s c.index c.cells c.print_current_precision = some (s1, d)) :
    runCallsR rnd E s (c :: rest) = runCallsR rnd E s1 rest := by
  simp only [runCallsR, h]

theorem runCallsR_sample16 (k j n : ℕ) (hj : j + k ≤ 16777216) :
    runCallsR roundF32 externQ (evaluatorAt (4 * (j : ℚ)) n)
        (List.replicate k ⟨0, [sample16], false⟩) =
      some (evaluatorAt (4 * ((j + k : ℕ) : ℚ)) (n + k)) := by
  induction k generalizing j n with
  | zero => simp [runCallsR]
  | succ k ih =>
    have hstep := evaluateAndStoreStepR_single (evaluatorAt (4 * (j : ℚ)) n) sample16
      ⟨16, 90, 1, 0⟩ ⟨4, 0, 0, 0⟩ 4 rfl
      (computeClusterMeanR_sample16 _ rfl rfl) distanceR_sample16 (by norm_num)
      computeErrorR_sample16
    have hj1 : j + 1 ≤ 2 ^ 24 := by norm_num; omega
    have hj2 : j + 1 + k ≤ 16777216 := by omega
    have e1 : j + 1 + k = j + (k + 1) := by omega
    have e2 : n + 1 + k = n + (k + 1) := by omega
    rw [List.replicate_succ,
      runCallsR_cons_of_step roundF32 externQ _ _ ⟨0, [sample16], false⟩ _ _ hstep,
      accumulateErrorsR_four j n hj1, ih (j + 1) (n + 1) hj2, e1, e2]

theorem runCallsR_sample16h (k m n : ℕ) (h1 : 67108864 ≤ 8 * m) (h2 : 8 * (m + k) ≤ 134217728) :
    runCallsR roundF32 externQ (evaluatorAt (8 * (m : ℚ)) n)
        (List.replicate k ⟨0, [sample16h], false⟩) =
      some (evaluatorAt (8 * ((m + k : ℕ) : ℚ)) (n + k)) := by
  induction k generalizing m n with
  | zero => simp [runCallsR]
  | succ k ih =>
    have hstep := evaluateAndStoreStepR_single (evaluatorAt (8 * (m : ℚ)) n) sample16h
      ⟨33 / 2, 90, 1, 0⟩ ⟨9 / 2, 0, 0, 0⟩ (9 / 2) rfl
      (computeClusterMeanR_sample16h _ rfl rfl) distanceR_sample16h (by norm_num)
      computeErrorR_sample16h
    have hm1 : 2 ^ 26 ≤ 8 * m := by norm_num; omega
    have hm2 : 8 * m + 8 ≤ 2 ^ 27 := by norm_num; omega
    have hk1 : 67108864 ≤ 8 * (m + 1) := by omega
    have hk2 : 8 * (m + 1 + k) ≤ 134217728 := by omega
    have e1 : m + 1 + k = m + (k + 1) := by omega
    have e2 : n + 1 + k = n + (k + 1) := by omega
    rw [List.replicate_succ,
      runCallsR_cons_of_step roundF32 externQ _ _ ⟨0, [sample16h], false⟩ _ _ hstep,
      accumulateErrorsR_half9 m n hm1 hm2, ih (m + 1) (n + 1) hk1 hk2, e1, e2]

theorem runCallsR_session :
    runCallsR roundF32 externQ evaluator100
        (List.replicate 16777216 ⟨0, [sample16], false⟩ ++
          List.replicate 5592406 ⟨0, [sample16h], false⟩) =
      some (evaluatorAt 111848112 22369622) := by
  have h0 : evaluator100 = evaluatorAt (4 * ((0 : ℕ) : ℚ)) 0 := by
    rw [Nat.cast_zero, mul_zero]
    rfl
  have h1 := runCallsR_sample16 16777216 0 0 (le_of_eq (Nat.zero_add 16777216))
  have e1 : (4 : ℚ) * ((0 + 16777216 : ℕ) : ℚ) = 8 * ((8388608 : ℕ) : ℚ) := by norm_num
  have e2 : 0 + 16777216 = 16777216 := Nat.zero_add 16777216
  rw [e1, e2, ← h0] at h1
  have h2 := runCallsR_sample16h 5592406 8388608 16777216 (by norm_num) (by norm_num)
  have e3 : (8 : ℚ) * ((8388608 + 5592406 : ℕ) : ℚ) = 111848112 := by norm_num
  have e4 : 16777216 + 5592406 = 22369622 := by norm_num
  rw [e3, e4] at h2
  rw [runCallsR_append roundF32 externQ _ _ evaluator100 _ h1, h2]

theorem roundF32_count_session : roundF32 22369622 = 22369622 := by
  have h := roundF32_dyadic 11184811 (by norm_num) 1
  have e : ((11184811 : ℕ) : ℚ) * 2 ^ (1 : ℤ) = 22369622 := by norm_num
  rw [e] at h
  exact h

theorem roundF32_mean_session : roundF32 (111848112 / 22369622) = 5 := by
  have hlo : (2 : ℚ) ^ (2 : ℤ) ≤ 111848112 / 22369622 := by norm_num
  have hhi : (111848112 : ℚ) / 22369622 < (2 : ℚ) ^ ((2 : ℤ) + 1) := by norm_num
  have hx : (0 : ℚ) < 111848112 / 22369622 := by norm_num
  have hlog := log_two_eq _ 2 hlo hhi
  unfold roundF32
  rw [abs_of_pos hx, hlog]
  have hq : ((111848112 : ℚ) / 22369622) / 2 ^ ((2 : ℤ) - 23) =
      10485760 + 2097152 / 11184811 := by
    norm_num
  have hfloor : ⌊(10485760 : ℚ) + 2097152 / 11184811⌋ = 10485760 := by
    rw [Int.floor_eq_iff]
    constructor
    · norm_num
    · norm_num
  rw [hq]
  unfold roundHalfEven
  rw [hfloor]
  norm_num

/-- C19, counterexample: with the sums kept in binary32, as the `float`
members of the source are, the bound fails.  A session of 16777216 calls
whose cluster lies at distance 4 from the vehicle, followed by 5592406 calls
whose cluster lies at distance 4.5, matches a vehicle within 5.0 in every
call; the x sum reaches 111848112, which exceeds five times the matched
count 22369622, and the mean that `printSummary` computes in binary32 is
5. -/
theorem position_sum_exceeds_radius_binary32 :
    distanceR roundF32 externQ ⟨16, 90, 1, 0⟩ vehicle12 = 4 ∧
    distanceR roundF32 externQ ⟨33 / 2, 90, 1, 0⟩ vehicle12 = 9 / 2 ∧
    runCallsR roundF32 externQ evaluator100
        (List.replicate 16777216 ⟨0, [sample16], false⟩ ++
          List.replicate 5592406 ⟨0, [sample16h], false⟩) =
      some (evaluatorAt 111848112 22369622) ∧
    (evaluatorAt 111848112 22369622).number_of_detections = 22369622 ∧
    5 * ((evaluatorAt 111848112 22369622).number_of_detections : ℚ) <
      (evaluatorAt 111848112 22369622).cumulative_error.x ∧
    ¬ PositionSumsBounded (evaluatorAt 111848112 22369622) ∧
    roundF32 ((evaluatorAt 111848112 22369622).cumulative_error.x /
      roundF32 ((evaluatorAt 111848112 22369622).number_of_detections : ℚ)) = 5 := by
  have hlt : 5 * ((evaluatorAt 111848112 22369622).number_of_detections : ℚ) <
      (evaluatorAt 111848112 22369622).cumulative_error.x := by
    show (5 : ℚ) * ((22369622 : ℕ) : ℚ) < 111848112
    norm_num
  refine ⟨distanceR_sample16, distanceR_sample16h, runCallsR_session, rfl, hlt, ?_, ?_⟩
  · intro hb
    exact absurd hb.2.1 (not_le.mpr hlt)
  · show roundF32 ((111848112 : ℚ) / roundF32 ((22369622 : ℕ) : ℚ)) = 5
    have e : ((22369622 : ℕ) : ℚ) = 22369622 := by norm_num
    rw [e, roundF32_count_session, roundF32_mean_session]

/-! ### The rounded pipeline with the identity as rounding is the exact one -/

theorem computeErrorR_id (m : PointWithVelocity ℚ) (v : Vehicle ℚ) :
    computeErrorR id m v = computeError m v := rfl

theorem computeClusterMeanR_id (self : PrecisionEvaluator ℚ) (cluster : Cluster ℚ) :
    computeClusterMeanR id self cluster = computeClusterMean self cluster := rfl

theorem accumulateErrorsR_id (self : PrecisionEvaluator ℚ) (e : PointWithVelocity ℚ) :
    accumulateErrorsR id self e = accumulateErrors self e := rfl

theorem distanceR_id (E : Extern ℚ) (m : PointWithVelocity ℚ) (v : Vehicle ℚ) :
    distanceR id E m v = distance E m v := rfl

theorem matchingGroundtruthVehiclesR_id (E : Extern ℚ) (m : PointWithVelocity ℚ)
    (vs : List (Vehicle ℚ)) :
    matchingGroundtruthVehiclesR id E m vs = matchingGroundtruthVehicles E m vs := rfl

theorem closestVehicleR_id (E : Extern ℚ) (m : PointWithVelocity ℚ) (vs : List (Vehicle ℚ)) :
    closestVehicleR id E m vs = closestVehicle E m vs := rfl

theorem evaluateCentroidR_id (E : Extern ℚ) (vs : List (Vehicle ℚ)) (p : Bool)
    (s : LoopState ℚ) (m : PointWithVelocity ℚ) :
    evaluateCentroidR id E vs p s m = evaluateCentroid E vs p s m := by
  simp only [evaluateCentroidR, evaluateCentroid, matchingGroundtruthVehiclesR_id,
    closestVehicleR_id, computeErrorR_id, accumulateErrorsR_id]
  cases closestVehicle E m (matchingGroundtruthVehicles E m vs) <;> rfl

theorem evaluateClustersR_id (E : Extern ℚ) (vs : List (Vehicle ℚ)) (p : Bool)
    (s : LoopState ℚ) (clusters : List (Cluster ℚ)) :
    evaluateClustersR id E vs p s clusters = evaluateClusters E vs p s clusters := by
  induction clusters generalizing s with
  | nil => rfl
  | cons c rest ih =>
    simp only [evaluateClustersR, evaluateClusters, evaluateClusterR, evaluateCluster,
      computeClusterMeanR_id, evaluateCentroidR_id]
    cases computeClusterMean s.self c with
    | none => rfl
    | some m =>
      simp only []
      cases evaluateCentroid E vs p s m with
      | none => rfl
      | some s1 => exact ih s1

theorem evaluateAndStoreStepR_id (E : Extern ℚ) (self : PrecisionEvaluator ℚ) (i : Int)
    (cells : List (Point ℚ)) (p : Bool) :
    evaluateAndStoreStepR id E self i cells p = evaluateAndStoreStep E self i cells p := by
  simp only [evaluateAndStoreStepR, evaluateAndStoreStep, evaluateClustersR_id]
  cases stepAt self.sim_data i with
  | none => rfl
  | some step =>
    simp only []
    split_ifs
    · cases evaluateClusters E step.vehicles p ⟨self, 0, []⟩ (computeDbscanClusters E cells) <;>
        rfl
    · rfl

theorem runCallsR_id (E : Extern ℚ) (s : PrecisionEvaluator ℚ) (calls : List (Call ℚ)) :
    runCallsR id E s calls = runCalls E s calls := by
  induction calls generalizing s with
  | nil => rfl
  | cons c rest ih =>
    simp only [runCallsR, runCalls, evaluateAndStoreStepR_id]
    cases evaluateAndStoreStep E s c.index c.cells c.print_current_precision with
    | none => rfl
    | some r => exact ih r.1


end Theorems

end Dogm
